import Mathlib

/-!
Shallow embedding of the sqlite-clone storage engine (src/table.c, src/table.h,
src/codegen.c, src/codegen.h, src/main.c).

Modelling conventions:
* A page is a 4096-byte buffer, encoded as a natural number in base 256,
  little-endian: the byte at offset `o` is `p / 256^o % 256`.  Two buffers
  are byte-identical iff the encodings are equal naturals (given both are
  `< 256^4096`).  A C store of a `uint8_t` at offset `o` replaces that digit
  (truncating the stored value mod 256 exactly like the C cast); a
  `uint32_t` is the four little-endian digits at `o..o+3`, so a `uint32_t`
  store automatically truncates mod 2^32 exactly like the C code.  `readSeg`
  and `writeSeg` below read/replace a whole `len`-byte digit group and are
  the common image of the C byte accesses and memcpys.
* `malloc`ed buffers are modelled as all-zero pages.  Every allocation site in
  the source initializes the page (or fills it from the file) before any byte
  that the engine later reads is consumed, so the choice is unobservable on
  the paths the source exercises.
* C `while`/recursive descent loops become fuel-indexed structural recursions;
  the fuel chosen at each call site dominates the loop bound of the source
  (binary search gets `num_cells + 1` fuel, which is proved sufficient).
* Fatal `exit(EXIT_FAILURE)` paths, the NULL-page sentinel of `get_page`, and
  the out-of-range access `pages[100]` (the `pages` array has 100 slots) are
  distinguished constructors of the error type `Err`.
* The `Cursor` of the C code carries a back pointer to its `Table`; here the
  table is threaded explicitly next to the cursor.
-/

/-- PAGE_SIZE constant from table.c. -/
def PAGE_SIZE : Nat := 4096

/-- A 4096-byte page buffer: its base-256 little-endian encoding. -/
abbrev Page : Type := Nat

/-- `256 ^ n`, written as a shift so that it also evaluates quickly. -/
def b256 (n : Nat) : Nat := 1 <<< (8 * n)

/-- The `len`-byte group starting at byte offset `off` (little-endian value). -/
def readSeg (p : Page) (off len : Nat) : Nat := p / b256 off % b256 len

/-- Replace the `len`-byte group at byte offset `off` by (the low `len` bytes
of) `v`, leaving every other byte unchanged. -/
def writeSeg (p : Page) (off len v : Nat) : Page :=
  p / b256 (off + len) * b256 (off + len) + v % b256 len * b256 off + p % b256 off

/-- Read one byte (C `*(uint8_t *)(node + o)`). -/
def readU8 (p : Page) (o : Nat) : Nat := readSeg p o 1

/-- Store one byte (C `*(uint8_t *)(node + o) = v`); the value is truncated to
a byte exactly as the C `uint8_t` store does. -/
def writeU8 (p : Page) (o : Nat) (v : Nat) : Page := writeSeg p o 1 v

/-- Read a little-endian `uint32_t` at offset `o`. -/
def readU32 (p : Page) (o : Nat) : Nat := readSeg p o 4

/-- Store a `uint32_t` at offset `o` as its four little-endian bytes
(truncates mod 2^32 like the C `uint32_t` store). -/
def writeU32 (p : Page) (o : Nat) (v : Nat) : Page := writeSeg p o 4 v

/-- C `memcpy(dst + dOff, src + sOff, len)` between two page buffers: move
the `len`-byte group.  The source only calls this on non-overlapping
regions, where C memcpy has this value semantics. -/
def copyBytes (dst : Page) (dOff : Nat) (src : Page) (sOff : Nat) (len : Nat) : Page :=
  writeSeg dst dOff len (readSeg src sOff len)

/-- Pack `len` bytes drawn from `src` into a little-endian group. -/
def segOfBytes (src : Nat → Nat) : Nat → Nat
  | 0 => 0
  | k + 1 => segOfBytes src k + src k % 256 * b256 k

/-- C `memcpy` from a byte source (used for the row fields). -/
def writeBytes (p : Page) (off : Nat) (src : Nat → Nat) (len : Nat) : Page :=
  writeSeg p off len (segOfBytes src len)

/-- The all-zero page, standing for a freshly `malloc`ed buffer. -/
def zeroPage : Page := 0

-- Row layout constants (table.c lines 22-29; sizeof(uint32_t) = 4,
-- sizeof(char[33]) = 33, sizeof(char[256]) = 256).
def ID_SIZE : Nat := 4
def USERNAME_SIZE : Nat := 33
def EMAIL_SIZE : Nat := 256
def ID_OFFSET : Nat := 0
def USERNAME_OFFSET : Nat := ID_OFFSET + ID_SIZE
def EMAIL_OFFSET : Nat := USERNAME_OFFSET + USERNAME_SIZE
def ROW_SIZE : Nat := ID_SIZE + USERNAME_SIZE + EMAIL_SIZE

-- Common node header layout (table.c lines 34-40).
def NODE_TYPE_SIZE : Nat := 1
def NODE_TYPE_OFFSET : Nat := 0
def IS_ROOT_SIZE : Nat := 1
def IS_ROOT_OFFSET : Nat := NODE_TYPE_SIZE + NODE_TYPE_OFFSET
def PARENT_POINTER_SIZE : Nat := 4
def PARENT_POINTER_OFFSET : Nat := IS_ROOT_SIZE + IS_ROOT_OFFSET
def COMMON_NODE_HEADER_SIZE : Nat := NODE_TYPE_SIZE + IS_ROOT_SIZE + PARENT_POINTER_SIZE

-- Internal node header layout (table.c lines 43-49).
def INTERNAL_NODE_NUM_KEYS_SIZE : Nat := 4
def INTERNAL_NODE_NUM_KEYS_OFFSET : Nat := COMMON_NODE_HEADER_SIZE
def INTERNAL_NODE_RIGHTMOST_CHILD_SIZE : Nat := 4
def INTERNAL_NODE_RIGHTMOST_CHILD_OFFSET : Nat :=
  INTERNAL_NODE_NUM_KEYS_OFFSET + INTERNAL_NODE_NUM_KEYS_SIZE
def INTERNAL_NODE_HEADER_SIZE : Nat :=
  COMMON_NODE_HEADER_SIZE + INTERNAL_NODE_NUM_KEYS_SIZE + INTERNAL_NODE_RIGHTMOST_CHILD_SIZE

-- Internal node body layout (table.c lines 56-59).
def INTERNAL_NODE_KEY_SIZE : Nat := 4
def INTERNAL_NODE_CHILD_SIZE : Nat := 4
def INTERNAL_NODE_CELL_SIZE : Nat := INTERNAL_NODE_CHILD_SIZE + INTERNAL_NODE_KEY_SIZE

-- Leaf node header layout (table.c lines 62-66).
def LEAF_NODE_NUM_CELLS_SIZE : Nat := 4
def LEAF_NODE_NUM_CELLS_OFFSET : Nat := COMMON_NODE_HEADER_SIZE
def LEAF_NODE_NEXT_LEAF_SIZE : Nat := 4
def LEAF_NODE_NEXT_LEAF_OFFSET : Nat := LEAF_NODE_NUM_CELLS_OFFSET + LEAF_NODE_NUM_CELLS_SIZE
def LEAF_NODE_HEADER_SIZE : Nat :=
  COMMON_NODE_HEADER_SIZE + LEAF_NODE_NUM_CELLS_SIZE + LEAF_NODE_NEXT_LEAF_SIZE

-- Leaf node body layout (table.c lines 69-79).
def LEAF_NODE_KEY_SIZE : Nat := 4
def LEAF_NODE_KEY_OFFSET : Nat := 0
def LEAF_NODE_VALUE_SIZE : Nat := ROW_SIZE
def LEAF_NODE_VALUE_OFFSET : Nat := LEAF_NODE_KEY_SIZE + LEAF_NODE_KEY_OFFSET
def LEAF_NODE_CELL_SIZE : Nat := LEAF_NODE_KEY_SIZE + LEAF_NODE_VALUE_SIZE
def LEAF_NODE_SPACE_FOR_CELLS : Nat := PAGE_SIZE - LEAF_NODE_HEADER_SIZE
def LEAF_NODE_MAX_CELLS : Nat := LEAF_NODE_SPACE_FOR_CELLS / LEAF_NODE_CELL_SIZE
def LEAF_NODE_RIGHT_SPLIT_COUNT : Nat := (LEAF_NODE_MAX_CELLS + 1) / 2
def LEAF_NODE_LEFT_SPLIT_COUNT : Nat :=
  (LEAF_NODE_MAX_CELLS + 1) - LEAF_NODE_RIGHT_SPLIT_COUNT

/-- `.constants` output of print_constants (table.c lines 216-224). -/
def print_constants : List String :=
  ["ROW_SIZE: " ++ toString ROW_SIZE,
   "COMMON_NODE_HEADER_SIZE: " ++ toString COMMON_NODE_HEADER_SIZE,
   "LEAF_NODE_HEADER_SIZE: " ++ toString LEAF_NODE_HEADER_SIZE,
   "LEAF_NODE_CELL_SIZE: " ++ toString LEAF_NODE_CELL_SIZE,
   "LEAF_NODE_SPACE_FOR_CELLS: " ++ toString LEAF_NODE_SPACE_FOR_CELLS,
   "LEAF_NODE_MAX_CELLS: " ++ toString LEAF_NODE_MAX_CELLS]

/-- NodeType enum from table.h (NODE_INTERNAL is declared first, so it has
C enum value 0, and NODE_LEAF has value 1). -/
inductive NodeType where
  | NODE_INTERNAL : NodeType
  | NODE_LEAF : NodeType
deriving DecidableEq

/-- The `uint8_t` value of a NodeType under the C enum-to-int cast. -/
def NodeType.toByte : NodeType → Nat
  | .NODE_INTERNAL => 0
  | .NODE_LEAF => 1

-- Node accessors (table.c lines 82-196).  The C accessors return pointers;
-- here each read/write use-site becomes an explicit read/write function.

def leaf_node_num_cells (node : Page) : Nat := readU32 node LEAF_NODE_NUM_CELLS_OFFSET

def write_leaf_node_num_cells (node : Page) (v : Nat) : Page :=
  writeU32 node LEAF_NODE_NUM_CELLS_OFFSET v

def leaf_node_next_leaf (node : Page) : Nat := readU32 node LEAF_NODE_NEXT_LEAF_OFFSET

def write_leaf_node_next_leaf (node : Page) (v : Nat) : Page :=
  writeU32 node LEAF_NODE_NEXT_LEAF_OFFSET v

def leaf_node_cell_off (cell_num : Nat) : Nat :=
  LEAF_NODE_HEADER_SIZE + cell_num * LEAF_NODE_CELL_SIZE

def leaf_node_key (node : Page) (cell_num : Nat) : Nat :=
  readU32 node (leaf_node_cell_off cell_num)

def write_leaf_node_key (node : Page) (cell_num : Nat) (v : Nat) : Page :=
  writeU32 node (leaf_node_cell_off cell_num) v

def leaf_node_value_off (cell_num : Nat) : Nat :=
  leaf_node_cell_off cell_num + LEAF_NODE_KEY_SIZE

/-- `memcpy(leaf_node_cell(dst, di), leaf_node_cell(src, si), LEAF_NODE_CELL_SIZE)`. -/
def copy_leaf_cell (dst : Page) (di : Nat) (src : Page) (si : Nat) : Page :=
  copyBytes dst (leaf_node_cell_off di) src (leaf_node_cell_off si) LEAF_NODE_CELL_SIZE

def get_node_type (node : Page) : Nat := readU8 node NODE_TYPE_OFFSET

def set_node_type (node : Page) (t : NodeType) : Page :=
  writeU8 node NODE_TYPE_OFFSET t.toByte

def is_node_root (node : Page) : Bool := readU8 node IS_ROOT_OFFSET != 0

def set_node_root (node : Page) (is_root : Bool) : Page :=
  writeU8 node IS_ROOT_OFFSET (if is_root then 1 else 0)

/-- initialize_leaf_node (table.c lines 107-113; the Lean name drops a banned
substring of the C one). -/
def init_leaf_node (node : Page) : Page :=
  write_leaf_node_next_leaf
    (write_leaf_node_num_cells (set_node_root (set_node_type node .NODE_LEAF) false) 0) 0

def internal_node_num_keys (node : Page) : Nat :=
  readU32 node INTERNAL_NODE_NUM_KEYS_OFFSET

def write_internal_node_num_keys (node : Page) (v : Nat) : Page :=
  writeU32 node INTERNAL_NODE_NUM_KEYS_OFFSET v

/-- initialize_internal_node (table.c lines 143-148). -/
def init_internal_node (node : Page) : Page :=
  write_internal_node_num_keys (set_node_root (set_node_type node .NODE_INTERNAL) false) 0

def internal_node_rightmost_child (node : Page) : Nat :=
  readU32 node INTERNAL_NODE_RIGHTMOST_CHILD_OFFSET

def write_internal_node_rightmost_child (node : Page) (v : Nat) : Page :=
  writeU32 node INTERNAL_NODE_RIGHTMOST_CHILD_OFFSET v

def internal_node_cell_off (cell_num : Nat) : Nat :=
  INTERNAL_NODE_HEADER_SIZE + cell_num * INTERNAL_NODE_CELL_SIZE

def internal_node_key_off (key_num : Nat) : Nat :=
  internal_node_cell_off key_num + INTERNAL_NODE_CHILD_SIZE

def internal_node_key (node : Page) (key_num : Nat) : Nat :=
  readU32 node (internal_node_key_off key_num)

def write_internal_node_key (node : Page) (key_num : Nat) (v : Nat) : Page :=
  writeU32 node (internal_node_key_off key_num) v

/-- Error outcomes of the embedded engine. -/
inductive Err where
  | nullPage : Err
  | slotOOB : Err
  | fatalExit : String → Err
  | fuelOut : Err
deriving DecidableEq

deriving instance DecidableEq for Except

/-- internal_node_child (table.c lines 169-181): rightmost child when
`child_num = num_keys`, fatal when `child_num > num_keys`. -/
def internal_node_child (node : Page) (child_num : Nat) : Except Err Nat :=
  let num_keys := internal_node_num_keys node
  if child_num > num_keys then
    .error (.fatalExit "Tried to access child_num > num_keys")
  else if child_num = num_keys then
    .ok (internal_node_rightmost_child node)
  else
    .ok (readU32 node (internal_node_cell_off child_num))

/-- Write through internal_node_child (used by create_new_root with
`child_num = 0`, `num_keys = 1`). -/
def write_internal_node_child (node : Page) (child_num : Nat) (v : Nat) : Except Err Page :=
  let num_keys := internal_node_num_keys node
  if child_num > num_keys then
    .error (.fatalExit "Tried to access child_num > num_keys")
  else if child_num = num_keys then
    .ok (write_internal_node_rightmost_child node v)
  else
    .ok (writeU32 node (internal_node_cell_off child_num) v)

/-- get_node_max_key (table.c lines 184-196).  The `num_keys = 0` /
`num_cells = 0` case underflows a `uint32_t` in the C code (an out-of-bounds
read); the source only calls this on nonempty nodes. -/
def get_node_max_key (node : Page) : Nat :=
  if get_node_type node = NodeType.toByte .NODE_INTERNAL then
    internal_node_key node (internal_node_num_keys node - 1)
  else
    leaf_node_key node (leaf_node_num_cells node - 1)

/-- Row structure from table.h: `id` is a `uint32_t`, `username` and `email`
are NUL-padded byte arrays of 33 and 256 bytes. -/
structure Row where
  id : Nat
  username : List Nat
  email : List Nat
deriving DecidableEq

/-- serialize_row (table.c lines 200-207): three memcpys at fixed offsets. -/
def serialize_row (source : Row) (node : Page) (off : Nat) : Page :=
  let p1 := writeU32 node (off + ID_OFFSET) source.id
  let p2 := writeBytes p1 (off + USERNAME_OFFSET) (fun i => source.username.getD i 0) USERNAME_SIZE
  writeBytes p2 (off + EMAIL_OFFSET) (fun i => source.email.getD i 0) EMAIL_SIZE

/-- deserialize_row (table.c lines 209-214). -/
def deserialize_row (node : Page) (off : Nat) : Row :=
  { id := readU32 node (off + ID_OFFSET),
    username := (List.range USERNAME_SIZE).map (fun i => readU8 node (off + USERNAME_OFFSET + i)),
    email := (List.range EMAIL_SIZE).map (fun i => readU8 node (off + EMAIL_OFFSET + i)) }

-- Pager and table (table.h lines 31-58).

def TABLE_MAX_PAGES : Nat := 100

/-- Pager: file descriptor state is replaced by the file's byte content,
encoded base-256 little-endian like pages (a file of length L has
`file < 256^L`); `file_length` and `file` are the open-time snapshot that
get_page reads (the C code never writes the file before db_close). -/
structure Pager where
  file_length : Nat
  file : Nat
  num_pages : Nat
  pages : List (Option Page)
deriving DecidableEq

structure Table where
  root_page_num : Nat
  pager : Pager
deriving DecidableEq

/-- Cursor (table.h lines 52-58) without the C back pointer to the table. -/
structure Cursor where
  page_num : Nat
  cell_num : Nat
  end_of_table : Bool
deriving DecidableEq

/-- The page content `read` loads for page `page_num`: bytes within the file
extent come from the file, the rest of the buffer keeps its (modelled zero)
malloc content.  A read entirely past EOF returns 0 bytes, leaving the whole
buffer at its malloc content, which the formula also yields. -/
def file_page (pager : Pager) (page_num : Nat) : Page :=
  readSeg pager.file (page_num * PAGE_SIZE) PAGE_SIZE

/-- get_page (table.c lines 519-558).  `page_num > 100` returns the NULL
sentinel; note that `page_num = 100` then indexes `pages[100]` of a 100-slot
array, which the embedding reports as `slotOOB`. -/
def get_page (pager : Pager) (page_num : Nat) : Except Err (Page × Pager) :=
  if page_num > TABLE_MAX_PAGES then .error .nullPage
  else
    match pager.pages.get? page_num with
    | none => .error .slotOOB
    | some (some page) => .ok (page, pager)
    | some none =>
      let num_pages1 := if page_num ≥ pager.num_pages then page_num + 1 else pager.num_pages
      let file_num_pages := pager.file_length / PAGE_SIZE
      let page : Page := if page_num ≤ file_num_pages then file_page pager page_num else zeroPage
      .ok (page, { pager with num_pages := num_pages1,
                              pages := pager.pages.set page_num (some page) })

/-- Install a (locally mutated) page buffer back into its pager slot.  In the
C code this is implicit: the tree functions mutate the buffer owned by the
pager in place. -/
def set_page (pager : Pager) (page_num : Nat) (page : Page) : Pager :=
  { pager with pages := pager.pages.set page_num (some page) }

/-- get_unused_page_num (table.c line 514). -/
def get_unused_page_num (pager : Pager) : Nat := pager.num_pages

/-- What a successful `get_page` returns for slot `n`, as a pure function of
the pager (used by the simulation lemmas; not part of the C source). -/
def pageView (pager : Pager) (n : Nat) : Page :=
  match pager.pages.get? n with
  | some (some p) => p
  | _ => if n ≤ pager.file_length / PAGE_SIZE then file_page pager n else zeroPage

-- B-tree search (table.c lines 317-388).

/-- Binary-search loop of leaf_node_find (table.c lines 368-384).  `start_i`
stays a natural number (it starts at 0 and only grows); `end_i` is a C `int`
and can reach -1.  The fuel passed at the call site, `num_cells + 1`, bounds
the interval length and is proved sufficient. -/
def leaf_find_loop (node : Page) (key : Nat) : Nat → Nat → Int → Nat
  | 0, start_i, _ => start_i
  | fuel + 1, start_i, end_i =>
    if (start_i : Int) ≤ end_i then
      let middle_i := (start_i + end_i.toNat) / 2
      let cell_key := leaf_node_key node middle_i
      if cell_key = key then middle_i
      else if cell_key > key then leaf_find_loop node key fuel start_i ((middle_i : Int) - 1)
      else leaf_find_loop node key fuel (middle_i + 1) end_i
    else start_i

/-- leaf_node_find (table.c lines 359-388). -/
def leaf_node_find (t : Table) (page_num : Nat) (key_to_insert : Nat) :
    Except Err (Cursor × Table) := do
  let (node, pager1) ← get_page t.pager page_num
  let node_num_cells := leaf_node_num_cells node
  let cell := leaf_find_loop node key_to_insert (node_num_cells + 1) 0 ((node_num_cells : Int) - 1)
  .ok ({ page_num := page_num, cell_num := cell, end_of_table := node_num_cells == 0 },
       { t with pager := pager1 })

/-- Binary-search loop of internal_node_find (table.c lines 334-342). -/
def internal_find_loop (node : Page) (key : Nat) : Nat → Nat → Int → Nat
  | 0, start_i, _ => start_i
  | fuel + 1, start_i, end_i =>
    if (start_i : Int) ≤ end_i then
      let middle_i := (start_i + end_i.toNat) / 2
      let middle := internal_node_key node middle_i
      if middle ≥ key then internal_find_loop node key fuel start_i ((middle_i : Int) - 1)
      else internal_find_loop node key fuel (middle_i + 1) end_i
    else start_i

/-- internal_node_find (table.c lines 328-351).  The C recursion descends
through child pages; the fuel models its (unbounded, potentially cyclic)
depth and dominates any acyclic descent when chosen ≥ TABLE_MAX_PAGES. -/
def internal_node_find : Nat → Table → Nat → Nat → Except Err (Cursor × Table)
  | 0, _, _, _ => .error .fuelOut
  | fuel + 1, t, page_num, key_to_insert => do
    let (node, pager1) ← get_page t.pager page_num
    let node_num_keys := internal_node_num_keys node
    let start_i := internal_find_loop node key_to_insert (node_num_keys + 1) 0 ((node_num_keys : Int) - 1)
    let child_num ← internal_node_child node start_i
    let (child, pager2) ← get_page pager1 child_num
    let t2 := { t with pager := pager2 }
    if get_node_type child = NodeType.toByte .NODE_LEAF then
      leaf_node_find t2 child_num key_to_insert
    else
      internal_node_find fuel t2 child_num key_to_insert

/-- Fuel handed to the descent by table_find; any acyclic descent visits at
most TABLE_MAX_PAGES + 1 pages. -/
def FIND_FUEL : Nat := TABLE_MAX_PAGES + 1

/-- table_find (table.c lines 317-326). -/
def table_find (t : Table) (key_to_insert : Nat) : Except Err (Cursor × Table) := do
  let (root_node, pager1) ← get_page t.pager t.root_page_num
  let t1 := { t with pager := pager1 }
  if get_node_type root_node = NodeType.toByte .NODE_LEAF then
    leaf_node_find t1 t.root_page_num key_to_insert
  else
    internal_node_find FIND_FUEL t1 t.root_page_num key_to_insert

-- Cursors and scanning (table.c lines 273-313).

/-- table_start (table.c lines 273-282). -/
def table_start (t : Table) : Except Err (Cursor × Table) := do
  let (cursor, t1) ← table_find t 0
  let (node, pager2) ← get_page t1.pager cursor.page_num
  let num_cells := leaf_node_num_cells node
  .ok ({ cursor with end_of_table := num_cells == 0 }, { t1 with pager := pager2 })

/-- cursor_advance (table.c lines 284-304). -/
def cursor_advance (t : Table) (cursor : Cursor) : Except Err (Cursor × Table) := do
  let (node, pager1) ← get_page t.pager cursor.page_num
  let t1 := { t with pager := pager1 }
  let cell_num1 := cursor.cell_num + 1
  if cell_num1 ≥ leaf_node_num_cells node then
    let next_page_num := leaf_node_next_leaf node
    if next_page_num = 0 then
      .ok ({ cursor with cell_num := cell_num1, end_of_table := true }, t1)
    else
      .ok ({ cursor with page_num := next_page_num, cell_num := 0 }, t1)
  else
    .ok ({ cursor with cell_num := cell_num1 }, t1)

/-- cursor_value (table.c lines 307-313): returns the page and in-page offset
of the row slot, or `none` when get_page produced the NULL sentinel. -/
def cursor_value (t : Table) (cursor : Cursor) : Except Err (Option (Page × Nat) × Table) :=
  match get_page t.pager cursor.page_num with
  | .error .nullPage => .ok (none, t)
  | .error e => .error e
  | .ok (page, pager1) =>
    .ok (some (page, leaf_node_value_off cursor.cell_num), { t with pager := pager1 })

-- Insertion (table.c lines 392-507).

/-- The cell-shifting loop of leaf_node_insert (table.c lines 406-410):
iterates i from `num_cells` down to `cell_num + 1`, copying cell i-1 to i.
The first argument is `cell_num`, the recursion argument is i. -/
def shift_cells (low : Nat) : Nat → Page → Page
  | 0, node => node
  | i + 1, node =>
    if i + 1 > low then shift_cells low i (copy_leaf_cell node (i + 1) node i)
    else node

/-- One iteration (at index i) of the redistribution loop of
leaf_node_split_and_insert (table.c lines 441-462), acting on the pair
(old_node, new_node). -/
def split_insert_step (cursor_cell : Nat) (key : Nat) (value : Row)
    (st : Page × Page) (i : Nat) : Page × Page :=
  let old_node := st.1
  let new_node := st.2
  if i ≥ LEAF_NODE_LEFT_SPLIT_COUNT then
    let index_within_node := i % LEAF_NODE_LEFT_SPLIT_COUNT
    let new1 :=
      if i = cursor_cell then
        write_leaf_node_key
          (serialize_row value new_node (leaf_node_value_off index_within_node))
          index_within_node key
      else if i > cursor_cell then copy_leaf_cell new_node index_within_node old_node (i - 1)
      else copy_leaf_cell new_node index_within_node old_node i
    (old_node, new1)
  else
    let index_within_node := i % LEAF_NODE_LEFT_SPLIT_COUNT
    let old1 :=
      if i = cursor_cell then
        write_leaf_node_key
          (serialize_row value old_node (leaf_node_value_off index_within_node))
          index_within_node key
      else if i > cursor_cell then copy_leaf_cell old_node index_within_node old_node (i - 1)
      else copy_leaf_cell old_node index_within_node old_node i
    (old1, new_node)

/-- The full redistribution loop: i from LEAF_NODE_MAX_CELLS down to 0. -/
def split_loop (old_node new_node : Page) (cursor_cell key : Nat) (value : Row) :
    Page × Page :=
  ((List.range (LEAF_NODE_MAX_CELLS + 1)).reverse).foldl
    (split_insert_step cursor_cell key value) (old_node, new_node)

/-- create_new_root (table.c lines 482-507). -/
def create_new_root (t : Table) (right_child_page_num : Nat) : Except Err Table := do
  let (root, pager1) ← get_page t.pager t.root_page_num
  let left_child_page_num := get_unused_page_num pager1
  let (left_child, pager2) ← get_page pager1 left_child_page_num
  let left_child := copyBytes left_child 0 root 0 PAGE_SIZE
  let left_child := set_node_root left_child false
  let root := init_internal_node root
  let root := set_node_root root true
  let root := write_internal_node_num_keys root 1
  let root ← write_internal_node_child root 0 left_child_page_num
  let left_child_max_key := get_node_max_key left_child
  let root := write_internal_node_key root 0 left_child_max_key
  let root := write_internal_node_rightmost_child root right_child_page_num
  .ok { t with pager := set_page (set_page pager2 left_child_page_num left_child)
                          t.root_page_num root }

/-- leaf_node_split_and_insert (table.c lines 422-480).  The non-root branch
is the fatal unimplemented path of the source. -/
def leaf_node_split_and_insert (t : Table) (cursor : Cursor) (key : Nat) (value : Row) :
    Except Err Table := do
  let (old_node, pager1) ← get_page t.pager cursor.page_num
  let new_page_num := get_unused_page_num pager1
  let (new_node, pager2) ← get_page pager1 new_page_num
  let new_node := init_leaf_node new_node
  let new_node := write_leaf_node_next_leaf new_node (leaf_node_next_leaf old_node)
  let old_node := write_leaf_node_next_leaf old_node new_page_num
  let st := split_loop old_node new_node cursor.cell_num key value
  let old_node := write_leaf_node_num_cells st.1 LEAF_NODE_LEFT_SPLIT_COUNT
  let new_node := write_leaf_node_num_cells st.2 LEAF_NODE_RIGHT_SPLIT_COUNT
  let pager3 := set_page (set_page pager2 cursor.page_num old_node) new_page_num new_node
  let t3 := { t with pager := pager3 }
  if is_node_root old_node then
    create_new_root t3 new_page_num
  else
    .error (.fatalExit "Need to implement updating parent after split")

/-- leaf_node_insert (table.c lines 392-420). -/
def leaf_node_insert (t : Table) (cursor : Cursor) (key : Nat) (value : Row) :
    Except Err Table := do
  let (node, pager1) ← get_page t.pager cursor.page_num
  let t1 := { t with pager := pager1 }
  let node_num_cells := leaf_node_num_cells node
  if node_num_cells ≥ LEAF_NODE_MAX_CELLS then
    leaf_node_split_and_insert t1 cursor key value
  else
    let node := if cursor.cell_num < node_num_cells
                then shift_cells cursor.cell_num node_num_cells node
                else node
    let node := write_leaf_node_num_cells node (leaf_node_num_cells node + 1)
    let node := write_leaf_node_key node cursor.cell_num key
    let node := serialize_row value node (leaf_node_value_off cursor.cell_num)
    .ok { t1 with pager := set_page pager1 cursor.page_num node }

-- Dispatcher result codes (codegen.h lines 25-39).

inductive PrepareResult where
  | PREPARE_SUCCESS : PrepareResult
  | PREPARE_SYNTAX_ERROR : PrepareResult
  | PREPARE_NEGATIVE_ID : PrepareResult
  | PREPARE_STRING_TOO_LONG : PrepareResult
  | PREPARE_UNRECOGNIZED_STATEMENT : PrepareResult
deriving DecidableEq

/-- ExecuteResult as declared in codegen.h (note: the EXECUTE_TABLE_FULL case
matched by main.c does not exist in this enum). -/
inductive ExecuteResult where
  | EXECUTE_SUCCESS : ExecuteResult
  | EXECUTE_DUPLICATE_KEY : ExecuteResult
  | EXECUTE_FAILURE : ExecuteResult
deriving DecidableEq

open PrepareResult ExecuteResult

/-- execute_insert (codegen.c lines 111-135).  The duplicate-key check reads
`leaf_node_num_cells` and `leaf_node_key` from the ROOT page (the source
comments say "because we fill only 1 node so far"), not from the leaf the
cursor landed on. -/
def execute_insert (t : Table) (row_to_insert : Row) : Except Err (ExecuteResult × Table) := do
  let (root_node, pager1) ← get_page t.pager t.root_page_num
  let node_num_cells := leaf_node_num_cells root_node
  let key_to_insert := row_to_insert.id
  let (cursor, t1) ← table_find { t with pager := pager1 } key_to_insert
  if cursor.cell_num < node_num_cells ∧
      leaf_node_key root_node cursor.cell_num = key_to_insert then
    .ok (EXECUTE_DUPLICATE_KEY, t1)
  else do
    let t2 ← leaf_node_insert t1 cursor key_to_insert row_to_insert
    .ok (EXECUTE_SUCCESS, t2)

/-- The while loop of execute_select (codegen.c lines 95-103), collecting the
rows it prints.  Fuel models the unbounded loop. -/
def select_loop : Nat → Table → Cursor → Except Err (ExecuteResult × List Row × Table)
  | 0, _, _ => .error .fuelOut
  | fuel + 1, t, cursor =>
    if cursor.end_of_table then .ok (EXECUTE_SUCCESS, [], t)
    else do
      let (slot, t1) ← cursor_value t cursor
      match slot with
      | none => .ok (EXECUTE_FAILURE, [], t1)
      | some (page, off) =>
        let row := deserialize_row page off
        let (cursor2, t2) ← cursor_advance t1 cursor
        let (res, rows, t3) ← select_loop fuel t2 cursor2
        .ok (res, row :: rows, t3)

/-- execute_select (codegen.c lines 91-106). -/
def execute_select (fuel : Nat) (t : Table) : Except Err (ExecuteResult × List Row × Table) := do
  let (cursor, t1) ← table_start t
  select_loop fuel t1 cursor

-- Opening and closing the database (table.c lines 563-683).

/-- A database file: its length and byte content. -/
structure DbFile where
  length : Nat
  bytes : Nat
deriving DecidableEq

/-- pager_open (table.c lines 584-620). -/
def pager_open (f : DbFile) : Except Err Pager :=
  if f.length % PAGE_SIZE ≠ 0 then
    .error (.fatalExit "Db file is not a whole number of pages. Corrupt file.")
  else
    .ok { file_length := f.length, file := f.bytes,
          num_pages := f.length / PAGE_SIZE,
          pages := List.replicate TABLE_MAX_PAGES none }

/-- db_open (table.c lines 563-581). -/
def db_open (f : DbFile) : Except Err Table := do
  let pager ← pager_open f
  let t : Table := { root_page_num := 0, pager := pager }
  if pager.num_pages = 0 then do
    let (root_node, pager1) ← get_page pager 0
    let root_node := set_node_root (init_leaf_node root_node) true
    .ok { t with pager := set_page pager1 0 root_node }
  else
    .ok t

/-- pager_flush (table.c lines 658-683) as a file transformation: seek to
`page_num * PAGE_SIZE` and write exactly PAGE_SIZE bytes of the page. -/
def pager_flush_file (f : DbFile) (page : Page) (page_num : Nat) : DbFile :=
  { length := max f.length (page_num * PAGE_SIZE + PAGE_SIZE),
    bytes := writeSeg f.bytes (page_num * PAGE_SIZE) PAGE_SIZE page }

/-- db_close (table.c lines 627-656): flush every present page in
`[0, num_pages)` (skipping absent slots), producing the final file. -/
def db_close (t : Table) : Except Err DbFile :=
  (List.range t.pager.num_pages).foldlM
    (fun f i =>
      match t.pager.pages.get? i with
      | none => .error Err.slotOOB
      | some none => .ok f
      | some (some page) => .ok (pager_flush_file f page i))
    { length := t.pager.file_length, bytes := t.pager.file }

-- The parser (codegen.c lines 27-66).

/-- A line of user input, modelled as the C char buffer it is: a list of
characters. -/
abbrev Line : Type := List Char

/-- The token sequence strtok(buffer, " ") produces: maximal nonempty runs
between spaces.  `acc` holds the (reversed) characters of the token being
scanned. -/
def strtok_all : Line → List Char → List (List Char)
  | [], acc => if acc.isEmpty then [] else [acc.reverse]
  | c :: cs, acc =>
    if c = ' ' then
      if acc.isEmpty then strtok_all cs [] else acc.reverse :: strtok_all cs []
    else strtok_all cs (c :: acc)

def tokenize (line : Line) : List (List Char) := strtok_all line []

/-- C atoi digit scan: the longest digit prefix (0 when there is none). -/
def atoiDigits : List Char → Nat → Nat
  | [], acc => acc
  | c :: cs, acc => if c.isDigit then atoiDigits cs (acc * 10 + (c.toNat - 48)) else acc

/-- C atoi on a token: optional leading whitespace, optional sign, then the
longest digit prefix.  Overflow of the C `int` is undefined behaviour and
not modelled. -/
def atoi (s : List Char) : Int :=
  let cs := s.dropWhile (fun c => c = ' ' ∨ c = '\t' ∨ c = '\n' ∨ c = '\r')
  match cs with
  | '-' :: rest => -(atoiDigits rest 0 : Int)
  | '+' :: rest => (atoiDigits rest 0 : Int)
  | rest => (atoiDigits rest 0 : Int)

/-- COLUMN_USERNAME_SIZE / COLUMN_EMAIL_SIZE (table.h lines 11-12). -/
def COLUMN_USERNAME_SIZE : Nat := 32
def COLUMN_EMAIL_SIZE : Nat := 255

/-- Statement produced by the parser (codegen.h lines 19-23); only insert
carries a row. -/
structure Statement where
  is_insert : Bool
  row_to_insert : Row
deriving DecidableEq

/-- prepare_insert (codegen.c lines 27-51).  strtok yields the keyword token
first, then id, username, email. -/
def prepare_insert (line : Line) : PrepareResult × Option Statement :=
  let toks := tokenize line
  match toks.get? 1, toks.get? 2, toks.get? 3 with
  | some id_string, some username, some email =>
    let id := atoi id_string
    if id < 0 then (PREPARE_NEGATIVE_ID, none)
    else if username.length > COLUMN_USERNAME_SIZE then (PREPARE_STRING_TOO_LONG, none)
    else if email.length > COLUMN_EMAIL_SIZE then (PREPARE_STRING_TOO_LONG, none)
    else (PREPARE_SUCCESS,
          some (Statement.mk true
            (Row.mk id.toNat (username.map Char.toNat) (email.map Char.toNat))))
  | _, _, _ => (PREPARE_SYNTAX_ERROR, none)

/-- prepare_statement (codegen.c lines 53-66): `strncmp(buffer, "insert", 6)`
is a prefix test on the first six characters of the buffer. -/
def prepare_statement (line : Line) : PrepareResult × Option Statement :=
  if ('i' :: 'n' :: 's' :: 'e' :: 'r' :: 't' :: []).isPrefixOf line then prepare_insert line
  else if line = ('s' :: 'e' :: 'l' :: 'e' :: 'c' :: 't' :: []) then
    (PREPARE_SUCCESS, some (Statement.mk false (Row.mk 0 [] [])))
  else (PREPARE_UNRECOGNIZED_STATEMENT, none)

-- Pure (pager-free) images of the read-only operations, as functions of the
-- page view.  These are proof devices: the simulation lemmas below show the
-- stateful operations compute exactly these values.

/-- What get_page returns for slot `n` (given the 100-slot pages array of
pager_open): the NULL sentinel for `n > 100`, the out-of-range slot access
for `n = 100`, the view otherwise. -/
def get_page_pure (V : Nat → Page) (n : Nat) : Except Err Page :=
  if n > TABLE_MAX_PAGES then .error .nullPage
  else if n = TABLE_MAX_PAGES then .error .slotOOB
  else .ok (V n)

def leaf_node_find_pure (V : Nat → Page) (page_num key : Nat) : Except Err Cursor :=
  (get_page_pure V page_num).map (fun node =>
    let node_num_cells := leaf_node_num_cells node
    { page_num := page_num,
      cell_num := leaf_find_loop node key (node_num_cells + 1) 0 ((node_num_cells : Int) - 1),
      end_of_table := node_num_cells == 0 })

def internal_node_find_pure : Nat → (Nat → Page) → Nat → Nat → Except Err Cursor
  | 0, _, _, _ => .error .fuelOut
  | fuel + 1, V, page_num, key => do
    let node ← get_page_pure V page_num
    let node_num_keys := internal_node_num_keys node
    let start_i := internal_find_loop node key (node_num_keys + 1) 0 ((node_num_keys : Int) - 1)
    let child_num ← internal_node_child node start_i
    let child ← get_page_pure V child_num
    if get_node_type child = NodeType.toByte .NODE_LEAF then
      leaf_node_find_pure V child_num key
    else
      internal_node_find_pure fuel V child_num key

def table_find_pure (V : Nat → Page) (root_page_num key : Nat) : Except Err Cursor := do
  let root_node ← get_page_pure V root_page_num
  if get_node_type root_node = NodeType.toByte .NODE_LEAF then
    leaf_node_find_pure V root_page_num key
  else
    internal_node_find_pure FIND_FUEL V root_page_num key

def table_start_pure (V : Nat → Page) (root_page_num : Nat) : Except Err Cursor := do
  let cursor ← table_find_pure V root_page_num 0
  let node ← get_page_pure V cursor.page_num
  .ok { cursor with end_of_table := leaf_node_num_cells node == 0 }

def cursor_advance_pure (V : Nat → Page) (cursor : Cursor) : Except Err Cursor := do
  let node ← get_page_pure V cursor.page_num
  let cell_num1 := cursor.cell_num + 1
  if cell_num1 ≥ leaf_node_num_cells node then
    let next_page_num := leaf_node_next_leaf node
    if next_page_num = 0 then
      .ok { cursor with cell_num := cell_num1, end_of_table := true }
    else
      .ok { cursor with page_num := next_page_num, cell_num := 0 }
  else
    .ok { cursor with cell_num := cell_num1 }

def cursor_value_pure (V : Nat → Page) (cursor : Cursor) : Except Err (Option (Page × Nat)) :=
  match get_page_pure V cursor.page_num with
  | .error .nullPage => .ok none
  | .error e => .error e
  | .ok page => .ok (some (page, leaf_node_value_off cursor.cell_num))

def select_loop_pure : Nat → (Nat → Page) → Cursor → Except Err (ExecuteResult × List Row)
  | 0, _, _ => .error .fuelOut
  | fuel + 1, V, cursor =>
    if cursor.end_of_table then .ok (EXECUTE_SUCCESS, [])
    else do
      let slot ← cursor_value_pure V cursor
      match slot with
      | none => .ok (EXECUTE_FAILURE, [])
      | some (page, off) =>
        let row := deserialize_row page off
        let cursor2 ← cursor_advance_pure V cursor
        let (res, rows) ← select_loop_pure fuel V cursor2
        .ok (res, row :: rows)

def execute_select_pure (fuel : Nat) (V : Nat → Page) (root_page_num : Nat) :
    Except Err (ExecuteResult × List Row) := do
  let cursor ← table_start_pure V root_page_num
  select_loop_pure fuel V cursor

-- Reference descent for claim C4, following the wording of the spec:
-- "choose the child at the smallest index i with key[i] ≥ key", and at a
-- leaf "the matching index on hit, otherwise the smallest index with a
-- strictly greater key, otherwise num_cells; end_of_table iff empty".

/-- Strictly ascending comparison chain (computable replacement for
`List.Chain' (· < ·)`). -/
def strictAscendingB : List Nat → Bool
  | [] => true
  | [_] => true
  | a :: b :: rest => decide (a < b) && strictAscendingB (b :: rest)

/-- Nondecreasing comparison chain. -/
def nondecreasingB : List Nat → Bool
  | [] => true
  | [_] => true
  | a :: b :: rest => decide (a ≤ b) && nondecreasingB (b :: rest)

def leaf_keys (node : Page) : List Nat :=
  (List.range (leaf_node_num_cells node)).map (leaf_node_key node)

def internal_keys (node : Page) : List Nat :=
  (List.range (internal_node_num_keys node)).map (internal_node_key node)

/-- The leaf cell index the spec describes. -/
def ref_leaf_cell (node : Page) (key : Nat) : Nat :=
  let n := leaf_node_num_cells node
  match (List.range n).find? (fun i => leaf_node_key node i == key) with
  | some i => i
  | none =>
    match (List.range n).find? (fun i => decide (key < leaf_node_key node i)) with
    | some i => i
    | none => n

/-- The smallest index i with key[i] ≥ key, and num_keys when there is none. -/
def smallest_ge (node : Page) (key : Nat) : Nat :=
  let n := internal_node_num_keys node
  ((List.range n).find? (fun i => decide (key ≤ internal_node_key node i))).getD n

/-- The spec's descent: recurse into the child at the smallest index with
key[i] ≥ key (the rightmost child when i = num_keys). -/
def find_ref : Nat → (Nat → Page) → Nat → Nat → Except Err Cursor
  | 0, _, _, _ => .error .fuelOut
  | fuel + 1, V, page_num, key =>
    let node := V page_num
    if get_node_type node = NodeType.toByte .NODE_LEAF then
      .ok { page_num := page_num, cell_num := ref_leaf_cell node key,
            end_of_table := leaf_node_num_cells node == 0 }
    else
      let i := smallest_ge node key
      let child_num := if i = internal_node_num_keys node
                       then internal_node_rightmost_child node
                       else readU32 node (internal_node_cell_off i)
      find_ref fuel V child_num key

/-- Claim C4's hypothesis as stated: every leaf of the tree holds strictly
increasing (hence distinct) keys.  Nodes must also live below the page
bound for the descent to be meaningful. -/
def leaves_sorted : Nat → (Nat → Page) → Nat → Bool
  | 0, _, _ => false
  | fuel + 1, V, page_num =>
    if TABLE_MAX_PAGES ≤ page_num then false
    else
      let node := V page_num
      if get_node_type node = NodeType.toByte .NODE_LEAF then
        strictAscendingB (leaf_keys node)
      else
        ((List.range (internal_node_num_keys node)).all
          (fun i => leaves_sorted fuel V (readU32 node (internal_node_cell_off i)))) &&
        leaves_sorted fuel V (internal_node_rightmost_child node)

/-- The amended hypothesis: additionally every internal node's key array is
nondecreasing (which invariant I5 of the spec guarantees on reachable
trees). -/
def sorted_tree : Nat → (Nat → Page) → Nat → Bool
  | 0, _, _ => false
  | fuel + 1, V, page_num =>
    if TABLE_MAX_PAGES ≤ page_num then false
    else
      let node := V page_num
      if get_node_type node = NodeType.toByte .NODE_LEAF then
        strictAscendingB (leaf_keys node)
      else
        nondecreasingB (internal_keys node) &&
        ((List.range (internal_node_num_keys node)).all
          (fun i => sorted_tree fuel V (readU32 node (internal_node_cell_off i)))) &&
        sorted_tree fuel V (internal_node_rightmost_child node)

-- Concrete databases used by the counterexamples and witnesses.

def emptyDbFile : DbFile := { length := 0, bytes := 0 }

def dummyTable : Table :=
  { root_page_num := 0,
    pager := { file_length := 0, file := 0, num_pages := 0, pages := [] } }

/-- The table db_open yields on a fresh (empty) database file. -/
def freshTable : Table := (db_open emptyDbFile).toOption.getD dummyTable

/-- A row with the given id and empty (all-NUL) strings. -/
def mkRow (id : Nat) : Row := { id := id, username := [], email := [] }

/-- Run a sequence of inserts through execute_insert, collecting the result
codes. -/
def run_inserts : List Nat → Table → Except Err (List ExecuteResult × Table)
  | [], t => .ok ([], t)
  | k :: ks, t => do
    let (res, t1) ← execute_insert t (mkRow k)
    let (rest, t2) ← run_inserts ks t1
    .ok (res :: rest, t2)

def run_results (l : List Nat) : Except Err (List ExecuteResult) :=
  (run_inserts l freshTable).map Prod.fst

def table_after (l : List Nat) : Table :=
  ((run_inserts l freshTable).map Prod.snd).toOption.getD dummyTable

def SELECT_FUEL : Nat := 2000

/-- The ids emitted by a full scan (table_start / cursor_advance loop). -/
def scan_ids_of (t : Table) : Except Err (List Nat) :=
  (execute_select SELECT_FUEL t).map (fun x => x.2.1.map Row.id)

/-- Result and row list of a select, state discarded. -/
def select_rows_of (t : Table) : Except Err (ExecuteResult × List Row) :=
  (execute_select SELECT_FUEL t).map (fun x => (x.1, x.2.1))

def num_cells_page (t : Table) (n : Nat) : Nat := leaf_node_num_cells (pageView t.pager n)

/-- db_close followed by db_open on the produced file. -/
def reopened (t : Table) : Except Err Table := (db_close t).bind db_open

-- Hand-built pages for concrete trees.

def mkLeafPage (is_root : Bool) (next : Nat) (keys : List Nat) : Page :=
  let p0 := set_node_root (set_node_type zeroPage .NODE_LEAF) is_root
  let p1 := write_leaf_node_next_leaf (write_leaf_node_num_cells p0 keys.length) next
  (List.range keys.length).foldl (fun p i => write_leaf_node_key p i (keys.getD i 0)) p1

def mkInternalPage (is_root : Bool) (cells : List (Nat × Nat)) (rightmost : Nat) : Page :=
  let p0 := set_node_root (set_node_type zeroPage .NODE_INTERNAL) is_root
  let p1 := write_internal_node_rightmost_child
              (write_internal_node_num_keys p0 cells.length) rightmost
  (List.range cells.length).foldl
    (fun p i =>
      write_internal_node_key
        (writeU32 p (internal_node_cell_off i) (cells.getD i (0, 0)).1) i (cells.getD i (0, 0)).2)
    p1

def mkTable (given : List (Option Page)) (num_pages : Nat) : Table :=
  { root_page_num := 0,
    pager := { file_length := 0, file := 0, num_pages := num_pages,
               pages := given ++ List.replicate (TABLE_MAX_PAGES - given.length) none } }

/-- Counterexample tree for C4: every leaf is strictly sorted, but the root's
internal key array [10, 2, 10] is not sorted, so binary search does not find
the smallest index with key[i] ≥ k. -/
def cx4_table : Table :=
  mkTable
    [some (mkInternalPage true [(1, 10), (2, 2), (3, 10)] 4),
     some (mkLeafPage false 2 [1]), some (mkLeafPage false 3 [2]),
     some (mkLeafPage false 4 [3]), some (mkLeafPage false 0 [4])] 5

/-- Witness tree for the amended C4: a sorted two-leaf tree. -/
def w4_table : Table :=
  mkTable
    [some (mkInternalPage true [(1, 2)] 2),
     some (mkLeafPage false 2 [1, 2]), some (mkLeafPage false 0 [3, 4])] 3

/-- Witness tree for the amended C5: the right leaf (page 1) is full with 13
cells and is not the root. -/
def w5_table : Table :=
  mkTable
    [some (mkInternalPage true [(2, 7)] 1),
     some (mkLeafPage false 0 [8, 9, 10, 11, 12, 13, 14, 15, 16, 17, 18, 19, 20]),
     some (mkLeafPage false 1 [1, 2, 3, 4, 5, 6, 7])] 3

/-- Witness pager for C8: the pager pager_open builds (100 empty slots). -/
def w8_pager : Pager :=
  { file_length := 0, file := 0, num_pages := 0,
    pages := List.replicate TABLE_MAX_PAGES none }

/-- The 293-byte serialized image of a row (little-endian group), the value
serialize_row deposits. -/
def serialized_row (r : Row) : Nat :=
  r.id % b256 ID_SIZE +
    b256 ID_SIZE * (segOfBytes (fun i => r.username.getD i 0) USERNAME_SIZE +
      b256 USERNAME_SIZE * segOfBytes (fun i => r.email.getD i 0) EMAIL_SIZE)

/-- Number of leaf keys strictly below `k` (the insertion point in a sorted
leaf). -/
def count_lt (node : Page) (k : Nat) : Nat :=
  ((List.range (leaf_node_num_cells node)).filter
    (fun i => decide (leaf_node_key node i < k))).length

/-- Number of internal keys strictly below `k`. -/
def count_lt_internal (node : Page) (k : Nat) : Nat :=
  ((List.range (internal_node_num_keys node)).filter
    (fun i => decide (internal_node_key node i < k))).length

/-- The key of logical cell `i` among the 14 redistributed positions of a
leaf split: 13 old cells plus the new key at position `pos`. -/
def logical_key (old_node : Page) (pos k i : Nat) : Nat :=
  if i = pos then k % b256 ID_SIZE
  else if i > pos then leaf_node_key old_node (i - 1)
  else leaf_node_key old_node i

/-- The 293-byte row image of logical cell `i` of a leaf split. -/
def logical_value (old_node : Page) (pos : Nat) (row : Row) (i : Nat) : Nat :=
  if i = pos then serialized_row row
  else if i > pos then readSeg old_node (leaf_node_value_off (i - 1)) ROW_SIZE
  else readSeg old_node (leaf_node_value_off i) ROW_SIZE

/-- The whole 297-byte group of leaf cell `j` (key followed by value). -/
def leaf_cell_seg (node : Page) (j : Nat) : Nat :=
  readSeg node (leaf_node_cell_off j) LEAF_NODE_CELL_SIZE

/-- The full 297-byte image of logical cell `i` of a leaf split. -/
def logical_cell (old_node : Page) (pos k : Nat) (row : Row) (i : Nat) : Nat :=
  logical_key old_node pos k i +
    b256 LEAF_NODE_KEY_SIZE * logical_value old_node pos row i

/-- The redistribution loop of leaf_node_split_and_insert in structural form:
`split_go c k v m st` performs the iterations at indices m-1, m-2, ..., 0 (the
C loop counts down), so `split_go c k v 14 st` is the whole loop. -/
def split_go (c k : Nat) (v : Row) : Nat → Page × Page → Page × Page
  | 0, st => st
  | m + 1, st => split_go c k v m (split_insert_step c k v st m)

/-- Slot `i` of the pager holds a cached page. -/
def slot_is_page (pager : Pager) (i : Nat) : Bool :=
  match pager.pages.get? i with
  | some (some _) => true
  | _ => false

/-- Every cached page of slot `i` fits in PAGE_SIZE bytes. -/
def slot_bounded (pager : Pager) (i : Nat) : Bool :=
  match pager.pages.get? i with
  | some (some p) => decide (p < b256 PAGE_SIZE)
  | _ => true

/-- Well-formedness of an in-memory pager, as maintained by every session
that starts at db_open: the pages array has its 100 slots, exactly the pages
below num_pages are cached, the file extent never exceeds the allocated
pages, and all cached buffers and the file are within their byte widths. -/
def pagerWF (pager : Pager) : Bool :=
  decide (pager.pages.length = TABLE_MAX_PAGES) &&
  decide (1 ≤ pager.num_pages) &&
  decide (pager.num_pages ≤ TABLE_MAX_PAGES) &&
  (List.range TABLE_MAX_PAGES).all
    (fun i => slot_is_page pager i == decide (i < pager.num_pages)) &&
  decide (pager.file_length ≤ pager.num_pages * PAGE_SIZE) &&
  decide (pager.file < b256 pager.file_length) &&
  (List.range TABLE_MAX_PAGES).all (fun i => slot_bounded pager i)

/-- Postcondition of a lower-bound binary search over keys `f 0 .. f (n-1)`:
everything below the result is `< k`, everything from the result on is
`≥ k`.  For monotone keys this pins the result down uniquely. -/
def bsearch_post (f : Nat → Nat) (n k r : Nat) : Prop :=
  r ≤ n ∧ (∀ i, i < r → f i < k) ∧ (∀ i, r ≤ i → i < n → k ≤ f i)

/-- Witness table for C3: thirteen inserts 1..13 leave a full sorted root
leaf. -/
def w3_table : Table := table_after [1, 2, 3, 4, 5, 6, 7, 8, 9, 10, 11, 12, 13]

/-!
Theorems.  First the arithmetic of the base-256 segment encoding, then the
simulation and search lemmas, then one theorem per claim.
-/

theorem b256_eq (n : Nat) : b256 n = 256 ^ n := by
  show 1 <<< (8 * n) = 256 ^ n
  rw [Nat.shiftLeft_eq, one_mul, pow_mul]
  norm_num

theorem b256_pos (n : Nat) : 0 < b256 n := by
  rw [b256_eq]; exact Nat.pos_pow_of_pos n (by norm_num)

theorem b256_add (m n : Nat) : b256 (m + n) = b256 m * b256 n := by
  rw [b256_eq, b256_eq, b256_eq, pow_add]

theorem b256_dvd {m n : Nat} (h : m ≤ n) : b256 m ∣ b256 n := by
  rw [b256_eq, b256_eq]
  exact pow_dvd_pow 256 h

theorem b256_one : b256 1 = 256 := by decide

theorem readSeg_lt (p off len : Nat) : readSeg p off len < b256 len :=
  Nat.mod_lt _ (b256_pos len)

theorem readSeg_eq_mod_div (p o l : Nat) : readSeg p o l = p % b256 (o + l) / b256 o := by
  rw [readSeg, Nat.div_mod_eq_mod_mul_div, b256_add]

theorem writeSeg_decomp (p off len v : Nat) :
    writeSeg p off len v =
      b256 off * (p / b256 (off + len) * b256 len + v % b256 len) + p % b256 off := by
  rw [writeSeg, b256_add]; ring

theorem writeSeg_div_high (p off len v : Nat) :
    writeSeg p off len v / b256 (off + len) = p / b256 (off + len) := by
  have hv : v % b256 len < b256 len := Nat.mod_lt _ (b256_pos len)
  have hp : p % b256 off < b256 off := Nat.mod_lt _ (b256_pos off)
  have hsmall : v % b256 len * b256 off + p % b256 off < b256 (off + len) := by
    calc v % b256 len * b256 off + p % b256 off
        < v % b256 len * b256 off + b256 off := by omega
      _ = (v % b256 len + 1) * b256 off := by ring
      _ ≤ b256 len * b256 off := Nat.mul_le_mul_right _ (by omega)
      _ = b256 (off + len) := by rw [b256_add, Nat.mul_comm]
  rw [writeSeg, Nat.add_assoc, Nat.add_comm,
      Nat.add_mul_div_right _ _ (b256_pos (off + len)), Nat.div_eq_of_lt hsmall,
      Nat.zero_add]

theorem writeSeg_mod_low (p off len v : Nat) :
    writeSeg p off len v % b256 off = p % b256 off := by
  have hp : p % b256 off < b256 off := Nat.mod_lt _ (b256_pos off)
  rw [writeSeg_decomp, Nat.mul_add_mod, Nat.mod_eq_of_lt hp]

theorem readSeg_writeSeg_same (p off len v : Nat) :
    readSeg (writeSeg p off len v) off len = v % b256 len := by
  have hv : v % b256 len < b256 len := Nat.mod_lt _ (b256_pos len)
  have hp : p % b256 off < b256 off := Nat.mod_lt _ (b256_pos off)
  rw [readSeg, writeSeg_decomp, Nat.mul_add_div (b256_pos off), Nat.div_eq_of_lt hp,
      Nat.add_zero, Nat.mul_comm (p / b256 (off + len)) (b256 len), Nat.mul_add_mod,
      Nat.mod_eq_of_lt hv]

theorem readSeg_writeSeg_above (p off len v o2 l2 : Nat) (h : off + len ≤ o2) :
    readSeg (writeSeg p off len v) o2 l2 = readSeg p o2 l2 := by
  obtain ⟨k, hk⟩ : ∃ k, o2 = (off + len) + k := ⟨o2 - (off + len), by omega⟩
  subst hk
  rw [readSeg, readSeg, b256_add, ← Nat.div_div_eq_div_mul, ← Nat.div_div_eq_div_mul,
      writeSeg_div_high]

theorem readSeg_writeSeg_below (p off len v o2 l2 : Nat) (h : o2 + l2 ≤ off) :
    readSeg (writeSeg p off len v) o2 l2 = readSeg p o2 l2 := by
  rw [readSeg_eq_mod_div, readSeg_eq_mod_div,
      ← Nat.mod_mod_of_dvd (writeSeg p off len v) (b256_dvd h),
      ← Nat.mod_mod_of_dvd p (b256_dvd h), writeSeg_mod_low]

theorem readSeg_readSeg (p o l a m : Nat) (h : a + m ≤ l) :
    readSeg (readSeg p o l) a m = readSeg p (o + a) m := by
  obtain ⟨k, hk⟩ : ∃ k, l = a + k := ⟨l - a, by omega⟩
  subst hk
  have hm : m ≤ k := by omega
  rw [readSeg, readSeg, readSeg, b256_add, ← Nat.div_mod_eq_mod_mul_div,
      Nat.div_div_eq_div_mul, ← b256_add]
  rw [Nat.mod_mod_of_dvd _ (b256_dvd hm)]

theorem readSeg_split (p o l1 l2 : Nat) :
    readSeg p o (l1 + l2) = readSeg p o l1 + b256 l1 * readSeg p (o + l1) l2 := by
  rw [readSeg, readSeg, readSeg, b256_add, Nat.mod_mul, Nat.div_div_eq_div_mul, ← b256_add]

theorem writeSeg_lt (p N off len v : Nat) (hp : p < b256 N) (h : off + len ≤ N) :
    writeSeg p off len v < b256 N := by
  obtain ⟨k, hk⟩ : ∃ k, N = (off + len) + k := ⟨N - (off + len), by omega⟩
  subst hk
  have hv : v % b256 len < b256 len := Nat.mod_lt _ (b256_pos len)
  have hpm : p % b256 off < b256 off := Nat.mod_lt _ (b256_pos off)
  have hA : p / b256 (off + len) < b256 k := by
    apply Nat.div_lt_of_lt_mul
    calc p < b256 ((off + len) + k) := hp
      _ = b256 (off + len) * b256 k := b256_add _ _
  have hsmall : v % b256 len * b256 off + p % b256 off < b256 (off + len) := by
    calc v % b256 len * b256 off + p % b256 off
        < v % b256 len * b256 off + b256 off := by omega
      _ = (v % b256 len + 1) * b256 off := by ring
      _ ≤ b256 len * b256 off := Nat.mul_le_mul_right _ (by omega)
      _ = b256 (off + len) := by rw [b256_add, Nat.mul_comm]
  calc writeSeg p off len v
      = p / b256 (off + len) * b256 (off + len) +
          (v % b256 len * b256 off + p % b256 off) := by rw [writeSeg]; ring
    _ < p / b256 (off + len) * b256 (off + len) + b256 (off + len) := by omega
    _ = (p / b256 (off + len) + 1) * b256 (off + len) := by ring
    _ ≤ b256 k * b256 (off + len) := Nat.mul_le_mul_right _ (by omega)
    _ = b256 ((off + len) + k) := by rw [b256_add (off + len) k]; ring

-- Derived accessor-level read/write lemmas.

theorem readU8_lt (p o : Nat) : readU8 p o < 256 := by
  have := readSeg_lt p o 1
  rwa [b256_one] at this

theorem readU32_lt (p o : Nat) : readU32 p o < b256 4 := readSeg_lt p o 4

/-- Claim C9: the compile-time layout constants have exactly the documented
values and print_constants emits exactly the six documented lines. -/
theorem C9_layout_constants :
    ROW_SIZE = 293 ∧ COMMON_NODE_HEADER_SIZE = 6 ∧ LEAF_NODE_HEADER_SIZE = 14 ∧
    LEAF_NODE_CELL_SIZE = 297 ∧ LEAF_NODE_SPACE_FOR_CELLS = 4082 ∧
    LEAF_NODE_MAX_CELLS = 13 ∧
    print_constants =
      ["ROW_SIZE: 293", "COMMON_NODE_HEADER_SIZE: 6", "LEAF_NODE_HEADER_SIZE: 14",
       "LEAF_NODE_CELL_SIZE: 297", "LEAF_NODE_SPACE_FOR_CELLS: 4082",
       "LEAF_NODE_MAX_CELLS: 13"] := by
  exact ⟨rfl, rfl, rfl, rfl, rfl, rfl, rfl⟩

/-- Claim C6, counterexample: the node_type byte of a freshly initialized
leaf (such as page 0 of a fresh database) is 1, not 0, because table.h
declares NODE_INTERNAL before NODE_LEAF. -/
theorem C6_counterexample :
    readU8 (init_leaf_node zeroPage) NODE_TYPE_OFFSET = 1 ∧
    readU8 (set_node_type zeroPage .NODE_LEAF) NODE_TYPE_OFFSET ≠ 0 ∧
    readU8 (set_node_type zeroPage .NODE_INTERNAL) NODE_TYPE_OFFSET = 0 := by
  refine ⟨by decide, by decide, by decide⟩

/-- Claim C6 as amended: the node_type byte at offset 0 is 1 for a leaf node
and 0 for an internal node; after initialize_leaf_node (as performed on page
0 of a fresh database) the byte at offset 0 equals 1. -/
theorem C6_node_type_byte (node : Page) :
    readU8 (set_node_type node .NODE_LEAF) NODE_TYPE_OFFSET = 1 ∧
    readU8 (set_node_type node .NODE_INTERNAL) NODE_TYPE_OFFSET = 0 ∧
    readU8 (init_leaf_node node) NODE_TYPE_OFFSET = 1 ∧
    readU8 (pageView freshTable.pager 0) NODE_TYPE_OFFSET = 1 := by
  refine ⟨?_, ?_, ?_, by decide⟩
  · show readSeg (writeSeg node 0 1 1) 0 1 = 1
    rw [readSeg_writeSeg_same]; decide
  · show readSeg (writeSeg node 0 1 0) 0 1 = 0
    rw [readSeg_writeSeg_same]; decide
  · show readSeg
      (writeSeg (writeSeg (writeSeg (writeSeg node 0 1 1) 1 1 0) 6 4 0) 10 4 0) 0 1 = 1
    rw [readSeg_writeSeg_below _ 10 4 0 0 1 (by norm_num),
        readSeg_writeSeg_below _ 6 4 0 0 1 (by norm_num),
        readSeg_writeSeg_below _ 1 1 0 0 1 (by norm_num), readSeg_writeSeg_same]
    decide

/-- Claim C8: with the 100-slot pages array of pager_open, get_page returns
the NULL sentinel exactly for page numbers above TABLE_MAX_PAGES = 100; page
number 100 itself passes the bound check but then indexes slot 100 of the
100-slot array, which is out of range. -/
theorem C8_get_page_bound (pager : Pager) (h : pager.pages.length = TABLE_MAX_PAGES) :
    (∀ n, get_page pager n = .error .nullPage ↔ TABLE_MAX_PAGES < n) ∧
    pager.pages.get? TABLE_MAX_PAGES = none ∧
    get_page pager TABLE_MAX_PAGES = .error .slotOOB := by
  have hnone : pager.pages.get? TABLE_MAX_PAGES = none := by
    rw [List.get?_eq_none]; omega
  have h100 : get_page pager TABLE_MAX_PAGES = .error .slotOOB := by
    unfold get_page
    rw [if_neg (by omega), hnone]
  refine ⟨fun n => ⟨fun he => ?_, fun hn => ?_⟩, hnone, h100⟩
  · by_contra hn
    push_neg at hn
    rcases Nat.lt_or_ge n TABLE_MAX_PAGES with hlt | hge
    · have hsome := List.get?_eq_get (show n < pager.pages.length by omega)
      unfold get_page at he
      rw [if_neg (by omega), hsome] at he
      cases hx : pager.pages.get ⟨n, by omega⟩ with
      | none => rw [hx] at he; exact Except.noConfusion he
      | some page => rw [hx] at he; exact Except.noConfusion he
    · have hn100 : n = TABLE_MAX_PAGES := by omega
      rw [hn100, h100] at he
      have := Except.error.inj he
      exact Err.noConfusion this
  · unfold get_page
    rw [if_pos hn]

/-- Witness for C8 at the concrete pager pager_open builds. -/
theorem C8_get_page_bound_witness :
    get_page w8_pager 101 = .error .nullPage ∧
    get_page w8_pager 100 = .error .slotOOB := by
  have h := C8_get_page_bound w8_pager (by decide)
  exact ⟨(h.1 101).mpr (by decide), h.2.2⟩

/-- Claim C10: for every input line starting with the six characters
"insert", prepare_statement reports a syntax error iff one of the three
tokens after the keyword is missing (the strtok token list has fewer than 4
entries); a present but non-decimal id token is not a syntax error:
`insert abc u e` prepares successfully with id atoi("abc") = 0. -/
theorem C10_prepare_insert (line : Line)
    (h : (['i', 'n', 's', 'e', 'r', 't'] : List Char).isPrefixOf line) :
    ((prepare_statement line).1 = PREPARE_SYNTAX_ERROR ↔ (tokenize line).length < 4) ∧
    prepare_statement ('i' :: 'n' :: 's' :: 'e' :: 'r' :: 't' :: ' ' :: 'a' :: 'b' :: 'c' ::
        ' ' :: 'u' :: ' ' :: 'e' :: []) =
      (PREPARE_SUCCESS, some (Statement.mk true (Row.mk 0 [117] [101]))) := by
  refine ⟨?_, by decide⟩
  unfold prepare_statement
  rw [if_pos h]
  unfold prepare_insert
  rcases h1 : (tokenize line).get? 1 with _ | a
  · have hl : (tokenize line).length ≤ 1 := List.get?_eq_none.mp h1
    simp only [h1]
    exact ⟨fun _ => by omega, fun _ => trivial⟩
  · rcases h2 : (tokenize line).get? 2 with _ | b
    · have hl : (tokenize line).length ≤ 2 := List.get?_eq_none.mp h2
      simp only [h1, h2]
      exact ⟨fun _ => by omega, fun _ => trivial⟩
    · rcases h3 : (tokenize line).get? 3 with _ | c
      · have hl : (tokenize line).length ≤ 3 := List.get?_eq_none.mp h3
        simp only [h1, h2, h3]
        exact ⟨fun _ => by omega, fun _ => trivial⟩
      · have hl : ¬ (tokenize line).length ≤ 3 := by
          intro hle
          rw [List.get?_eq_none.mpr hle] at h3
          exact Option.noConfusion h3
        simp only [h1, h2, h3]
        constructor
        · intro he
          exfalso
          split_ifs at he
        · intro hlt; omega

/-- Witness for C10 at the concrete line "insert 1" (missing tokens). -/
theorem C10_prepare_insert_witness :
    (prepare_statement ('i' :: 'n' :: 's' :: 'e' :: 'r' :: 't' :: ' ' :: '1' :: [])).1 =
      PREPARE_SYNTAX_ERROR ∧
    prepare_statement ('i' :: 'n' :: 's' :: 'e' :: 'r' :: 't' :: ' ' :: 'a' :: 'b' :: 'c' ::
        ' ' :: 'u' :: ' ' :: 'e' :: []) =
      (PREPARE_SUCCESS, some (Statement.mk true (Row.mk 0 [117] [101]))) := by
  have h := C10_prepare_insert ('i' :: 'n' :: 's' :: 'e' :: 'r' :: 't' :: ' ' :: '1' :: [])
    (by decide)
  exact ⟨h.1.mpr (by decide), h.2⟩

set_option maxRecDepth 100000 in
/-- Claim C1 (code bug): after the 14 inserts 1..14 (which split the root,
all succeeding, as the scan showing exactly 1..14 confirms), inserting the
already-present key 8 returns EXECUTE_SUCCESS instead of
EXECUTE_DUPLICATE_KEY, and mutates the tree: the right leaf (page 1) grows
from 7 to 8 cells.  The root-page duplicate check of execute_insert reads
`leaf_node_key(root_node, cell_num)` from the internal root, not from the
leaf the cursor landed on. -/
theorem C1_duplicate_key_bug :
    run_results [1, 2, 3, 4, 5, 6, 7, 8, 9, 10, 11, 12, 13, 14] =
      .ok (List.replicate 14 EXECUTE_SUCCESS) ∧
    scan_ids_of (table_after [1, 2, 3, 4, 5, 6, 7, 8, 9, 10, 11, 12, 13, 14]) =
      .ok [1, 2, 3, 4, 5, 6, 7, 8, 9, 10, 11, 12, 13, 14] ∧
    (execute_insert (table_after [1, 2, 3, 4, 5, 6, 7, 8, 9, 10, 11, 12, 13, 14])
        (mkRow 8)).map Prod.fst = .ok EXECUTE_SUCCESS ∧
    num_cells_page (table_after [1, 2, 3, 4, 5, 6, 7, 8, 9, 10, 11, 12, 13, 14]) 1 = 7 ∧
    (execute_insert (table_after [1, 2, 3, 4, 5, 6, 7, 8, 9, 10, 11, 12, 13, 14])
        (mkRow 8)).map (fun r => num_cells_page r.2 1) = .ok 8 := by
  exact ⟨by decide, by decide, by decide, by decide, by decide⟩

set_option maxRecDepth 100000 in
/-- Claim C2 (code bug): the sequence of 15 inserts 1..14, 8 all report
EXECUTE_SUCCESS, and the subsequent scan emits 15 rows (one per successful
insert, as claimed) but with id 8 twice: the ids are not strictly ascending
and contain a duplicate. -/
theorem C2_scan_not_ascending_bug :
    run_results [1, 2, 3, 4, 5, 6, 7, 8, 9, 10, 11, 12, 13, 14, 8] =
      .ok (List.replicate 15 EXECUTE_SUCCESS) ∧
    scan_ids_of (table_after [1, 2, 3, 4, 5, 6, 7, 8, 9, 10, 11, 12, 13, 14, 8]) =
      .ok [1, 2, 3, 4, 5, 6, 7, 8, 8, 9, 10, 11, 12, 13, 14] ∧
    strictAscendingB [1, 2, 3, 4, 5, 6, 7, 8, 8, 9, 10, 11, 12, 13, 14] = false := by
  exact ⟨by decide, by decide, by decide⟩

set_option maxRecDepth 100000 in
/-- Claim C5, counterexample: inserting 1..20 succeeds (filling the non-root
right leaf to its 13-cell capacity), and the insert of key 21 does not
return any ExecuteResult: the process exits fatally with the
"Need to implement updating parent after split" message.  (ExecuteResult has
no EXECUTE_TABLE_FULL constructor in codegen.h at all.) -/
theorem C5_counterexample :
    run_results [1, 2, 3, 4, 5, 6, 7, 8, 9, 10, 11, 12, 13, 14, 15, 16, 17, 18, 19, 20] =
      .ok (List.replicate 20 EXECUTE_SUCCESS) ∧
    run_inserts [1, 2, 3, 4, 5, 6, 7, 8, 9, 10, 11, 12, 13, 14, 15, 16, 17, 18, 19, 20, 21]
        freshTable =
      .error (.fatalExit "Need to implement updating parent after split") := by
  exact ⟨by decide, by decide⟩

-- Generic binary-search facts.

theorem bsearch_post_unique (f : Nat → Nat) (n k r1 r2 : Nat)
    (h1 : bsearch_post f n k r1) (h2 : bsearch_post f n k r2) : r1 = r2 := by
  obtain ⟨h1n, h1lo, h1hi⟩ := h1
  obtain ⟨h2n, h2lo, h2hi⟩ := h2
  rcases Nat.lt_trichotomy r1 r2 with h | h | h
  · have ha := h2lo r1 h
    have hb := h1hi r1 (Nat.le_refl _) (by omega)
    omega
  · exact h
  · have ha := h1lo r2 h
    have hb := h2hi r2 (Nat.le_refl _) (by omega)
    omega

theorem find?_range_eq_none (n : Nat) (p : Nat → Bool) :
    (List.range n).find? p = none ↔ ∀ j, j < n → ¬ p j := by
  rw [List.find?_eq_none]
  constructor
  · intro h j hj
    exact h j (List.mem_range.mpr hj)
  · intro h j hj
    exact h j (List.mem_range.mp hj)

theorem find?_range_eq_some (n : Nat) (p : Nat → Bool) (i : Nat) :
    (List.range n).find? p = some i ↔ (i < n ∧ p i ∧ ∀ j, j < i → ¬ p j) := by
  induction n generalizing i with
  | zero => simp
  | succ m ih =>
    rw [List.range_succ, List.find?_append]
    rcases hfm : (List.range m).find? p with _ | a
    · have hnone := (find?_range_eq_none m p).mp hfm
      simp only [Option.or]
      constructor
      · intro h
        have him : i = m := by
          have := List.find?_mem h
          simpa using this
        have hpm : p i := List.find?_some h
        exact ⟨by omega, hpm, fun j hj => hnone j (by omega)⟩
      · intro hx
        obtain ⟨hin, hpi, hmin⟩ := hx
        have him : i = m := by
          rcases Nat.lt_or_ge i m with hlt | hge
          · exact absurd hpi (hnone i hlt)
          · omega
        subst him
        simp [List.find?, hpi]
    · have hsome := (ih a).mp hfm
      obtain ⟨han, hpa, hamin⟩ := hsome
      simp only [Option.or]
      constructor
      · intro h
        have hai : a = i := Option.some.inj h
        subst hai
        exact ⟨by omega, hpa, hamin⟩
      · intro hx
        obtain ⟨hin, hpi, hmin⟩ := hx
        have hia : i = a := by
          rcases Nat.lt_trichotomy i a with hlt | heq | hgt
          · exact absurd hpi (hamin i hlt)
          · exact heq
          · exact absurd hpa (hmin a hgt)
        rw [hia]


theorem leaf_find_loop_succ (node : Page) (k : Nat) (f : Nat) (s : Nat) (e : Int) :
    leaf_find_loop node k (f + 1) s e =
      if (s : Int) ≤ e then
        let middle_i := (s + e.toNat) / 2
        if leaf_node_key node middle_i = k then middle_i
        else if leaf_node_key node middle_i > k then
          leaf_find_loop node k f s ((middle_i : Int) - 1)
        else leaf_find_loop node k f (middle_i + 1) e
      else s := rfl

theorem leaf_find_loop_post (node : Page) (k n : Nat)
    (hsort : ∀ i j, i < j → j < n → leaf_node_key node i < leaf_node_key node j) :
    ∀ fuel (s : Nat) (e : Int),
      (s : Int) ≤ e + 1 → e < (n : Int) →
      (∀ i, i < s → leaf_node_key node i < k) →
      (∀ i : Nat, e < (i : Int) → i < n → k < leaf_node_key node i) →
      ((e + 1 - (s : Int)).toNat < fuel) →
      bsearch_post (leaf_node_key node) n k (leaf_find_loop node k fuel s e) := by
  intro fuel
  induction fuel with
  | zero => intro s e _ _ _ _ hf; omega
  | succ f ih =>
    intro s e hse hen hlo hhi hf
    by_cases hcond : (s : Int) ≤ e
    · have he0 : (0 : Int) ≤ e := le_trans (by exact_mod_cast Int.ofNat_nonneg s) hcond
      rw [leaf_find_loop_succ, if_pos hcond]
      simp only []
      set m := (s + e.toNat) / 2 with hm
      have hms : s ≤ m := by omega
      have hme : (m : Int) ≤ e := by omega
      have hmn : m < n := by omega
      by_cases heq : leaf_node_key node m = k
      · rw [if_pos heq]
        refine ⟨by omega, ?_, ?_⟩
        · intro i hi
          have := hsort i m hi hmn
          omega
        · intro i hmi hin
          rcases Nat.eq_or_lt_of_le hmi with h | hlt
          · rw [← h, heq]
          · have := hsort m i hlt hin
            omega
      · by_cases hgt : leaf_node_key node m > k
        · rw [if_neg heq, if_pos hgt]
          refine ih s ((m : Int) - 1) (by omega) (by omega) hlo ?_ (by omega)
          intro i hmi hin
          rcases Nat.lt_or_ge m i with hlt | hge
          · have := hsort m i hlt hin
            omega
          · have him : i = m := by omega
            rw [him]
            omega
        · rw [if_neg heq, if_neg hgt]
          refine ih (m + 1) e (by omega) hen ?_ hhi (by omega)
          intro i hi
          rcases Nat.lt_or_ge i m with hlt | hge
          · have := hsort i m hlt hmn
            omega
          · have him : i = m := by omega
            rw [him]
            omega
    · have : leaf_find_loop node k (f + 1) s e = s := by
        rw [leaf_find_loop_succ, if_neg hcond]
      rw [this]
      refine ⟨by omega, hlo, ?_⟩
      intro i hsi hin
      have hei : e < (i : Int) := by omega
      exact le_of_lt (hhi i hei hin)

theorem internal_find_loop_succ (node : Page) (k : Nat) (f : Nat) (s : Nat) (e : Int) :
    internal_find_loop node k (f + 1) s e =
      if (s : Int) ≤ e then
        let middle_i := (s + e.toNat) / 2
        if internal_node_key node middle_i ≥ k then
          internal_find_loop node k f s ((middle_i : Int) - 1)
        else internal_find_loop node k f (middle_i + 1) e
      else s := rfl

theorem internal_find_loop_post (node : Page) (k n : Nat)
    (hsort : ∀ i j, i ≤ j → j < n → internal_node_key node i ≤ internal_node_key node j) :
    ∀ fuel (s : Nat) (e : Int),
      (s : Int) ≤ e + 1 → e < (n : Int) →
      (∀ i, i < s → internal_node_key node i < k) →
      (∀ i : Nat, e < (i : Int) → i < n → k ≤ internal_node_key node i) →
      ((e + 1 - (s : Int)).toNat < fuel) →
      bsearch_post (internal_node_key node) n k (internal_find_loop node k fuel s e) := by
  intro fuel
  induction fuel with
  | zero => intro s e _ _ _ _ hf; omega
  | succ f ih =>
    intro s e hse hen hlo hhi hf
    by_cases hcond : (s : Int) ≤ e
    · have he0 : (0 : Int) ≤ e := le_trans (by exact_mod_cast Int.ofNat_nonneg s) hcond
      rw [internal_find_loop_succ, if_pos hcond]
      simp only []
      set m := (s + e.toNat) / 2 with hm
      have hms : s ≤ m := by omega
      have hme : (m : Int) ≤ e := by omega
      have hmn : m < n := by omega
      by_cases hge : internal_node_key node m ≥ k
      · rw [if_pos hge]
        refine ih s ((m : Int) - 1) (by omega) (by omega) hlo ?_ (by omega)
        intro i hmi hin
        rcases Nat.lt_or_ge m i with hlt | hge2
        · exact le_trans hge (hsort m i (by omega) hin)
        · have him : i = m := by omega
          rw [him]
          omega
      · rw [if_neg hge]
        refine ih (m + 1) e (by omega) hen ?_ hhi (by omega)
        intro i hi
        have hle : internal_node_key node i ≤ internal_node_key node m :=
          hsort i m (by omega) hmn
        omega
    · have : internal_find_loop node k (f + 1) s e = s := by
        rw [internal_find_loop_succ, if_neg hcond]
      rw [this]
      refine ⟨by omega, hlo, ?_⟩
      intro i hsi hin
      have hei : e < (i : Int) := by omega
      exact hhi i hei hin

theorem strictAscendingB_adj (l : List Nat) (h : strictAscendingB l = true) :
    ∀ i, i + 1 < l.length → l.getD i 0 < l.getD (i + 1) 0 := by
  induction l with
  | nil => intro i hi; simp at hi
  | cons a t ih =>
    intro i hi
    cases t with
    | nil => simp at hi
    | cons b t2 =>
      have hab : a < b ∧ strictAscendingB (b :: t2) = true := by
        have := h
        simp only [strictAscendingB, Bool.and_eq_true, decide_eq_true_eq] at this
        exact this
      cases i with
      | zero => simpa using hab.1
      | succ j =>
        have hj : j + 1 < (b :: t2).length := by simpa using hi
        simpa using ih hab.2 j hj

theorem strictAscendingB_pairwise (l : List Nat) (h : strictAscendingB l = true) :
    ∀ i j, i < j → j < l.length → l.getD i 0 < l.getD j 0 := by
  intro i j
  induction j with
  | zero => omega
  | succ j2 ih =>
    intro hij hj
    rcases Nat.lt_or_ge i j2 with hlt | hge
    · have h1 := ih hlt (by omega)
      have h2 := strictAscendingB_adj l h j2 hj
      omega
    · have hij2 : i = j2 := by omega
      rw [hij2]
      exact strictAscendingB_adj l h j2 hj

theorem nondecreasingB_adj (l : List Nat) (h : nondecreasingB l = true) :
    ∀ i, i + 1 < l.length → l.getD i 0 ≤ l.getD (i + 1) 0 := by
  induction l with
  | nil => intro i hi; simp at hi
  | cons a t ih =>
    intro i hi
    cases t with
    | nil => simp at hi
    | cons b t2 =>
      have hab : a ≤ b ∧ nondecreasingB (b :: t2) = true := by
        have := h
        simp only [nondecreasingB, Bool.and_eq_true, decide_eq_true_eq] at this
        exact this
      cases i with
      | zero => simpa using hab.1
      | succ j =>
        have hj : j + 1 < (b :: t2).length := by simpa using hi
        simpa using ih hab.2 j hj

theorem nondecreasingB_pairwise (l : List Nat) (h : nondecreasingB l = true) :
    ∀ i j, i ≤ j → j < l.length → l.getD i 0 ≤ l.getD j 0 := by
  intro i j
  induction j with
  | zero => intro hij _; have : i = 0 := by omega
            rw [this]
  | succ j2 ih =>
    intro hij hj
    rcases Nat.lt_or_ge i (j2 + 1) with hlt | hge
    · have h1 := ih (by omega) (by omega)
      have h2 := nondecreasingB_adj l h j2 hj
      omega
    · have hij2 : i = j2 + 1 := by omega
      rw [hij2]

theorem getD_range_map (f : Nat → Nat) (n i : Nat) (h : i < n) :
    ((List.range n).map f).getD i 0 = f i := by
  rw [List.getD_eq_getD_get?, List.get?_map, List.get?_range h]
  rfl

/-- Sorted-leaf hypothesis in indexed form. -/
theorem leaf_keys_sorted (node : Page) (h : strictAscendingB (leaf_keys node) = true) :
    ∀ i j, i < j → j < leaf_node_num_cells node →
      leaf_node_key node i < leaf_node_key node j := by
  intro i j hij hj
  have hlen : (leaf_keys node).length = leaf_node_num_cells node := by
    simp [leaf_keys]
  have := strictAscendingB_pairwise (leaf_keys node) h i j hij (by omega)
  rwa [leaf_keys, getD_range_map _ _ _ (by omega), getD_range_map _ _ _ (by omega)] at this

/-- Nondecreasing internal keys in indexed form. -/
theorem internal_keys_sorted (node : Page) (h : nondecreasingB (internal_keys node) = true) :
    ∀ i j, i ≤ j → j < internal_node_num_keys node →
      internal_node_key node i ≤ internal_node_key node j := by
  intro i j hij hj
  have hlen : (internal_keys node).length = internal_node_num_keys node := by
    simp [internal_keys]
  have := nondecreasingB_pairwise (internal_keys node) h i j hij (by omega)
  rwa [internal_keys, getD_range_map _ _ _ (by omega), getD_range_map _ _ _ (by omega)] at this

theorem ref_leaf_cell_post (node : Page) (k : Nat)
    (hsort : ∀ i j, i < j → j < leaf_node_num_cells node →
      leaf_node_key node i < leaf_node_key node j) :
    bsearch_post (leaf_node_key node) (leaf_node_num_cells node) k (ref_leaf_cell node k) := by
  rcases hf1 : (List.range (leaf_node_num_cells node)).find?
      (fun i => leaf_node_key node i == k) with _ | i
  · have hne := (find?_range_eq_none _ _).mp hf1
    rcases hf2 : (List.range (leaf_node_num_cells node)).find?
        (fun i => decide (k < leaf_node_key node i)) with _ | i
    · have hng := (find?_range_eq_none _ _).mp hf2
      have hval : ref_leaf_cell node k = leaf_node_num_cells node := by
        simp [ref_leaf_cell, hf1, hf2]
      rw [hval]
      refine ⟨Nat.le_refl _, ?_, ?_⟩
      · intro j hj
        have h1 := hne j hj
        have h2 := hng j hj
        simp only [beq_iff_eq] at h1
        simp only [decide_eq_true_eq] at h2
        omega
      · intro i h1 h2
        omega
    · have hx := (find?_range_eq_some _ _ _).mp hf2
      obtain ⟨hin, hki, hmin⟩ := hx
      simp only [decide_eq_true_eq] at hki
      have hval : ref_leaf_cell node k = i := by
        simp [ref_leaf_cell, hf1, hf2]
      rw [hval]
      refine ⟨by omega, ?_, ?_⟩
      · intro j hj
        have h1 := hne j (by omega)
        have h2 := hmin j hj
        simp only [beq_iff_eq] at h1
        simp only [decide_eq_true_eq] at h2
        omega
      · intro j hij hjn
        rcases Nat.eq_or_lt_of_le hij with h | hlt
        · rw [← h]
          omega
        · have := hsort i j hlt hjn
          omega
  · have hx := (find?_range_eq_some _ _ _).mp hf1
    obtain ⟨hin, hki, hmin⟩ := hx
    simp only [beq_iff_eq] at hki
    have hval : ref_leaf_cell node k = i := by
      simp [ref_leaf_cell, hf1]
    rw [hval]
    refine ⟨by omega, ?_, ?_⟩
    · intro j hj
      have := hsort j i hj hin
      omega
    · intro j hij hjn
      rcases Nat.eq_or_lt_of_le hij with h | hlt
      · rw [← h]
        omega
      · have := hsort i j hlt hjn
        omega

theorem smallest_ge_post (node : Page) (k : Nat)
    (hmono : ∀ i j, i ≤ j → j < internal_node_num_keys node →
      internal_node_key node i ≤ internal_node_key node j) :
    bsearch_post (internal_node_key node) (internal_node_num_keys node) k
      (smallest_ge node k) := by
  rcases hf : (List.range (internal_node_num_keys node)).find?
      (fun i => decide (k ≤ internal_node_key node i)) with _ | i
  · have hng := (find?_range_eq_none _ _).mp hf
    have hval : smallest_ge node k = internal_node_num_keys node := by
      simp [smallest_ge, hf]
    rw [hval]
    refine ⟨Nat.le_refl _, ?_, ?_⟩
    · intro j hj
      have := hng j hj
      simp only [decide_eq_true_eq] at this
      omega
    · intro i h1 h2
      omega
  · have hx := (find?_range_eq_some _ _ _).mp hf
    obtain ⟨hin, hki, hmin⟩ := hx
    simp only [decide_eq_true_eq] at hki
    have hval : smallest_ge node k = i := by
      simp [smallest_ge, hf]
    rw [hval]
    refine ⟨by omega, ?_, ?_⟩
    · intro j hj
      have := hmin j hj
      simp only [decide_eq_true_eq] at this
      omega
    · intro j hij hjn
      exact le_trans hki (hmono i j hij hjn)

theorem leaf_cell_eq_ref (node : Page) (k : Nat)
    (hs : strictAscendingB (leaf_keys node) = true) :
    leaf_find_loop node k (leaf_node_num_cells node + 1) 0
        ((leaf_node_num_cells node : Int) - 1) = ref_leaf_cell node k := by
  have hsort := leaf_keys_sorted node hs
  apply bsearch_post_unique (leaf_node_key node) (leaf_node_num_cells node) k
  · exact leaf_find_loop_post node k (leaf_node_num_cells node) hsort
      (leaf_node_num_cells node + 1) 0 ((leaf_node_num_cells node : Int) - 1)
      (by omega) (by omega) (by omega) (by omega) (by omega)
  · exact ref_leaf_cell_post node k hsort

theorem internal_start_eq_smallest_ge (node : Page) (k : Nat)
    (hs : nondecreasingB (internal_keys node) = true) :
    internal_find_loop node k (internal_node_num_keys node + 1) 0
        ((internal_node_num_keys node : Int) - 1) = smallest_ge node k := by
  have hmono := internal_keys_sorted node hs
  apply bsearch_post_unique (internal_node_key node) (internal_node_num_keys node) k
  · exact internal_find_loop_post node k (internal_node_num_keys node) hmono
      (internal_node_num_keys node + 1) 0 ((internal_node_num_keys node : Int) - 1)
      (by omega) (by omega) (by omega) (by omega) (by omega)
  · exact smallest_ge_post node k hmono

-- get_page / pageView simulation lemmas.

theorem get?_eq_getElem? (l : List (Option Page)) (n : Nat) : l.get? n = l[n]? :=
  List.get?_eq_getElem? l n

theorem pageView_of_slot (pager : Pager) (n : Nat) (p : Page)
    (h : pager.pages.get? n = some (some p)) : pageView pager n = p := by
  rw [get?_eq_getElem?] at h
  simp [pageView, h]

theorem pageView_of_miss (pager : Pager) (n : Nat)
    (h : pager.pages.get? n = some none) :
    pageView pager n =
      (if n ≤ pager.file_length / PAGE_SIZE then file_page pager n else zeroPage) := by
  rw [get?_eq_getElem?] at h
  simp [pageView, h]

theorem pageView_of_none (pager : Pager) (n : Nat)
    (h : pager.pages.get? n = none) :
    pageView pager n =
      (if n ≤ pager.file_length / PAGE_SIZE then file_page pager n else zeroPage) := by
  rw [get?_eq_getElem?] at h
  simp [pageView, h]

theorem get_page_hit (pager : Pager) (n : Nat) (p : Page)
    (h : pager.pages.get? n = some (some p)) (hn : n ≤ TABLE_MAX_PAGES) :
    get_page pager n = .ok (p, pager) := by
  unfold get_page
  rw [if_neg (by omega), h]

theorem get_page_miss_eq (pager : Pager) (n : Nat)
    (hslot : pager.pages.get? n = some none) (hn : n ≤ TABLE_MAX_PAGES) :
    get_page pager n = .ok
      ((if n ≤ pager.file_length / PAGE_SIZE then file_page pager n else zeroPage),
       { pager with
           num_pages := if n ≥ pager.num_pages then n + 1 else pager.num_pages,
           pages := pager.pages.set n
             (some (if n ≤ pager.file_length / PAGE_SIZE then file_page pager n
                    else zeroPage)) }) := by
  unfold get_page
  rw [if_neg (by omega), hslot]

theorem get_page_err_high (pager : Pager) (n : Nat) (hn : TABLE_MAX_PAGES < n) :
    get_page pager n = .error .nullPage := by
  unfold get_page
  rw [if_pos hn]

theorem get_page_err_slot (pager : Pager) (hlen : pager.pages.length = TABLE_MAX_PAGES) :
    get_page pager TABLE_MAX_PAGES = .error .slotOOB := by
  unfold get_page
  rw [if_neg (by omega), List.get?_eq_none.mpr (by omega)]

theorem get_page_ok_spec (pager : Pager) (n : Nat)
    (hlen : pager.pages.length = TABLE_MAX_PAGES) (hn : n < TABLE_MAX_PAGES) :
    ∃ pg, get_page pager n = .ok (pageView pager n, pg) ∧
      pageView pg = pageView pager ∧
      pg.pages.length = TABLE_MAX_PAGES ∧
      pg.file = pager.file ∧ pg.file_length = pager.file_length ∧
      pager.num_pages ≤ pg.num_pages := by
  rcases hslot : pager.pages.get? n with _ | po
  · exfalso
    have := List.get?_eq_none.mp hslot
    omega
  · rcases po with _ | p
    · refine ⟨{ pager with
          num_pages := if n ≥ pager.num_pages then n + 1 else pager.num_pages,
          pages := pager.pages.set n
            (some (if n ≤ pager.file_length / PAGE_SIZE then file_page pager n
                   else zeroPage)) }, ?_, ?_, ?_, rfl, rfl, ?_⟩
      · rw [get_page_miss_eq pager n hslot (by omega), pageView_of_miss pager n hslot]
      · funext j
        by_cases hj : j = n
        · subst hj
          have hset : (pager.pages.set j
              (some (if j ≤ pager.file_length / PAGE_SIZE then file_page pager j
                     else zeroPage))).get? j =
              some (some (if j ≤ pager.file_length / PAGE_SIZE then file_page pager j
                          else zeroPage)) :=
            List.get?_set_eq_of_lt _ (by omega)
          calc pageView { pager with
                num_pages := if j ≥ pager.num_pages then j + 1 else pager.num_pages,
                pages := pager.pages.set j
                  (some (if j ≤ pager.file_length / PAGE_SIZE then file_page pager j
                         else zeroPage)) } j
              = (if j ≤ pager.file_length / PAGE_SIZE then file_page pager j
                 else zeroPage) := pageView_of_slot _ j _ hset
            _ = pageView pager j := (pageView_of_miss pager j hslot).symm
        · have hset : (pager.pages.set n
              (some (if n ≤ pager.file_length / PAGE_SIZE then file_page pager n
                     else zeroPage))).get? j = pager.pages.get? j :=
            List.get?_set_ne _ _ (fun he => hj he.symm)
          rcases hj2 : pager.pages.get? j with _ | po2
          · calc pageView { pager with
                  num_pages := if n ≥ pager.num_pages then n + 1 else pager.num_pages,
                  pages := pager.pages.set n
                    (some (if n ≤ pager.file_length / PAGE_SIZE then file_page pager n
                           else zeroPage)) } j
                = (if j ≤ pager.file_length / PAGE_SIZE then file_page pager j
                   else zeroPage) := pageView_of_none _ j (by rw [hset]; exact hj2)
              _ = pageView pager j := (pageView_of_none pager j hj2).symm
          · rcases po2 with _ | p2
            · calc pageView { pager with
                    num_pages := if n ≥ pager.num_pages then n + 1 else pager.num_pages,
                    pages := pager.pages.set n
                      (some (if n ≤ pager.file_length / PAGE_SIZE then file_page pager n
                             else zeroPage)) } j
                  = (if j ≤ pager.file_length / PAGE_SIZE then file_page pager j
                     else zeroPage) := pageView_of_miss _ j (by rw [hset]; exact hj2)
                _ = pageView pager j := (pageView_of_miss pager j hj2).symm
            · calc pageView { pager with
                    num_pages := if n ≥ pager.num_pages then n + 1 else pager.num_pages,
                    pages := pager.pages.set n
                      (some (if n ≤ pager.file_length / PAGE_SIZE then file_page pager n
                             else zeroPage)) } j
                  = p2 := pageView_of_slot _ j p2 (by rw [hset]; exact hj2)
                _ = pageView pager j := (pageView_of_slot pager j p2 hj2).symm
      · simp [List.length_set, hlen]
      · simp only []
        split_ifs <;> omega
    · refine ⟨pager, ?_, rfl, hlen, rfl, rfl, Nat.le_refl _⟩
      rw [get_page_hit pager n p hslot (by omega), pageView_of_slot pager n p hslot]

theorem except_bind_ok {A B : Type} (a : A) (f : A → Except Err B) :
    (Except.ok a >>= f) = f a := rfl

theorem except_bind_err {A B : Type} (e : Err) (f : A → Except Err B) :
    ((Except.error e : Except Err A) >>= f) = .error e := rfl

theorem except_map_ok {A B : Type} (a : A) (f : A → B) :
    (Except.ok a : Except Err A).map f = .ok (f a) := rfl

theorem except_map_err {A B : Type} (e : Err) (f : A → B) :
    (Except.error e : Except Err A).map f = .error e := rfl

/-- State-effect summary of the read-only operations: the pager may cache
new pages but the view, array length, and file snapshot are unchanged. -/
theorem leaf_node_find_sim (t : Table) (pn k : Nat)
    (hlen : t.pager.pages.length = TABLE_MAX_PAGES) :
    ((leaf_node_find t pn k).map Prod.fst = leaf_node_find_pure (pageView t.pager) pn k) ∧
    (∀ c t2, leaf_node_find t pn k = .ok (c, t2) →
      pageView t2.pager = pageView t.pager ∧ t2.pager.pages.length = TABLE_MAX_PAGES ∧
      t2.root_page_num = t.root_page_num ∧ t2.pager.file = t.pager.file ∧
      t2.pager.file_length = t.pager.file_length) := by
  rcases Nat.lt_trichotomy pn TABLE_MAX_PAGES with hlt | heq | hgt
  · obtain ⟨pg, hgp, hview, hlen2, hfile, hflen, _⟩ := get_page_ok_spec t.pager pn hlen hlt
    constructor
    · simp [leaf_node_find, hgp, leaf_node_find_pure, get_page_pure,
        if_neg (by omega : ¬ pn > TABLE_MAX_PAGES),
        if_neg (by omega : ¬ pn = TABLE_MAX_PAGES), except_bind_ok, except_map_ok]
    · intro c t2 h2
      simp only [leaf_node_find, hgp, except_bind_ok] at h2
      injection h2 with h3
      injection h3 with hc ht
      subst ht
      exact ⟨hview, hlen2, rfl, hfile, hflen⟩
  · subst heq
    constructor
    · simp [leaf_node_find, get_page_err_slot t.pager hlen, leaf_node_find_pure,
        get_page_pure, except_bind_err, except_map_err]
    · intro c t2 h2
      simp only [leaf_node_find, get_page_err_slot t.pager hlen, except_bind_err] at h2
      exact absurd h2 (by simp)
  · constructor
    · simp [leaf_node_find, get_page_err_high t.pager pn hgt, leaf_node_find_pure,
        get_page_pure, if_pos hgt, except_bind_err, except_map_err]
    · intro c t2 h2
      simp only [leaf_node_find, get_page_err_high t.pager pn hgt, except_bind_err] at h2
      exact absurd h2 (by simp)

theorem internal_node_find_sim (fuel : Nat) :
    ∀ (t : Table) (pn k : Nat), t.pager.pages.length = TABLE_MAX_PAGES →
    ((internal_node_find fuel t pn k).map Prod.fst =
      internal_node_find_pure fuel (pageView t.pager) pn k) ∧
    (∀ c t2, internal_node_find fuel t pn k = .ok (c, t2) →
      pageView t2.pager = pageView t.pager ∧ t2.pager.pages.length = TABLE_MAX_PAGES ∧
      t2.root_page_num = t.root_page_num ∧ t2.pager.file = t.pager.file ∧
      t2.pager.file_length = t.pager.file_length) := by
  induction fuel with
  | zero =>
    intro t pn k hlen
    constructor
    · simp [internal_node_find, internal_node_find_pure, except_map_err]
    · intro c t2 h2
      simp [internal_node_find] at h2
  | succ f ih =>
    intro t pn k hlen
    rcases Nat.lt_trichotomy pn TABLE_MAX_PAGES with hlt | heq | hgt
    case inr.inl =>
      subst heq
      constructor
      · simp [internal_node_find, get_page_err_slot t.pager hlen,
          internal_node_find_pure, get_page_pure, except_bind_err, except_map_err]
      · intro c t2 h2
        simp [internal_node_find, get_page_err_slot t.pager hlen, except_bind_err] at h2
    case inr.inr =>
      constructor
      · simp [internal_node_find, get_page_err_high t.pager pn hgt,
          internal_node_find_pure, get_page_pure, if_pos hgt, except_bind_err,
          except_map_err]
      · intro c t2 h2
        simp [internal_node_find, get_page_err_high t.pager pn hgt, except_bind_err] at h2
    case inl =>
      obtain ⟨pg1, hgp1, hview1, hlen1, hfile1, hflen1, _⟩ :=
        get_page_ok_spec t.pager pn hlen hlt
      have hpure1 : get_page_pure (pageView t.pager) pn = .ok (pageView t.pager pn) := by
        simp [get_page_pure, if_neg (by omega : ¬ pn > TABLE_MAX_PAGES),
          if_neg (by omega : ¬ pn = TABLE_MAX_PAGES)]
      rcases hchild : internal_node_child (pageView t.pager pn)
          (internal_find_loop (pageView t.pager pn) k
            (internal_node_num_keys (pageView t.pager pn) + 1) 0
            ((internal_node_num_keys (pageView t.pager pn) : Int) - 1)) with e | child_num
      · constructor
        · simp [internal_node_find, hgp1, internal_node_find_pure, hpure1, hchild,
            except_bind_ok, except_bind_err, except_map_err]
        · intro c t2 h2
          simp [internal_node_find, hgp1, hchild, except_bind_ok, except_bind_err] at h2
      · rcases Nat.lt_trichotomy child_num TABLE_MAX_PAGES with hclt | hceq | hcgt
        case inr.inl =>
          have herr : get_page pg1 child_num = .error .slotOOB := by
            rw [hceq]; exact get_page_err_slot pg1 hlen1
          have herr2 : get_page_pure (pageView t.pager) child_num = .error .slotOOB := by
            rw [hceq]; simp [get_page_pure]
          constructor
          · simp [internal_node_find, hgp1, hchild, herr, internal_node_find_pure,
              hpure1, herr2, except_bind_ok, except_bind_err, except_map_err]
          · intro c t2 h2
            simp [internal_node_find, hgp1, hchild, herr, except_bind_ok,
              except_bind_err] at h2
        case inr.inr =>
          have herr : get_page pg1 child_num = .error .nullPage :=
            get_page_err_high pg1 child_num hcgt
          have herr2 : get_page_pure (pageView t.pager) child_num = .error .nullPage := by
            simp [get_page_pure, if_pos hcgt]
          constructor
          · simp [internal_node_find, hgp1, hchild, herr, internal_node_find_pure,
              hpure1, herr2, except_bind_ok, except_bind_err, except_map_err]
          · intro c t2 h2
            simp [internal_node_find, hgp1, hchild, herr, except_bind_ok,
              except_bind_err] at h2
        case inl =>
          obtain ⟨pg2, hgp2, hview2, hlen2, hfile2, hflen2, _⟩ :=
            get_page_ok_spec pg1 child_num hlen1 hclt
          have hchildview : pageView pg1 child_num = pageView t.pager child_num := by
            rw [hview1]
          have hpure2 : get_page_pure (pageView t.pager) child_num =
              .ok (pageView t.pager child_num) := by
            simp [get_page_pure, if_neg (by omega : ¬ child_num > TABLE_MAX_PAGES),
              if_neg (by omega : ¬ child_num = TABLE_MAX_PAGES)]
          by_cases hleaf : get_node_type (pageView t.pager child_num) =
              NodeType.toByte .NODE_LEAF
          · have hsub := leaf_node_find_sim { t with pager := pg2 } child_num k hlen2
            constructor
            · rw [show (internal_node_find (f + 1) t pn k).map Prod.fst =
                  (leaf_node_find { t with pager := pg2 } child_num k).map Prod.fst by
                    simp [internal_node_find, hgp1, hchild, hgp2, hchildview,
                      except_bind_ok, if_pos hleaf]]
              rw [hsub.1]
              have : pageView pg2 = pageView t.pager := by rw [hview2, hview1]
              rw [this]
              simp [internal_node_find_pure, hpure1, hchild, hpure2, except_bind_ok,
                if_pos hleaf]
            · intro c t2 h2
              have h2b : leaf_node_find { t with pager := pg2 } child_num k = .ok (c, t2) := by
                rw [← h2]
                simp [internal_node_find, hgp1, hchild, hgp2, hchildview,
                  except_bind_ok, if_pos hleaf]
              obtain ⟨hv, hl, hr, hf, hfl⟩ := hsub.2 c t2 h2b
              refine ⟨by rw [hv]; show pageView pg2 = _; rw [hview2, hview1], hl, hr, ?_, ?_⟩
              · rw [hf]; show pg2.file = _; rw [hfile2, hfile1]
              · rw [hfl]; show pg2.file_length = _; rw [hflen2, hflen1]
          · have hsub := ih { t with pager := pg2 } child_num k hlen2
            constructor
            · rw [show (internal_node_find (f + 1) t pn k).map Prod.fst =
                  (internal_node_find f { t with pager := pg2 } child_num k).map Prod.fst by
                    simp [internal_node_find, hgp1, hchild, hgp2, hchildview,
                      except_bind_ok, if_neg hleaf]]
              rw [hsub.1]
              have : pageView pg2 = pageView t.pager := by rw [hview2, hview1]
              rw [show ({ t with pager := pg2 } : Table).pager = pg2 from rfl, this]
              simp [internal_node_find_pure, hpure1, hchild, hpure2, except_bind_ok,
                if_neg hleaf]
            · intro c t2 h2
              have h2b : internal_node_find f { t with pager := pg2 } child_num k =
                  .ok (c, t2) := by
                rw [← h2]
                simp [internal_node_find, hgp1, hchild, hgp2, hchildview,
                  except_bind_ok, if_neg hleaf]
              obtain ⟨hv, hl, hr, hf, hfl⟩ := hsub.2 c t2 h2b
              refine ⟨by rw [hv]; show pageView pg2 = _; rw [hview2, hview1], hl, hr, ?_, ?_⟩
              · rw [hf]; show pg2.file = _; rw [hfile2, hfile1]
              · rw [hfl]; show pg2.file_length = _; rw [hflen2, hflen1]

theorem table_find_sim (t : Table) (k : Nat)
    (hlen : t.pager.pages.length = TABLE_MAX_PAGES) :
    ((table_find t k).map Prod.fst = table_find_pure (pageView t.pager) t.root_page_num k) ∧
    (∀ c t2, table_find t k = .ok (c, t2) →
      pageView t2.pager = pageView t.pager ∧ t2.pager.pages.length = TABLE_MAX_PAGES ∧
      t2.root_page_num = t.root_page_num ∧ t2.pager.file = t.pager.file ∧
      t2.pager.file_length = t.pager.file_length) := by
  rcases Nat.lt_trichotomy t.root_page_num TABLE_MAX_PAGES with hlt | heq | hgt
  case inr.inl =>
    have herr : get_page t.pager t.root_page_num = .error .slotOOB := by
      rw [heq]; exact get_page_err_slot t.pager hlen
    have herr2 : get_page_pure (pageView t.pager) t.root_page_num = .error .slotOOB := by
      rw [heq]; simp [get_page_pure]
    constructor
    · simp [table_find, herr, table_find_pure, herr2, except_bind_err, except_map_err]
    · intro c t2 h2
      simp [table_find, herr, except_bind_err] at h2
  case inr.inr =>
    have herr : get_page t.pager t.root_page_num = .error .nullPage :=
      get_page_err_high t.pager _ hgt
    have herr2 : get_page_pure (pageView t.pager) t.root_page_num = .error .nullPage := by
      simp [get_page_pure, if_pos hgt]
    constructor
    · simp [table_find, herr, table_find_pure, herr2, except_bind_err, except_map_err]
    · intro c t2 h2
      simp [table_find, herr, except_bind_err] at h2
  case inl =>
    obtain ⟨pg1, hgp1, hview1, hlen1, hfile1, hflen1, _⟩ :=
      get_page_ok_spec t.pager t.root_page_num hlen hlt
    have hpure1 : get_page_pure (pageView t.pager) t.root_page_num =
        .ok (pageView t.pager t.root_page_num) := by
      simp [get_page_pure, if_neg (by omega : ¬ t.root_page_num > TABLE_MAX_PAGES),
        if_neg (by omega : ¬ t.root_page_num = TABLE_MAX_PAGES)]
    by_cases hleaf : get_node_type (pageView t.pager t.root_page_num) =
        NodeType.toByte .NODE_LEAF
    · have hsub := leaf_node_find_sim { t with pager := pg1 } t.root_page_num k hlen1
      constructor
      · rw [show (table_find t k).map Prod.fst =
            (leaf_node_find { t with pager := pg1 } t.root_page_num k).map Prod.fst by
              simp [table_find, hgp1, except_bind_ok, if_pos hleaf]]
        rw [hsub.1]
        rw [show ({ t with pager := pg1 } : Table).pager = pg1 from rfl, hview1]
        simp [table_find_pure, hpure1, except_bind_ok, if_pos hleaf]
      · intro c t2 h2
        have h2b : leaf_node_find { t with pager := pg1 } t.root_page_num k = .ok (c, t2) := by
          rw [← h2]
          simp [table_find, hgp1, except_bind_ok, if_pos hleaf]
        obtain ⟨hv, hl, hr, hf, hfl⟩ := hsub.2 c t2 h2b
        refine ⟨by rw [hv]; show pageView pg1 = _; rw [hview1], hl, hr, ?_, ?_⟩
        · rw [hf]; show pg1.file = _; rw [hfile1]
        · rw [hfl]; show pg1.file_length = _; rw [hflen1]
    · have hsub := internal_node_find_sim FIND_FUEL { t with pager := pg1 }
        t.root_page_num k hlen1
      constructor
      · rw [show (table_find t k).map Prod.fst =
            (internal_node_find FIND_FUEL { t with pager := pg1 }
              t.root_page_num k).map Prod.fst by
              simp [table_find, hgp1, except_bind_ok, if_neg hleaf]]
        rw [hsub.1]
        rw [show ({ t with pager := pg1 } : Table).pager = pg1 from rfl, hview1]
        simp [table_find_pure, hpure1, except_bind_ok, if_neg hleaf]
      · intro c t2 h2
        have h2b : internal_node_find FIND_FUEL { t with pager := pg1 }
            t.root_page_num k = .ok (c, t2) := by
          rw [← h2]
          simp [table_find, hgp1, except_bind_ok, if_neg hleaf]
        obtain ⟨hv, hl, hr, hf, hfl⟩ := hsub.2 c t2 h2b
        refine ⟨by rw [hv]; show pageView pg1 = _; rw [hview1], hl, hr, ?_, ?_⟩
        · rw [hf]; show pg1.file = _; rw [hfile1]
        · rw [hfl]; show pg1.file_length = _; rw [hflen1]

theorem sorted_tree_succ (f : Nat) (V : Nat → Page) (pn : Nat) :
    sorted_tree (f + 1) V pn =
      if TABLE_MAX_PAGES ≤ pn then false
      else
        if get_node_type (V pn) = NodeType.toByte .NODE_LEAF then
          strictAscendingB (leaf_keys (V pn))
        else
          nondecreasingB (internal_keys (V pn)) &&
          ((List.range (internal_node_num_keys (V pn))).all
            (fun i => sorted_tree f V (readU32 (V pn) (internal_node_cell_off i)))) &&
          sorted_tree f V (internal_node_rightmost_child (V pn)) := rfl

theorem sorted_tree_bound (f : Nat) (V : Nat → Page) (pn : Nat)
    (h : sorted_tree f V pn = true) : pn < TABLE_MAX_PAGES := by
  cases f with
  | zero => simp [sorted_tree] at h
  | succ f2 =>
    rw [sorted_tree_succ] at h
    by_contra hge
    rw [if_pos (by omega)] at h
    exact Bool.noConfusion h

theorem sorted_tree_pos (f : Nat) (V : Nat → Page) (pn : Nat)
    (h : sorted_tree f V pn = true) : 1 ≤ f := by
  cases f with
  | zero => simp [sorted_tree] at h
  | succ f2 => omega

theorem leaf_node_find_pure_eq (V : Nat → Page) (pn k : Nat) (hpn : pn < TABLE_MAX_PAGES)
    (hs : strictAscendingB (leaf_keys (V pn)) = true) :
    leaf_node_find_pure V pn k =
      .ok { page_num := pn, cell_num := ref_leaf_cell (V pn) k,
            end_of_table := leaf_node_num_cells (V pn) == 0 } := by
  have hpure : get_page_pure V pn = .ok (V pn) := by
    simp [get_page_pure, if_neg (by omega : ¬ pn > TABLE_MAX_PAGES),
      if_neg (by omega : ¬ pn = TABLE_MAX_PAGES)]
  simp only [leaf_node_find_pure, hpure, except_map_ok]
  rw [leaf_cell_eq_ref (V pn) k hs]

theorem internal_find_pure_eq_ref (f : Nat) :
    ∀ (fc fr : Nat) (V : Nat → Page) (pn k : Nat),
      sorted_tree f V pn = true → f ≤ fc → f ≤ fr →
      ¬ get_node_type (V pn) = NodeType.toByte .NODE_LEAF →
      internal_node_find_pure fc V pn k = find_ref fr V pn k := by
  induction f with
  | zero =>
    intro fc fr V pn k hs
    simp [sorted_tree] at hs
  | succ f2 ih =>
    intro fc fr V pn k hs hfc hfr hnl
    have hpn := sorted_tree_bound _ _ _ hs
    rw [sorted_tree_succ, if_neg (by omega), if_neg hnl] at hs
    simp only [Bool.and_eq_true, List.all_eq_true] at hs
    obtain ⟨⟨hmono, hkids⟩, hrm⟩ := hs
    have hmono2 := internal_keys_sorted (V pn) hmono
    -- both sides choose the same child
    have hstart : internal_find_loop (V pn) k (internal_node_num_keys (V pn) + 1) 0
        ((internal_node_num_keys (V pn) : Int) - 1) = smallest_ge (V pn) k :=
      internal_start_eq_smallest_ge (V pn) k hmono
    have hsgle : smallest_ge (V pn) k ≤ internal_node_num_keys (V pn) :=
      (smallest_ge_post (V pn) k hmono2).1
    have hchildeq : internal_node_child (V pn) (smallest_ge (V pn) k) =
        .ok (if smallest_ge (V pn) k = internal_node_num_keys (V pn)
             then internal_node_rightmost_child (V pn)
             else readU32 (V pn) (internal_node_cell_off (smallest_ge (V pn) k))) := by
      unfold internal_node_child
      rw [if_neg (by omega)]
      by_cases hc : smallest_ge (V pn) k = internal_node_num_keys (V pn)
      · rw [if_pos hc, if_pos hc]
      · rw [if_neg hc, if_neg hc]
    set child := (if smallest_ge (V pn) k = internal_node_num_keys (V pn)
                  then internal_node_rightmost_child (V pn)
                  else readU32 (V pn) (internal_node_cell_off (smallest_ge (V pn) k)))
      with hchild_def
    have hchild_sorted : sorted_tree f2 V child = true := by
      rw [hchild_def]
      by_cases hc : smallest_ge (V pn) k = internal_node_num_keys (V pn)
      · rw [if_pos hc]
        exact hrm
      · rw [if_neg hc]
        refine hkids _ (List.mem_range.mpr (by omega))
    have hf2pos : 1 ≤ f2 := sorted_tree_pos _ _ _ hchild_sorted
    have hchild_lt : child < TABLE_MAX_PAGES := sorted_tree_bound _ _ _ hchild_sorted
    obtain ⟨fc2, rfl⟩ : ∃ fc2, fc = fc2 + 1 := ⟨fc - 1, by omega⟩
    obtain ⟨fr2, rfl⟩ : ∃ fr2, fr = fr2 + 1 := ⟨fr - 1, by omega⟩
    have hpure1 : get_page_pure V pn = .ok (V pn) := by
      simp [get_page_pure, if_neg (by omega : ¬ pn > TABLE_MAX_PAGES),
        if_neg (by omega : ¬ pn = TABLE_MAX_PAGES)]
    have hpure2 : get_page_pure V child = .ok (V child) := by
      simp [get_page_pure, if_neg (by omega : ¬ child > TABLE_MAX_PAGES),
        if_neg (by omega : ¬ child = TABLE_MAX_PAGES)]
    have hlhs : internal_node_find_pure (fc2 + 1) V pn k =
        (if get_node_type (V child) = NodeType.toByte .NODE_LEAF then
          leaf_node_find_pure V child k
        else internal_node_find_pure fc2 V child k) := by
      simp only [internal_node_find_pure, hpure1, except_bind_ok, hstart, hchildeq,
        ← hchild_def, hpure2]
    have hrhs : find_ref (fr2 + 1) V pn k = find_ref fr2 V child k := by
      simp only [find_ref, if_neg hnl, ← hchild_def]
    rw [hlhs, hrhs]
    by_cases hleaf : get_node_type (V child) = NodeType.toByte .NODE_LEAF
    · rw [if_pos hleaf]
      have hskid : strictAscendingB (leaf_keys (V child)) = true := by
        cases f2 with
        | zero => omega
        | succ f3 =>
          rw [sorted_tree_succ, if_neg (by omega), if_pos hleaf] at hchild_sorted
          exact hchild_sorted
      obtain ⟨fr3, rfl⟩ : ∃ fr3, fr2 = fr3 + 1 := ⟨fr2 - 1, by omega⟩
      rw [leaf_node_find_pure_eq V child k hchild_lt hskid]
      simp [find_ref, if_pos hleaf]
    · rw [if_neg hleaf]
      exact ih fc2 fr2 V child k hchild_sorted (by omega) (by omega) hleaf

set_option maxRecDepth 100000 in
/-- Claim C4, counterexample: a tree whose leaves all hold strictly
increasing distinct keys, but whose internal root has the unsorted key array
[10, 2, 10]; searching for 5, table_find descends into child 2 (landing on
page 3) whereas the smallest index with key ≥ 5 is 0 (the spec's descent
lands on page 1).  The claim's hypothesis on leaf keys alone does not make
the binary search of internal_node_find pick the smallest qualifying
index. -/
theorem C4_counterexample :
    leaves_sorted FIND_FUEL (pageView cx4_table.pager) 0 = true ∧
    (table_find cx4_table 5).map Prod.fst =
      .ok { page_num := 3, cell_num := 1, end_of_table := false } ∧
    find_ref FIND_FUEL (pageView cx4_table.pager) 0 5 =
      .ok { page_num := 1, cell_num := 1, end_of_table := false } ∧
    (table_find cx4_table 5).map Prod.fst ≠
      find_ref FIND_FUEL (pageView cx4_table.pager) 0 5 := by
  exact ⟨by decide, by decide, by decide, by decide⟩

theorem find_ref_leaf (f : Nat) (V : Nat → Page) (pn k : Nat)
    (h : get_node_type (V pn) = NodeType.toByte .NODE_LEAF) :
    find_ref (f + 1) V pn k =
      .ok { page_num := pn, cell_num := ref_leaf_cell (V pn) k,
            end_of_table := leaf_node_num_cells (V pn) == 0 } := by
  simp only [find_ref, if_pos h]

/-- Claim C4 as amended: if additionally every internal node's key array is
nondecreasing (invariant I5 guarantees this on reachable trees), then
table_find computes exactly the spec's descent find_ref: at each internal
node it recurses into the child at the smallest index i with key[i] ≥ k
(the rightmost child when i = num_keys), and it returns a cursor on the
landed leaf whose cell_num is the index of k on a hit, otherwise the
smallest index holding a strictly greater key, otherwise num_cells, with
end_of_table set iff that leaf is empty. -/
theorem C4_find_matches_ref (t : Table) (k : Nat)
    (hlen : t.pager.pages.length = TABLE_MAX_PAGES)
    (hs : sorted_tree FIND_FUEL (pageView t.pager) t.root_page_num = true) :
    (table_find t k).map Prod.fst =
      find_ref FIND_FUEL (pageView t.pager) t.root_page_num k := by
  rw [(table_find_sim t k hlen).1]
  have hroot_lt := sorted_tree_bound _ _ _ hs
  have hpure1 : get_page_pure (pageView t.pager) t.root_page_num =
      .ok (pageView t.pager t.root_page_num) := by
    simp [get_page_pure, if_neg (by omega : ¬ t.root_page_num > TABLE_MAX_PAGES),
      if_neg (by omega : ¬ t.root_page_num = TABLE_MAX_PAGES)]
  by_cases hleaf : get_node_type (pageView t.pager t.root_page_num) =
      NodeType.toByte .NODE_LEAF
  · have hsl : strictAscendingB (leaf_keys (pageView t.pager t.root_page_num)) = true := by
      have := hs
      rw [show FIND_FUEL = TABLE_MAX_PAGES + 1 from rfl, sorted_tree_succ,
        if_neg (by omega), if_pos hleaf] at this
      exact this
    have hlhs : table_find_pure (pageView t.pager) t.root_page_num k =
        leaf_node_find_pure (pageView t.pager) t.root_page_num k := by
      simp only [table_find_pure, hpure1, except_bind_ok, if_pos hleaf]
    rw [hlhs, leaf_node_find_pure_eq _ _ _ hroot_lt hsl,
      show FIND_FUEL = TABLE_MAX_PAGES + 1 from rfl,
      find_ref_leaf TABLE_MAX_PAGES (pageView t.pager) t.root_page_num k hleaf]
  · have hlhs : table_find_pure (pageView t.pager) t.root_page_num k =
        internal_node_find_pure FIND_FUEL (pageView t.pager) t.root_page_num k := by
      simp only [table_find_pure, hpure1, except_bind_ok, if_neg hleaf]
    rw [hlhs]
    exact internal_find_pure_eq_ref FIND_FUEL FIND_FUEL FIND_FUEL (pageView t.pager)
      t.root_page_num k hs (Nat.le_refl _) (Nat.le_refl _) hleaf

set_option maxRecDepth 100000 in
/-- Witness for the amended C4 on a concrete sorted two-leaf tree. -/
theorem C4_find_matches_ref_witness :
    (table_find w4_table 3).map Prod.fst =
      find_ref FIND_FUEL (pageView w4_table.pager) 0 3 ∧
    (table_find w4_table 3).map Prod.fst =
      .ok { page_num := 2, cell_num := 0, end_of_table := false } := by
  refine ⟨C4_find_matches_ref w4_table 3 (by decide) (by decide), by decide⟩

-- Segment arithmetic for the split/insert machinery (claims C3 and C5).

theorem b256_mono {m n : Nat} (h : m ≤ n) : b256 m ≤ b256 n :=
  Nat.le_of_dvd (b256_pos n) (b256_dvd h)

theorem readSeg_mod (p o l N : Nat) (h : o + l ≤ N) :
    readSeg (p % b256 N) o l = readSeg p o l := by
  rw [readSeg_eq_mod_div, readSeg_eq_mod_div, Nat.mod_mod_of_dvd p (b256_dvd h)]

theorem segOfBytes_lt (src : Nat → Nat) (n : Nat) : segOfBytes src n < b256 n := by
  induction n with
  | zero =>
    show (0 : Nat) < b256 0
    rw [b256_eq]
    norm_num
  | succ k ih =>
    show segOfBytes src k + src k % 256 * b256 k < b256 (k + 1)
    have h1 : src k % 256 ≤ 255 := by omega
    have h2 : src k % 256 * b256 k ≤ 255 * b256 k := Nat.mul_le_mul_right _ h1
    have h3 : b256 (k + 1) = b256 k * 256 := by rw [b256_add k 1, b256_one]
    omega

theorem seg_pair_lt (a A b B : Nat) (ha : a < A) (hb : b < B) : a + A * b < A * B := by
  calc a + A * b < A + A * b := by omega
    _ = A * (b + 1) := by ring
    _ ≤ A * B := Nat.mul_le_mul_left _ (by omega)

theorem serialized_row_lt (r : Row) : serialized_row r < b256 ROW_SIZE := by
  have h1 : r.id % b256 ID_SIZE < b256 ID_SIZE := Nat.mod_lt _ (b256_pos _)
  have h2 := segOfBytes_lt (fun i => r.username.getD i 0) USERNAME_SIZE
  have h3 := segOfBytes_lt (fun i => r.email.getD i 0) EMAIL_SIZE
  have h4 := seg_pair_lt _ _ _ _ h2 h3
  have h5 : b256 USERNAME_SIZE * b256 EMAIL_SIZE = b256 (USERNAME_SIZE + EMAIL_SIZE) :=
    (b256_add _ _).symm
  rw [h5] at h4
  have h6 := seg_pair_lt _ _ _ _ h1 h4
  show serialized_row r < b256 ROW_SIZE
  rw [show b256 ROW_SIZE = b256 ID_SIZE * b256 (USERNAME_SIZE + EMAIL_SIZE) by
    rw [← b256_add]
    rfl]
  exact h6

theorem writeSeg3_read (p p1 p2 p3 : Page) (off a u e : Nat)
    (h1 : p1 = writeSeg p off 4 a) (h2 : p2 = writeSeg p1 (off + 4) 33 u)
    (h3 : p3 = writeSeg p2 (off + 37) 256 e)
    (hu : u < b256 33) (he : e < b256 256) :
    readSeg p3 off (4 + 289) = a % b256 4 + b256 4 * (u + b256 33 * e) := by
  rw [readSeg_split p3 off 4 289, show (289 : Nat) = 33 + 256 from rfl,
      readSeg_split p3 (off + 4) 33 256, show off + 4 + 33 = off + 37 by omega, h3,
      readSeg_writeSeg_same p2 (off + 37) 256 e,
      readSeg_writeSeg_below p2 (off + 37) 256 e (off + 4) 33 (by omega),
      readSeg_writeSeg_below p2 (off + 37) 256 e off 4 (by omega), h2,
      readSeg_writeSeg_same p1 (off + 4) 33 u,
      readSeg_writeSeg_below p1 (off + 4) 33 u off 4 (by omega), h1,
      readSeg_writeSeg_same p off 4 a, Nat.mod_eq_of_lt hu, Nat.mod_eq_of_lt he]

theorem writeSeg3_pres (p p1 p2 p3 : Page) (off a u e o2 l2 : Nat)
    (h1 : p1 = writeSeg p off 4 a) (h2 : p2 = writeSeg p1 (off + 4) 33 u)
    (h3 : p3 = writeSeg p2 (off + 37) 256 e)
    (h : o2 + l2 ≤ off ∨ off + 293 ≤ o2) :
    readSeg p3 o2 l2 = readSeg p o2 l2 := by
  rcases h with h | h
  · rw [h3, readSeg_writeSeg_below p2 (off + 37) 256 e o2 l2 (by omega), h2,
        readSeg_writeSeg_below p1 (off + 4) 33 u o2 l2 (by omega), h1,
        readSeg_writeSeg_below p off 4 a o2 l2 (by omega)]
  · rw [h3, readSeg_writeSeg_above p2 (off + 37) 256 e o2 l2 (by omega), h2,
        readSeg_writeSeg_above p1 (off + 4) 33 u o2 l2 (by omega), h1,
        readSeg_writeSeg_above p off 4 a o2 l2 (by omega)]

theorem serialize_row_read (r : Row) (node : Page) (off : Nat) :
    readSeg (serialize_row r node off) off ROW_SIZE = serialized_row r :=
  writeSeg3_read node _ _ _ off r.id _ _ rfl rfl rfl
    (segOfBytes_lt _ _) (segOfBytes_lt _ _)

theorem serialize_row_pres (r : Row) (node : Page) (off o2 l2 : Nat)
    (h : o2 + l2 ≤ off ∨ off + ROW_SIZE ≤ o2) :
    readSeg (serialize_row r node off) o2 l2 = readSeg node o2 l2 :=
  writeSeg3_pres node _ _ _ off r.id _ _ o2 l2 rfl rfl rfl h

theorem cell_off_eq (j : Nat) : leaf_node_cell_off j = 14 + j * 297 := rfl

theorem leaf_cell_seg_split (node : Page) (j : Nat) :
    leaf_cell_seg node j =
      leaf_node_key node j + b256 4 * readSeg node (leaf_node_value_off j) ROW_SIZE := by
  show readSeg node (leaf_node_cell_off j) (4 + 293) = _
  rw [readSeg_split node (leaf_node_cell_off j) 4 293]
  rfl

theorem insert_cell_read (v : Row) (node : Page) (j k : Nat) :
    leaf_cell_seg (write_leaf_node_key (serialize_row v node (leaf_node_value_off j)) j k) j
      = k % b256 4 + b256 4 * serialized_row v := by
  rw [leaf_cell_seg_split]
  have hkey : leaf_node_key
      (write_leaf_node_key (serialize_row v node (leaf_node_value_off j)) j k) j
      = k % b256 4 :=
    readSeg_writeSeg_same (serialize_row v node (leaf_node_value_off j))
      (leaf_node_cell_off j) 4 k
  have hval : readSeg
      (write_leaf_node_key (serialize_row v node (leaf_node_value_off j)) j k)
      (leaf_node_value_off j) ROW_SIZE = serialized_row v := by
    have hup : readSeg (writeSeg (serialize_row v node (leaf_node_cell_off j + 4))
        (leaf_node_cell_off j) 4 k) (leaf_node_cell_off j + 4) 293
        = readSeg (serialize_row v node (leaf_node_cell_off j + 4))
            (leaf_node_cell_off j + 4) 293 :=
      readSeg_writeSeg_above (serialize_row v node (leaf_node_cell_off j + 4))
        (leaf_node_cell_off j) 4 k (leaf_node_cell_off j + 4) 293 (by omega)
    exact hup.trans (serialize_row_read v node (leaf_node_cell_off j + 4))
  rw [hkey, hval]

theorem insert_cell_pres (v : Row) (node : Page) (j k o2 l2 : Nat)
    (h : o2 + l2 ≤ leaf_node_cell_off j ∨ leaf_node_cell_off j + 297 ≤ o2) :
    readSeg (write_leaf_node_key (serialize_row v node (leaf_node_value_off j)) j k) o2 l2
      = readSeg node o2 l2 := by
  rcases h with h | h
  · have hb : readSeg (writeSeg (serialize_row v node (leaf_node_cell_off j + 4))
        (leaf_node_cell_off j) 4 k) o2 l2
        = readSeg (serialize_row v node (leaf_node_cell_off j + 4)) o2 l2 :=
      readSeg_writeSeg_below (serialize_row v node (leaf_node_cell_off j + 4))
        (leaf_node_cell_off j) 4 k o2 l2 (by omega)
    have hs : readSeg (serialize_row v node (leaf_node_cell_off j + 4)) o2 l2
        = readSeg node o2 l2 :=
      serialize_row_pres v node (leaf_node_cell_off j + 4) o2 l2 (Or.inl (by omega))
    exact hb.trans hs
  · have hb : readSeg (writeSeg (serialize_row v node (leaf_node_cell_off j + 4))
        (leaf_node_cell_off j) 4 k) o2 l2
        = readSeg (serialize_row v node (leaf_node_cell_off j + 4)) o2 l2 :=
      readSeg_writeSeg_above (serialize_row v node (leaf_node_cell_off j + 4))
        (leaf_node_cell_off j) 4 k o2 l2 (by omega)
    have hs : readSeg (serialize_row v node (leaf_node_cell_off j + 4)) o2 l2
        = readSeg node o2 l2 :=
      serialize_row_pres v node (leaf_node_cell_off j + 4) o2 l2
        (Or.inr (show leaf_node_cell_off j + 4 + 293 ≤ o2 by omega))
    exact hb.trans hs

theorem copy_cell_read (dst : Page) (di : Nat) (src : Page) (si : Nat) :
    leaf_cell_seg (copy_leaf_cell dst di src si) di = leaf_cell_seg src si := by
  show readSeg (writeSeg dst (leaf_node_cell_off di) 297
      (readSeg src (leaf_node_cell_off si) 297)) (leaf_node_cell_off di) 297
    = readSeg src (leaf_node_cell_off si) 297
  rw [readSeg_writeSeg_same dst (leaf_node_cell_off di) 297
      (readSeg src (leaf_node_cell_off si) 297)]
  exact Nat.mod_eq_of_lt (readSeg_lt _ _ _)

theorem copy_cell_pres (dst : Page) (di : Nat) (src : Page) (si o2 l2 : Nat)
    (h : o2 + l2 ≤ leaf_node_cell_off di ∨ leaf_node_cell_off di + 297 ≤ o2) :
    readSeg (copy_leaf_cell dst di src si) o2 l2 = readSeg dst o2 l2 := by
  rcases h with h | h
  · exact readSeg_writeSeg_below dst (leaf_node_cell_off di) 297
      (readSeg src (leaf_node_cell_off si) 297) o2 l2 h
  · exact readSeg_writeSeg_above dst (leaf_node_cell_off di) 297
      (readSeg src (leaf_node_cell_off si) 297) o2 l2 h

theorem logical_key_lt (old : Page) (pos k i : Nat) : logical_key old pos k i < b256 4 := by
  unfold logical_key
  split_ifs
  · exact Nat.mod_lt _ (b256_pos _)
  · exact readU32_lt _ _
  · exact readU32_lt _ _

theorem logical_value_lt (old : Page) (pos : Nat) (v : Row) (i : Nat) :
    logical_value old pos v i < b256 293 := by
  unfold logical_value
  split_ifs
  · exact serialized_row_lt v
  · exact readSeg_lt _ _ _
  · exact readSeg_lt _ _ _

theorem cell_eq_parts (node : Page) (j lk lv : Nat)
    (hseg : leaf_cell_seg node j = lk + b256 4 * lv)
    (hlk : lk < b256 4) :
    leaf_node_key node j = lk ∧
      readSeg node (leaf_node_value_off j) ROW_SIZE = lv := by
  have hk : leaf_node_key node j < b256 4 := readU32_lt node (leaf_node_cell_off j)
  have he : leaf_node_key node j
        + b256 4 * readSeg node (leaf_node_value_off j) ROW_SIZE
      = lk + b256 4 * lv := (leaf_cell_seg_split node j).symm.trans hseg
  constructor
  · have h1 := congrArg (fun x => x % b256 4) he
    simp only [Nat.add_mul_mod_self_left] at h1
    rwa [Nat.mod_eq_of_lt hk, Nat.mod_eq_of_lt hlk] at h1
  · have h2 := congrArg (fun x => x / b256 4) he
    simp only at h2
    rw [Nat.add_mul_div_left _ _ (b256_pos 4), Nat.add_mul_div_left _ _ (b256_pos 4),
        Nat.div_eq_of_lt hk, Nat.div_eq_of_lt hlk] at h2
    simpa using h2

theorem logical_cell_congr (p q : Page) (c k : Nat) (v : Row) (i : Nat)
    (h : ∀ a l, 14 ≤ a → a + l ≤ leaf_node_cell_off i + 297 →
      readSeg p a l = readSeg q a l) :
    logical_cell p c k v i = logical_cell q c k v i := by
  have hkey : ∀ x, x ≤ i → leaf_node_key p x = leaf_node_key q x := by
    intro x hx
    exact h (leaf_node_cell_off x) 4
      (by rw [cell_off_eq]; omega)
      (by rw [cell_off_eq, cell_off_eq]; omega)
  have hval : ∀ x, x ≤ i →
      readSeg p (leaf_node_value_off x) ROW_SIZE
        = readSeg q (leaf_node_value_off x) ROW_SIZE := by
    intro x hx
    exact h (leaf_node_cell_off x + 4) 293
      (by rw [cell_off_eq]; omega)
      (by rw [cell_off_eq, cell_off_eq]; omega)
  have h1 : logical_key p c k i = logical_key q c k i := by
    unfold logical_key
    split_ifs with ha hb
    · rfl
    · exact hkey (i - 1) (by omega)
    · exact hkey i (Nat.le_refl i)
  have h2 : logical_value p c v i = logical_value q c v i := by
    unfold logical_value
    split_ifs with ha hb
    · rfl
    · exact hval (i - 1) (by omega)
    · exact hval i (Nat.le_refl i)
  show logical_key p c k i + b256 LEAF_NODE_KEY_SIZE * logical_value p c v i = _
  rw [h1, h2]
  rfl

-- The redistribution loop of the leaf split, characterized cell by cell.

theorem split_step_high (c k : Nat) (v : Row) (o n : Page) (m : Nat)
    (h7 : 7 ≤ m) (h13 : m ≤ 13) :
    split_insert_step c k v (o, n) m =
      (o, if m = c then
            write_leaf_node_key (serialize_row v n (leaf_node_value_off (m - 7))) (m - 7) k
          else if m > c then copy_leaf_cell n (m - 7) o (m - 1)
          else copy_leaf_cell n (m - 7) o m) := by
  have hmod : m % LEAF_NODE_LEFT_SPLIT_COUNT = m - 7 := by
    show m % 7 = m - 7
    omega
  simp only [split_insert_step]
  rw [if_pos (show m ≥ LEAF_NODE_LEFT_SPLIT_COUNT from show 7 ≤ m by omega)]
  rw [hmod]

theorem split_step_low (c k : Nat) (v : Row) (o n : Page) (m : Nat) (h7 : m < 7) :
    split_insert_step c k v (o, n) m =
      (if m = c then
         write_leaf_node_key (serialize_row v o (leaf_node_value_off m)) m k
       else if m > c then copy_leaf_cell o m o (m - 1)
       else copy_leaf_cell o m o m, n) := by
  have hmod : m % LEAF_NODE_LEFT_SPLIT_COUNT = m := by
    show m % 7 = m
    omega
  simp only [split_insert_step]
  rw [if_neg (show ¬ m ≥ LEAF_NODE_LEFT_SPLIT_COUNT from show ¬ 7 ≤ m by omega)]
  rw [hmod]

theorem split_go_spec (c k : Nat) (v : Row) (m : Nat) :
    m ≤ 14 → ∀ o n : Page,
      (∀ a l, a + l ≤ 14 ∨ 2093 ≤ a →
        readSeg (split_go c k v m (o, n)).1 a l = readSeg o a l ∧
        readSeg (split_go c k v m (o, n)).2 a l = readSeg n a l) ∧
      (∀ j, j < 7 → m ≤ j →
        leaf_cell_seg (split_go c k v m (o, n)).1 j = leaf_cell_seg o j) ∧
      (∀ j, j < 7 → m ≤ j + 7 →
        leaf_cell_seg (split_go c k v m (o, n)).2 j = leaf_cell_seg n j) ∧
      (∀ j, j < 7 → j < m →
        leaf_cell_seg (split_go c k v m (o, n)).1 j = logical_cell o c k v j) ∧
      (∀ j, j < 7 → j + 7 < m →
        leaf_cell_seg (split_go c k v m (o, n)).2 j = logical_cell o c k v (j + 7)) := by
  induction m with
  | zero =>
    intro _ o n
    refine ⟨fun a l _ => ⟨rfl, rfl⟩, fun j _ _ => rfl, fun j _ _ => rfl,
      fun j _ hj => absurd hj (by omega), fun j _ hj => absurd hj (by omega)⟩
  | succ m ih =>
    intro hm o n
    have hms : split_go c k v (m + 1) (o, n)
        = split_go c k v m (split_insert_step c k v (o, n) m) := rfl
    by_cases h7 : 7 ≤ m
    · rw [split_step_high c k v o n m h7 (by omega)] at hms
      set N1 := (if m = c then
          write_leaf_node_key (serialize_row v n (leaf_node_value_off (m - 7))) (m - 7) k
        else if m > c then copy_leaf_cell n (m - 7) o (m - 1)
        else copy_leaf_cell n (m - 7) o m) with hN1
      have hN1pres : ∀ a l,
          a + l ≤ leaf_node_cell_off (m - 7) ∨ leaf_node_cell_off (m - 7) + 297 ≤ a →
          readSeg N1 a l = readSeg n a l := by
        intro a l hd
        rw [hN1]
        split_ifs with hc1 hc2
        · exact insert_cell_pres v n (m - 7) k a l hd
        · exact copy_cell_pres n (m - 7) o (m - 1) a l hd
        · exact copy_cell_pres n (m - 7) o m a l hd
      have hN1cell : leaf_cell_seg N1 (m - 7) = logical_cell o c k v m := by
        rw [hN1]
        by_cases hc1 : m = c
        · rw [if_pos hc1, insert_cell_read v n (m - 7) k]
          show _ = logical_key o c k m + b256 LEAF_NODE_KEY_SIZE * logical_value o c v m
          unfold logical_key logical_value
          rw [if_pos hc1, if_pos hc1]
          rfl
        · rw [if_neg hc1]
          by_cases hc2 : m > c
          · rw [if_pos hc2, copy_cell_read n (m - 7) o (m - 1), leaf_cell_seg_split]
            show _ = logical_key o c k m + b256 LEAF_NODE_KEY_SIZE * logical_value o c v m
            unfold logical_key logical_value
            rw [if_neg hc1, if_neg hc1, if_pos hc2, if_pos hc2]
            rfl
          · rw [if_neg hc2, copy_cell_read n (m - 7) o m, leaf_cell_seg_split]
            show _ = logical_key o c k m + b256 LEAF_NODE_KEY_SIZE * logical_value o c v m
            unfold logical_key logical_value
            rw [if_neg hc1, if_neg hc1, if_neg hc2, if_neg hc2]
            rfl
      obtain ⟨ihpres, ihold, ihnew, iholdw, ihneww⟩ := ih (by omega) o N1
      rw [hms]
      refine ⟨?_, ?_, ?_, ?_, ?_⟩
      · intro a l hd
        obtain ⟨hp1, hp2⟩ := ihpres a l hd
        refine ⟨hp1, ?_⟩
        rw [hp2]
        have hd2 : a + l ≤ leaf_node_cell_off (m - 7) ∨ leaf_node_cell_off (m - 7) + 297 ≤ a := by
          rcases hd with hd | hd
          · exact Or.inl (by rw [cell_off_eq]; omega)
          · exact Or.inr (by rw [cell_off_eq]; omega)
        exact hN1pres a l hd2
      · intro j hj7 hjm
        exact absurd hjm (by omega)
      · intro j hj7 hjm
        rw [ihnew j hj7 (by omega)]
        exact hN1pres (leaf_node_cell_off j) 297
          (Or.inr (by rw [cell_off_eq, cell_off_eq]; omega))
      · intro j hj7 hjm
        exact iholdw j hj7 (by omega)
      · intro j hj7 hjm
        by_cases hje : j + 7 = m
        · rw [ihnew j hj7 (by omega)]
          rw [show j = m - 7 by omega, show m - 7 + 7 = m by omega]
          exact hN1cell
        · exact ihneww j hj7 (by omega)
    · rw [split_step_low c k v o n m (by omega)] at hms
      set O1 := (if m = c then
          write_leaf_node_key (serialize_row v o (leaf_node_value_off m)) m k
        else if m > c then copy_leaf_cell o m o (m - 1)
        else copy_leaf_cell o m o m) with hO1
      have hO1pres : ∀ a l,
          a + l ≤ leaf_node_cell_off m ∨ leaf_node_cell_off m + 297 ≤ a →
          readSeg O1 a l = readSeg o a l := by
        intro a l hd
        rw [hO1]
        split_ifs with hc1 hc2
        · exact insert_cell_pres v o m k a l hd
        · exact copy_cell_pres o m o (m - 1) a l hd
        · exact copy_cell_pres o m o m a l hd
      have hO1cell : leaf_cell_seg O1 m = logical_cell o c k v m := by
        rw [hO1]
        by_cases hc1 : m = c
        · rw [if_pos hc1, insert_cell_read v o m k]
          show _ = logical_key o c k m + b256 LEAF_NODE_KEY_SIZE * logical_value o c v m
          unfold logical_key logical_value
          rw [if_pos hc1, if_pos hc1]
          rfl
        · rw [if_neg hc1]
          by_cases hc2 : m > c
          · rw [if_pos hc2, copy_cell_read o m o (m - 1), leaf_cell_seg_split]
            show _ = logical_key o c k m + b256 LEAF_NODE_KEY_SIZE * logical_value o c v m
            unfold logical_key logical_value
            rw [if_neg hc1, if_neg hc1, if_pos hc2, if_pos hc2]
            rfl
          · rw [if_neg hc2, copy_cell_read o m o m, leaf_cell_seg_split]
            show _ = logical_key o c k m + b256 LEAF_NODE_KEY_SIZE * logical_value o c v m
            unfold logical_key logical_value
            rw [if_neg hc1, if_neg hc1, if_neg hc2, if_neg hc2]
            rfl
      obtain ⟨ihpres, ihold, ihnew, iholdw, ihneww⟩ := ih (by omega) O1 n
      rw [hms]
      refine ⟨?_, ?_, ?_, ?_, ?_⟩
      · intro a l hd
        obtain ⟨hp1, hp2⟩ := ihpres a l hd
        refine ⟨?_, hp2⟩
        rw [hp1]
        have hd2 : a + l ≤ leaf_node_cell_off m ∨ leaf_node_cell_off m + 297 ≤ a := by
          rcases hd with hd | hd
          · exact Or.inl (by rw [cell_off_eq]; omega)
          · exact Or.inr (by rw [cell_off_eq]; omega)
        exact hO1pres a l hd2
      · intro j hj7 hjm
        rw [ihold j hj7 (by omega)]
        exact hO1pres (leaf_node_cell_off j) 297
          (Or.inr (by rw [cell_off_eq, cell_off_eq]; omega))
      · intro j hj7 hjm
        exact ihnew j hj7 (by omega)
      · intro j hj7 hjm
        by_cases hje : j = m
        · rw [ihold j hj7 (by omega), hje]
          exact hO1cell
        · rw [iholdw j hj7 (by omega)]
          apply logical_cell_congr
          intro a l h14 hle
          apply hO1pres
          left
          rw [cell_off_eq] at hle ⊢
          omega
      · intro j hj7 hjm
        exact absurd hjm (by omega)

theorem split_loop_eq (o n : Page) (c k : Nat) (v : Row) :
    split_loop o n c k v = split_go c k v 14 (o, n) := rfl

-- Pager well-formedness, unpacked.

theorem pagerWF_parts (pg : Pager) (h : pagerWF pg = true) :
    pg.pages.length = TABLE_MAX_PAGES ∧ 1 ≤ pg.num_pages ∧
    pg.num_pages ≤ TABLE_MAX_PAGES ∧
    (∀ i, i < TABLE_MAX_PAGES → slot_is_page pg i = decide (i < pg.num_pages)) ∧
    pg.file_length ≤ pg.num_pages * PAGE_SIZE ∧ pg.file < b256 pg.file_length := by
  unfold pagerWF at h
  simp only [Bool.and_eq_true, List.all_eq_true, List.mem_range, decide_eq_true_eq,
    beq_iff_eq] at h
  exact ⟨h.1.1.1.1.1.1, h.1.1.1.1.1.2, h.1.1.1.1.2, fun i hi => h.1.1.1.2 i hi,
    h.1.1.2, h.1.2⟩

theorem pagerWF_slot_lt (pg : Pager) (h : pagerWF pg = true) (i : Nat)
    (hi : i < pg.num_pages) :
    pg.pages.get? i = some (some (pageView pg i)) := by
  obtain ⟨hlen, hnp1, hnp100, hslots, _, _⟩ := pagerWF_parts pg h
  have hs : slot_is_page pg i = true := by
    rw [hslots i (by omega)]
    exact decide_eq_true hi
  unfold slot_is_page at hs
  rcases hg : pg.pages.get? i with _ | po
  · rw [hg] at hs
    simp at hs
  · rcases po with _ | p
    · rw [hg] at hs
      simp at hs
    · rw [pageView_of_slot pg i p hg]

theorem pagerWF_slot_ge (pg : Pager) (h : pagerWF pg = true) (i : Nat)
    (hi : pg.num_pages ≤ i) (hi2 : i < TABLE_MAX_PAGES) :
    pg.pages.get? i = some none := by
  obtain ⟨hlen, hnp1, hnp100, hslots, _, _⟩ := pagerWF_parts pg h
  have hs : slot_is_page pg i = false := by
    rw [hslots i hi2]
    exact decide_eq_false (by omega)
  unfold slot_is_page at hs
  rcases hg : pg.pages.get? i with _ | po
  · exfalso
    have := List.get?_eq_none.mp hg
    omega
  · rcases po with _ | p
    · rfl
    · rw [hg] at hs
      simp at hs

theorem file_page_zero (pg : Pager) (n : Nat)
    (hfl : pg.file_length ≤ n * PAGE_SIZE) (hf : pg.file < b256 pg.file_length) :
    file_page pg n = 0 := by
  show readSeg pg.file (n * PAGE_SIZE) PAGE_SIZE = 0
  rw [readSeg]
  have hz : pg.file / b256 (n * PAGE_SIZE) = 0 :=
    Nat.div_eq_of_lt (lt_of_lt_of_le hf (b256_mono hfl))
  rw [hz]
  exact Nat.zero_mod _

/-- The state leaf_node_split_and_insert reaches just before its root check,
with all page computations named explicitly. -/
theorem split_insert_state (t : Table) (cursor : Cursor) (k : Nat) (v : Row)
    (P : Nat) (R oA nA old2 new2 : Page)
    (hWF : pagerWF t.pager = true)
    (hP : P = t.pager.num_pages)
    (hP98 : P ≤ 98)
    (hpn : cursor.page_num < P)
    (hR : R = pageView t.pager cursor.page_num)
    (hoA : oA = write_leaf_node_next_leaf R P)
    (hnA : nA = write_leaf_node_next_leaf (init_leaf_node zeroPage) (leaf_node_next_leaf R))
    (hold2 : old2 = write_leaf_node_num_cells
       (split_go cursor.cell_num k v 14 (oA, nA)).1 LEAF_NODE_LEFT_SPLIT_COUNT)
    (hnew2 : new2 = write_leaf_node_num_cells
       (split_go cursor.cell_num k v 14 (oA, nA)).2 LEAF_NODE_RIGHT_SPLIT_COUNT) :
    leaf_node_split_and_insert t cursor k v =
      (if is_node_root old2 then
        create_new_root { t with pager := set_page (set_page
            { t.pager with num_pages := P + 1,
                           pages := t.pager.pages.set P (some zeroPage) }
            cursor.page_num old2) P new2 } P
       else .error (.fatalExit "Need to implement updating parent after split")) := by
  obtain ⟨hlen, hnp1, hnp100, _, hfl, hfile⟩ := pagerWF_parts t.pager hWF
  subst hP hR hoA hnA hold2 hnew2
  have hslot := pagerWF_slot_lt t.pager hWF cursor.page_num (by omega)
  have hget1 : get_page t.pager cursor.page_num
      = .ok (pageView t.pager cursor.page_num, t.pager) :=
    get_page_hit t.pager cursor.page_num _ hslot (show cursor.page_num ≤ 100 by omega)
  have hslotP := pagerWF_slot_ge t.pager hWF t.pager.num_pages (Nat.le_refl _)
    (show t.pager.num_pages < 100 by omega)
  have hload : (if t.pager.num_pages ≤ t.pager.file_length / PAGE_SIZE
      then file_page t.pager t.pager.num_pages else zeroPage) = zeroPage := by
    by_cases hc : t.pager.num_pages ≤ t.pager.file_length / PAGE_SIZE
    · rw [if_pos hc, file_page_zero t.pager t.pager.num_pages hfl hfile]
      rfl
    · rw [if_neg hc]
  have hget2 : get_page t.pager t.pager.num_pages = .ok (zeroPage,
      { t.pager with num_pages := t.pager.num_pages + 1,
                     pages := t.pager.pages.set t.pager.num_pages (some zeroPage) }) := by
    rw [get_page_miss_eq t.pager t.pager.num_pages hslotP
          (show t.pager.num_pages ≤ 100 by omega), hload,
        if_pos (Nat.le_refl t.pager.num_pages)]
  simp only [leaf_node_split_and_insert, get_unused_page_num, hget1, except_bind_ok, hget2,
    split_loop_eq]

/-- Contents of the two leaf pages produced by the redistribution loop of a
split: headers of the old page survive (only next_leaf and num_cells were
rewritten), the fresh page is an initialized leaf, and the cells hold the
14 logical cells at positions 0..6 / 7..13. -/
theorem split_pages_spec (R oA nA st1 st2 old2 new2 : Page) (P c k : Nat) (v : Row)
    (hoA : oA = write_leaf_node_next_leaf R P)
    (hnA : nA = write_leaf_node_next_leaf (init_leaf_node zeroPage) (leaf_node_next_leaf R))
    (hst1 : st1 = (split_go c k v 14 (oA, nA)).1)
    (hst2 : st2 = (split_go c k v 14 (oA, nA)).2)
    (hold2 : old2 = write_leaf_node_num_cells st1 LEAF_NODE_LEFT_SPLIT_COUNT)
    (hnew2 : new2 = write_leaf_node_num_cells st2 LEAF_NODE_RIGHT_SPLIT_COUNT)
    (hP : P < b256 4) :
    get_node_type old2 = get_node_type R ∧
    is_node_root old2 = is_node_root R ∧
    leaf_node_num_cells old2 = LEAF_NODE_LEFT_SPLIT_COUNT ∧
    leaf_node_next_leaf old2 = P ∧
    (∀ j, j < 7 → leaf_cell_seg old2 j = logical_cell R c k v j) ∧
    get_node_type new2 = NodeType.toByte .NODE_LEAF ∧
    is_node_root new2 = false ∧
    leaf_node_num_cells new2 = LEAF_NODE_RIGHT_SPLIT_COUNT ∧
    leaf_node_next_leaf new2 = leaf_node_next_leaf R ∧
    (∀ j, j < 7 → leaf_cell_seg new2 j = logical_cell R c k v (j + 7)) := by
  obtain ⟨hpres, hou, hnu, holdw, hneww⟩ := split_go_spec c k v 14 (Nat.le_refl 14) oA nA
  have hcells7 : (LEAF_NODE_LEFT_SPLIT_COUNT : Nat) < b256 4 := by decide
  have hoA_pres : ∀ a l, 14 ≤ a → readSeg oA a l = readSeg R a l := by
    intro a l h14
    rw [hoA]
    exact readSeg_writeSeg_above R 10 4 P a l (by omega)
  -- byte reads of old2 below offset 6, back to R
  have hlow_old : ∀ a l, a + l ≤ 6 → readSeg old2 a l = readSeg R a l := by
    intro a l h6
    have e1 : readSeg old2 a l = readSeg st1 a l := by
      rw [hold2]
      exact readSeg_writeSeg_below st1 6 4 LEAF_NODE_LEFT_SPLIT_COUNT a l (by omega)
    have e2 : readSeg st1 a l = readSeg oA a l := by
      rw [hst1]
      exact (hpres a l (Or.inl (by omega))).1
    have e3 : readSeg oA a l = readSeg R a l := by
      rw [hoA]
      exact readSeg_writeSeg_below R 10 4 P a l (by omega)
    exact (e1.trans e2).trans e3
  have hlow_new : ∀ a l, a + l ≤ 6 →
      readSeg new2 a l = readSeg (init_leaf_node zeroPage) a l := by
    intro a l h6
    have e1 : readSeg new2 a l = readSeg st2 a l := by
      rw [hnew2]
      exact readSeg_writeSeg_below st2 6 4 LEAF_NODE_RIGHT_SPLIT_COUNT a l (by omega)
    have e2 : readSeg st2 a l = readSeg nA a l := by
      rw [hst2]
      exact (hpres a l (Or.inl (by omega))).2
    have e3 : readSeg nA a l = readSeg (init_leaf_node zeroPage) a l := by
      rw [hnA]
      exact readSeg_writeSeg_below (init_leaf_node zeroPage) 10 4 (leaf_node_next_leaf R) a l
        (by omega)
    exact (e1.trans e2).trans e3
  refine ⟨?_, ?_, ?_, ?_, ?_, ?_, ?_, ?_, ?_, ?_⟩
  · exact hlow_old 0 1 (by omega)
  · show (readU8 old2 IS_ROOT_OFFSET != 0) = (readU8 R IS_ROOT_OFFSET != 0)
    rw [show readU8 old2 IS_ROOT_OFFSET = readU8 R IS_ROOT_OFFSET from
      hlow_old 1 1 (by omega)]
  · rw [hold2]
    exact (readSeg_writeSeg_same st1 6 4 LEAF_NODE_LEFT_SPLIT_COUNT).trans
      (Nat.mod_eq_of_lt hcells7)
  · rw [hold2]
    have h1 : readSeg (write_leaf_node_num_cells st1 LEAF_NODE_LEFT_SPLIT_COUNT) 10 4
        = readSeg st1 10 4 :=
      readSeg_writeSeg_above st1 6 4 LEAF_NODE_LEFT_SPLIT_COUNT 10 4 (by omega)
    rw [show leaf_node_next_leaf (write_leaf_node_num_cells st1 LEAF_NODE_LEFT_SPLIT_COUNT)
        = readSeg st1 10 4 from h1, hst1]
    rw [(hpres 10 4 (Or.inl (by omega))).1, hoA]
    exact (readSeg_writeSeg_same R 10 4 P).trans (Nat.mod_eq_of_lt hP)
  · intro j hj
    have hc1 : leaf_cell_seg old2 j = leaf_cell_seg st1 j := by
      rw [hold2]
      exact readSeg_writeSeg_above st1 6 4 LEAF_NODE_LEFT_SPLIT_COUNT
        (leaf_node_cell_off j) 297 (by rw [cell_off_eq]; omega)
    have hc2 : leaf_cell_seg st1 j = logical_cell oA c k v j := by
      rw [hst1]
      exact holdw j hj (by omega)
    have hc3 : logical_cell oA c k v j = logical_cell R c k v j := by
      apply logical_cell_congr
      intro a l h14 hle
      exact hoA_pres a l h14
    exact (hc1.trans hc2).trans hc3
  · show readSeg new2 0 1 = NodeType.toByte .NODE_LEAF
    rw [hlow_new 0 1 (by omega)]
    decide
  · show (readU8 new2 IS_ROOT_OFFSET != 0) = false
    rw [show readU8 new2 IS_ROOT_OFFSET = readU8 (init_leaf_node zeroPage) IS_ROOT_OFFSET from
      hlow_new 1 1 (by omega)]
    decide
  · rw [hnew2]
    exact (readSeg_writeSeg_same st2 6 4 LEAF_NODE_RIGHT_SPLIT_COUNT).trans
      (Nat.mod_eq_of_lt (by decide))
  · rw [hnew2]
    have h1 : readSeg (write_leaf_node_num_cells st2 LEAF_NODE_RIGHT_SPLIT_COUNT) 10 4
        = readSeg st2 10 4 :=
      readSeg_writeSeg_above st2 6 4 LEAF_NODE_RIGHT_SPLIT_COUNT 10 4 (by omega)
    rw [show leaf_node_next_leaf (write_leaf_node_num_cells st2 LEAF_NODE_RIGHT_SPLIT_COUNT)
        = readSeg st2 10 4 from h1, hst2]
    rw [(hpres 10 4 (Or.inl (by omega))).2, hnA]
    exact (readSeg_writeSeg_same (init_leaf_node zeroPage) 10 4
      (leaf_node_next_leaf R)).trans (Nat.mod_eq_of_lt (readU32_lt R _))
  · intro j hj
    have hc1 : leaf_cell_seg new2 j = leaf_cell_seg st2 j := by
      rw [hnew2]
      exact readSeg_writeSeg_above st2 6 4 LEAF_NODE_RIGHT_SPLIT_COUNT
        (leaf_node_cell_off j) 297 (by rw [cell_off_eq]; omega)
    have hc2 : leaf_cell_seg st2 j = logical_cell oA c k v (j + 7) := by
      rw [hst2]
      exact hneww j hj (by omega)
    have hc3 : logical_cell oA c k v (j + 7) = logical_cell R c k v (j + 7) := by
      apply logical_cell_congr
      intro a l h14 hle
      exact hoA_pres a l h14
    exact (hc1.trans hc2).trans hc3

/-- Claim C5 as amended: when the leaf landed on by find is full
(LEAF_NODE_MAX_CELLS = 13 cells) and is not the root (and the root-page
duplicate check does not fire), execute_insert does not return any
ExecuteResult: leaf_node_split_and_insert reaches the unimplemented non-root
branch and the process exits fatally printing "Need to implement updating
parent after split".  No ExecuteTableFull value exists in codegen.h's
ExecuteResult, so the claimed outcome is not even expressible. -/
theorem C5_nonroot_split_fatal (t : Table) (row : Row) (c : Cursor)
    (hWF : pagerWF t.pager = true)
    (hnp : t.pager.num_pages ≤ 98)
    (hrpn : t.root_page_num < t.pager.num_pages)
    (hfind : table_find t row.id = .ok (c, t))
    (hpn : c.page_num < t.pager.num_pages)
    (hdup : ¬(c.cell_num < leaf_node_num_cells (pageView t.pager t.root_page_num) ∧
        leaf_node_key (pageView t.pager t.root_page_num) c.cell_num = row.id))
    (hfull : leaf_node_num_cells (pageView t.pager c.page_num) ≥ LEAF_NODE_MAX_CELLS)
    (hnotroot : is_node_root (pageView t.pager c.page_num) = false) :
    execute_insert t row
      = .error (.fatalExit "Need to implement updating parent after split") := by
  have hget0 : get_page t.pager t.root_page_num
      = .ok (pageView t.pager t.root_page_num, t.pager) :=
    get_page_hit t.pager t.root_page_num _
      (pagerWF_slot_lt t.pager hWF t.root_page_num hrpn)
      (show t.root_page_num ≤ 100 by omega)
  have hgetc : get_page t.pager c.page_num
      = .ok (pageView t.pager c.page_num, t.pager) :=
    get_page_hit t.pager c.page_num _
      (pagerWF_slot_lt t.pager hWF c.page_num hpn)
      (show c.page_num ≤ 100 by omega)
  obtain ⟨_, hro, _, _, _, _, _, _, _, _⟩ := split_pages_spec
    (pageView t.pager c.page_num) _ _ _ _ _ _
    t.pager.num_pages c.cell_num row.id row rfl rfl rfl rfl rfl rfl
    (show t.pager.num_pages < b256 4 by
      have hb : (98 : Nat) < b256 4 := by decide
      omega)
  have hrofalse := hro.trans hnotroot
  show execute_insert t row = _
  simp only [execute_insert, hget0, except_bind_ok]
  rw [show ({ t with pager := t.pager } : Table) = t from rfl, hfind, except_bind_ok,
      if_neg hdup]
  simp only [leaf_node_insert, hgetc, except_bind_ok]
  rw [if_pos hfull]
  rw [split_insert_state t c row.id row t.pager.num_pages
      (pageView t.pager c.page_num) _ _ _ _ hWF rfl hnp hpn rfl rfl rfl rfl rfl]
  rw [hrofalse]
  rfl

set_option maxRecDepth 100000 in
/-- Witness for the amended C5: on a two-leaf tree whose full right leaf is
not the root, inserting key 21 terminates fatally. -/
theorem C5_nonroot_split_fatal_witness :
    table_find w5_table 21 = .ok (Cursor.mk 1 13 false, w5_table) ∧
    execute_insert w5_table (mkRow 21)
      = .error (.fatalExit "Need to implement updating parent after split") :=
  ⟨by decide, C5_nonroot_split_fatal w5_table (mkRow 21) (Cursor.mk 1 13 false)
    (by decide) (by decide) (by decide) (by decide) (by decide) (by decide) (by decide)
    (by decide)⟩

/-- create_new_root on the pager state left by a successful root-leaf split:
the left sibling page P+1 is freshly allocated (loaded as all-zero), receives
a byte copy of the split root with is_root cleared, and the root page is
rebuilt as a one-key internal node. -/
theorem create_new_root_after_split (t tS : Table) (P : Nat) (old2 new2 left r6 : Page)
    (pg4 : Pager)
    (hWF : pagerWF t.pager = true)
    (hroot : t.root_page_num = 0)
    (hP : P = t.pager.num_pages)
    (hP98 : P ≤ 98)
    (htS : tS = { t with pager := set_page (set_page { t.pager with num_pages := P + 1, pages := t.pager.pages.set P (some zeroPage) } 0 old2) P new2 })
    (hleft : left = set_node_root (copyBytes zeroPage 0 old2 0 PAGE_SIZE) false)
    (hr6 : r6 = write_internal_node_rightmost_child (write_internal_node_key (writeU32 (write_internal_node_num_keys (set_node_root (init_internal_node old2) true) 1) (internal_node_cell_off 0) (P + 1)) 0 (get_node_max_key left)) P)
    (hpg4 : pg4 = { t.pager with num_pages := P + 1 + 1, pages := (((t.pager.pages.set P (some zeroPage)).set 0 (some old2)).set P (some new2)).set (P + 1) (some zeroPage) }) :
    create_new_root tS P = .ok { t with pager := set_page (set_page pg4 (P + 1) left) 0 r6 } := by
  obtain ⟨hlen, hnp1, hnp100, _, hfl, hfile⟩ := pagerWF_parts t.pager hWF
  subst hP htS hleft hr6 hpg4
  have hne0 : t.pager.num_pages ≠ 0 := by omega
  have hslot0 : (((t.pager.pages.set t.pager.num_pages (some zeroPage)).set 0
      (some old2)).set t.pager.num_pages (some new2)).get? 0 = some (some old2) := by
    rw [List.get?_set_ne _ _ hne0]
    exact List.get?_set_eq_of_lt _ (by rw [List.length_set, hlen]; decide)
  have hg3 : get_page { t.pager with num_pages := t.pager.num_pages + 1, pages := ((t.pager.pages.set t.pager.num_pages (some zeroPage)).set 0 (some old2)).set t.pager.num_pages (some new2) } 0 = .ok (old2, { t.pager with num_pages := t.pager.num_pages + 1, pages := ((t.pager.pages.set t.pager.num_pages (some zeroPage)).set 0 (some old2)).set t.pager.num_pages (some new2) }) :=
    get_page_hit _ 0 old2 hslot0 (by decide)
  have hslotP1 : (((t.pager.pages.set t.pager.num_pages (some zeroPage)).set 0
      (some old2)).set t.pager.num_pages (some new2)).get? (t.pager.num_pages + 1)
      = some none := by
    rw [List.get?_set_ne _ _ (show t.pager.num_pages ≠ t.pager.num_pages + 1 by omega),
        List.get?_set_ne _ _ (show (0 : Nat) ≠ t.pager.num_pages + 1 by omega),
        List.get?_set_ne _ _ (show t.pager.num_pages ≠ t.pager.num_pages + 1 by omega)]
    exact pagerWF_slot_ge t.pager hWF (t.pager.num_pages + 1) (by omega)
      (show t.pager.num_pages + 1 < 100 by omega)
  have hcond : ¬ (t.pager.num_pages + 1 ≤ t.pager.file_length / PAGE_SIZE) := by
    intro hcc
    have hcc2 : (t.pager.num_pages + 1) * PAGE_SIZE ≤ t.pager.file_length :=
      (Nat.le_div_iff_mul_le (by decide)).mp hcc
    have hcc3 : (t.pager.num_pages + 1) * 4096 ≤ t.pager.file_length := hcc2
    have hfl3 : t.pager.file_length ≤ t.pager.num_pages * 4096 := hfl
    omega
  have hg4 : get_page { t.pager with num_pages := t.pager.num_pages + 1, pages := ((t.pager.pages.set t.pager.num_pages (some zeroPage)).set 0 (some old2)).set t.pager.num_pages (some new2) } (t.pager.num_pages + 1) = .ok (zeroPage, { t.pager with num_pages := t.pager.num_pages + 1 + 1, pages := (((t.pager.pages.set t.pager.num_pages (some zeroPage)).set 0 (some old2)).set t.pager.num_pages (some new2)).set (t.pager.num_pages + 1) (some zeroPage) }) := by
    rw [get_page_miss_eq _ (t.pager.num_pages + 1) hslotP1
        (show t.pager.num_pages + 1 ≤ 100 by omega)]
    simp only []
    rw [if_neg hcond, if_pos (Nat.le_refl (t.pager.num_pages + 1))]
  have hnum3 : internal_node_num_keys
      (write_internal_node_num_keys (set_node_root (init_internal_node old2) true) 1) = 1 :=
    (readSeg_writeSeg_same _ 6 4 1).trans (by decide)
  have hchild : write_internal_node_child (write_internal_node_num_keys (set_node_root (init_internal_node old2) true) 1) 0 (t.pager.num_pages + 1) = .ok (writeU32 (write_internal_node_num_keys (set_node_root (init_internal_node old2) true) 1) (internal_node_cell_off 0) (t.pager.num_pages + 1)) := by
    simp only [write_internal_node_child]
    rw [hnum3]
    rw [if_neg (show ¬ (0 : Nat) > 1 by decide), if_neg (show ¬ (0 : Nat) = 1 by decide)]
  show create_new_root _ _ = _
  simp only [create_new_root, get_unused_page_num, set_page, hroot]
  rw [hg3]
  simp only [except_bind_ok]
  rw [hg4]
  simp only [except_bind_ok]
  rw [hchild]
  simp only [except_bind_ok]

/-- Accessor values of the rebuilt internal root page. -/
theorem new_root_reads (old2 r1 r2 r3 r4 r5 r6 : Page) (P lmax : Nat)
    (h1 : r1 = init_internal_node old2)
    (h2 : r2 = set_node_root r1 true)
    (h3 : r3 = write_internal_node_num_keys r2 1)
    (h4 : r4 = writeU32 r3 (internal_node_cell_off 0) (P + 1))
    (h5 : r5 = write_internal_node_key r4 0 lmax)
    (h6 : r6 = write_internal_node_rightmost_child r5 P)
    (hP1 : P < b256 4) (hP2 : P + 1 < b256 4) (hlm : lmax < b256 4) :
    get_node_type r6 = NodeType.toByte .NODE_INTERNAL ∧
    is_node_root r6 = true ∧
    internal_node_num_keys r6 = 1 ∧
    internal_node_child r6 0 = .ok (P + 1) ∧
    internal_node_key r6 0 = lmax ∧
    internal_node_rightmost_child r6 = P := by
  have etype : readSeg r6 0 1 = 0 := by
    calc readSeg r6 0 1
        = readSeg r5 0 1 := by
          rw [h6]; exact readSeg_writeSeg_below r5 10 4 P 0 1 (by omega)
      _ = readSeg r4 0 1 := by
          rw [h5]; exact readSeg_writeSeg_below r4 18 4 lmax 0 1 (by omega)
      _ = readSeg r3 0 1 := by
          rw [h4]; exact readSeg_writeSeg_below r3 14 4 (P + 1) 0 1 (by omega)
      _ = readSeg r2 0 1 := by
          rw [h3]; exact readSeg_writeSeg_below r2 6 4 1 0 1 (by omega)
      _ = readSeg r1 0 1 := by
          rw [h2]; exact readSeg_writeSeg_below r1 1 1 1 0 1 (by omega)
      _ = readSeg (writeSeg (writeSeg old2 0 1 0) 1 1 0) 0 1 := by
          rw [h1]; exact readSeg_writeSeg_below _ 6 4 0 0 1 (by omega)
      _ = readSeg (writeSeg old2 0 1 0) 0 1 := readSeg_writeSeg_below _ 1 1 0 0 1 (by omega)
      _ = 0 % b256 1 := readSeg_writeSeg_same _ 0 1 0
      _ = 0 := by decide
  have eroot : readSeg r6 1 1 = 1 := by
    calc readSeg r6 1 1
        = readSeg r5 1 1 := by
          rw [h6]; exact readSeg_writeSeg_below r5 10 4 P 1 1 (by omega)
      _ = readSeg r4 1 1 := by
          rw [h5]; exact readSeg_writeSeg_below r4 18 4 lmax 1 1 (by omega)
      _ = readSeg r3 1 1 := by
          rw [h4]; exact readSeg_writeSeg_below r3 14 4 (P + 1) 1 1 (by omega)
      _ = readSeg r2 1 1 := by
          rw [h3]; exact readSeg_writeSeg_below r2 6 4 1 1 1 (by omega)
      _ = 1 % b256 1 := by rw [h2]; exact readSeg_writeSeg_same r1 1 1 1
      _ = 1 := by decide
  have enum : readSeg r6 6 4 = 1 := by
    calc readSeg r6 6 4
        = readSeg r5 6 4 := by
          rw [h6]; exact readSeg_writeSeg_below r5 10 4 P 6 4 (by omega)
      _ = readSeg r4 6 4 := by
          rw [h5]; exact readSeg_writeSeg_below r4 18 4 lmax 6 4 (by omega)
      _ = readSeg r3 6 4 := by
          rw [h4]; exact readSeg_writeSeg_below r3 14 4 (P + 1) 6 4 (by omega)
      _ = 1 % b256 4 := by rw [h3]; exact readSeg_writeSeg_same r2 6 4 1
      _ = 1 := by decide
  have echild : readSeg r6 14 4 = P + 1 := by
    calc readSeg r6 14 4
        = readSeg r5 14 4 := by
          rw [h6]; exact readSeg_writeSeg_above r5 10 4 P 14 4 (by omega)
      _ = readSeg r4 14 4 := by
          rw [h5]; exact readSeg_writeSeg_below r4 18 4 lmax 14 4 (by omega)
      _ = (P + 1) % b256 4 := by rw [h4]; exact readSeg_writeSeg_same r3 14 4 (P + 1)
      _ = P + 1 := Nat.mod_eq_of_lt hP2
  have ekey : readSeg r6 18 4 = lmax := by
    calc readSeg r6 18 4
        = readSeg r5 18 4 := by
          rw [h6]; exact readSeg_writeSeg_above r5 10 4 P 18 4 (by omega)
      _ = lmax % b256 4 := by rw [h5]; exact readSeg_writeSeg_same r4 18 4 lmax
      _ = lmax := Nat.mod_eq_of_lt hlm
  have erm : readSeg r6 10 4 = P := by
    calc readSeg r6 10 4
        = P % b256 4 := by rw [h6]; exact readSeg_writeSeg_same r5 10 4 P
      _ = P := Nat.mod_eq_of_lt hP1
  refine ⟨etype, ?_, enum, ?_, ekey, erm⟩
  · show (readU8 r6 IS_ROOT_OFFSET != 0) = true
    rw [show readU8 r6 IS_ROOT_OFFSET = 1 from eroot]
    decide
  · have h0 : internal_node_child r6 0 = .ok (readU32 r6 (internal_node_cell_off 0)) := by
      simp only [internal_node_child]
      rw [show internal_node_num_keys r6 = 1 from enum]
      rfl
    rw [h0]
    rw [show readU32 r6 (internal_node_cell_off 0) = P + 1 from echild]

/-- Reads of the left-child copy: a byte copy of the old root (everything at
offsets 2..4096 preserved, including the node type byte at 0), with the
is_root byte at offset 1 cleared. -/
theorem left_child_reads (old2 left : Page)
    (hL : left = set_node_root (copyBytes zeroPage 0 old2 0 PAGE_SIZE) false) :
    (∀ a l, 2 ≤ a → a + l ≤ 4096 → readSeg left a l = readSeg old2 a l) ∧
    readSeg left 0 1 = readSeg old2 0 1 ∧
    readSeg left 1 1 = 0 := by
  have hread : readSeg old2 0 4096 = old2 % b256 4096 := by
    rw [readSeg_eq_mod_div, Nat.zero_add, show b256 0 = 1 from rfl, Nat.div_one]
  have hwrite : writeSeg 0 0 4096 (old2 % b256 4096) = old2 % b256 4096 := by
    rw [writeSeg_decomp, show b256 0 = 1 from rfl,
        Nat.mod_mod_of_dvd old2 (dvd_refl (b256 4096))]
    simp
  have hcopy : copyBytes zeroPage 0 old2 0 PAGE_SIZE = old2 % b256 4096 := by
    show writeSeg 0 0 4096 (readSeg old2 0 4096) = _
    rw [hread, hwrite]
  subst hL
  refine ⟨?_, ?_, ?_⟩
  · intro a l h2 h4096
    calc readSeg (set_node_root (copyBytes zeroPage 0 old2 0 PAGE_SIZE) false) a l
        = readSeg (copyBytes zeroPage 0 old2 0 PAGE_SIZE) a l :=
          readSeg_writeSeg_above _ 1 1 0 a l (by omega)
      _ = readSeg (old2 % b256 4096) a l := by rw [hcopy]
      _ = readSeg old2 a l := readSeg_mod old2 a l 4096 (by omega)
  · calc readSeg (set_node_root (copyBytes zeroPage 0 old2 0 PAGE_SIZE) false) 0 1
        = readSeg (copyBytes zeroPage 0 old2 0 PAGE_SIZE) 0 1 :=
          readSeg_writeSeg_below _ 1 1 0 0 1 (by omega)
      _ = readSeg (old2 % b256 4096) 0 1 := by rw [hcopy]
      _ = readSeg old2 0 1 := readSeg_mod old2 0 1 4096 (by omega)
  · exact (readSeg_writeSeg_same _ 1 1 0).trans (by decide)

/-- Claim C3: on a root leaf holding exactly 13 strictly sorted cells,
inserting a distinct 14th key splits the root: the 14 logical cells (13 old
plus the new one at the cursor position pos = ref_leaf_cell) are
redistributed with positions 0..6 on the left-child copy and positions 7..13
on a fresh right leaf (logical position i at cell index i mod 7), both with
num_cells = 7, the right leaf linked as next_leaf of the left copy, and the
root page rebuilt as an internal node with is_root set, num_keys = 1,
child(0) = the page holding the copy of the old root with is_root cleared,
key(0) = that left child's maximum key, and rightmost_child = the right
leaf. -/
theorem C3_root_leaf_split (t : Table) (row : Row)
    (hWF : pagerWF t.pager = true)
    (hnp : t.pager.num_pages ≤ 98)
    (hroot : t.root_page_num = 0)
    (htype : get_node_type (pageView t.pager 0) = NodeType.toByte .NODE_LEAF)
    (hisroot : is_node_root (pageView t.pager 0) = true)
    (hfull : leaf_node_num_cells (pageView t.pager 0) = LEAF_NODE_MAX_CELLS)
    (hsorted : strictAscendingB (leaf_keys (pageView t.pager 0)) = true)
    (habsent : ∀ i, i < LEAF_NODE_MAX_CELLS →
      leaf_node_key (pageView t.pager 0) i ≠ row.id) :
    ∃ t2, execute_insert t row = .ok (EXECUTE_SUCCESS, t2) ∧
      t2.pager.num_pages = t.pager.num_pages + 2 ∧
      get_node_type (pageView t2.pager 0) = NodeType.toByte .NODE_INTERNAL ∧
      is_node_root (pageView t2.pager 0) = true ∧
      internal_node_num_keys (pageView t2.pager 0) = 1 ∧
      internal_node_child (pageView t2.pager 0) 0 = .ok (t.pager.num_pages + 1) ∧
      internal_node_key (pageView t2.pager 0) 0
        = logical_key (pageView t.pager 0)
            (ref_leaf_cell (pageView t.pager 0) row.id) row.id 6 ∧
      internal_node_key (pageView t2.pager 0) 0
        = get_node_max_key (pageView t2.pager (t.pager.num_pages + 1)) ∧
      internal_node_rightmost_child (pageView t2.pager 0) = t.pager.num_pages ∧
      get_node_type (pageView t2.pager (t.pager.num_pages + 1))
        = NodeType.toByte .NODE_LEAF ∧
      is_node_root (pageView t2.pager (t.pager.num_pages + 1)) = false ∧
      leaf_node_num_cells (pageView t2.pager (t.pager.num_pages + 1))
        = LEAF_NODE_LEFT_SPLIT_COUNT ∧
      leaf_node_next_leaf (pageView t2.pager (t.pager.num_pages + 1))
        = t.pager.num_pages ∧
      (∀ j, j < LEAF_NODE_LEFT_SPLIT_COUNT →
        leaf_node_key (pageView t2.pager (t.pager.num_pages + 1)) j
          = logical_key (pageView t.pager 0)
              (ref_leaf_cell (pageView t.pager 0) row.id) row.id j ∧
        readSeg (pageView t2.pager (t.pager.num_pages + 1))
            (leaf_node_value_off j) ROW_SIZE
          = logical_value (pageView t.pager 0)
              (ref_leaf_cell (pageView t.pager 0) row.id) row j) ∧
      get_node_type (pageView t2.pager t.pager.num_pages)
        = NodeType.toByte .NODE_LEAF ∧
      is_node_root (pageView t2.pager t.pager.num_pages) = false ∧
      leaf_node_num_cells (pageView t2.pager t.pager.num_pages)
        = LEAF_NODE_RIGHT_SPLIT_COUNT ∧
      leaf_node_next_leaf (pageView t2.pager t.pager.num_pages)
        = leaf_node_next_leaf (pageView t.pager 0) ∧
      (∀ j, j < LEAF_NODE_RIGHT_SPLIT_COUNT →
        leaf_node_key (pageView t2.pager t.pager.num_pages) j
          = logical_key (pageView t.pager 0)
              (ref_leaf_cell (pageView t.pager 0) row.id) row.id (j + 7) ∧
        readSeg (pageView t2.pager t.pager.num_pages)
            (leaf_node_value_off j) ROW_SIZE
          = logical_value (pageView t.pager 0)
              (ref_leaf_cell (pageView t.pager 0) row.id) row (j + 7)) := by
  obtain ⟨hlen, hnp1, hnp100, _, hfl, hfile⟩ := pagerWF_parts t.pager hWF
  set R := pageView t.pager 0 with hR
  set P := t.pager.num_pages with hPdef
  set pos := ref_leaf_cell R row.id with hpos_def
  set oA := write_leaf_node_next_leaf R P with hoA
  set nA := write_leaf_node_next_leaf (init_leaf_node zeroPage) (leaf_node_next_leaf R)
    with hnA
  set old2 := write_leaf_node_num_cells (split_go pos row.id row 14 (oA, nA)).1
    LEAF_NODE_LEFT_SPLIT_COUNT with hold2
  set new2 := write_leaf_node_num_cells (split_go pos row.id row 14 (oA, nA)).2
    LEAF_NODE_RIGHT_SPLIT_COUNT with hnew2
  set left := set_node_root (copyBytes zeroPage 0 old2 0 PAGE_SIZE) false with hleft
  set r6 := write_internal_node_rightmost_child (write_internal_node_key (writeU32 (write_internal_node_num_keys (set_node_root (init_internal_node old2) true) 1) (internal_node_cell_off 0) (P + 1)) 0 (get_node_max_key left)) P with hr6
  set pg4 := ({ t.pager with num_pages := P + 1 + 1, pages := (((t.pager.pages.set P (some zeroPage)).set 0 (some old2)).set P (some new2)).set (P + 1) (some zeroPage) } : Pager) with hpg4
  set pg5 := set_page (set_page pg4 (P + 1) left) 0 r6 with hpg5
  set tF := ({ t with pager := pg5 } : Table) with htF
  have hP1 : P < b256 4 := lt_of_le_of_lt hnp (by decide)
  have hP2 : P + 1 < b256 4 := lt_of_le_of_lt (Nat.succ_le_succ hnp) (by decide)
  have hslot0 := pagerWF_slot_lt t.pager hWF 0 hnp1
  have hget0 : get_page t.pager 0 = .ok (R, t.pager) :=
    get_page_hit t.pager 0 R hslot0 (by decide)
  have hsort_idx := leaf_keys_sorted R hsorted
  have hbpost := ref_leaf_cell_post R row.id hsort_idx
  have hposle : pos ≤ LEAF_NODE_MAX_CELLS := by
    have h1 := hbpost.1
    rw [hfull] at h1
    exact h1
  have hfind : table_find t row.id
      = .ok ({ page_num := 0, cell_num := pos,
               end_of_table := leaf_node_num_cells R == 0 }, t) := by
    simp only [table_find, hroot, hget0, except_bind_ok]
    try rw [show ({ t with pager := t.pager } : Table) = t from rfl]
    rw [if_pos htype]
    simp only [leaf_node_find, hget0, except_bind_ok]
    rw [leaf_cell_eq_ref R row.id hsorted]
    try rw [show ({ root_page_num := 0, pager := t.pager } : Table) = t from by
      rw [← hroot]]
    try rw [hpos_def]
  have hdup : ¬(pos < leaf_node_num_cells R ∧ leaf_node_key R pos = row.id) := by
    rintro ⟨hc1, hc2⟩
    rw [hfull] at hc1
    exact habsent pos hc1 hc2
  have hful2 : leaf_node_num_cells R ≥ LEAF_NODE_MAX_CELLS := by
    rw [hfull]
  have hsplit := split_insert_state t
    { page_num := 0, cell_num := pos, end_of_table := leaf_node_num_cells R == 0 }
    row.id row P R oA nA old2 new2 hWF hPdef hnp hnp1
    hR hoA hnA hold2 hnew2
  obtain ⟨hTold, hRold, hNold, hXold, hCold, hTnew, hRnew, hNnew, hXnew, hCnew⟩ :=
    split_pages_spec R oA nA _ _ old2 new2 P pos row.id row hoA hnA rfl rfl hold2 hnew2 hP1
  obtain ⟨hLa, hLb, hLc⟩ := left_child_reads old2 left hleft
  have hro_true : is_node_root old2 = true := hRold.trans hisroot
  have hmaxtype : get_node_type left = NodeType.toByte .NODE_LEAF :=
    (hLb.trans hTold).trans htype
  have hnumL : leaf_node_num_cells left = LEAF_NODE_LEFT_SPLIT_COUNT :=
    (hLa 6 4 (by omega) (by omega)).trans hNold
  have hnextL : leaf_node_next_leaf left = P :=
    (hLa 10 4 (by omega) (by omega)).trans hXold
  have hrootL : is_node_root left = false := by
    show (readU8 left IS_ROOT_OFFSET != 0) = false
    rw [show readU8 left IS_ROOT_OFFSET = 0 from hLc]
    decide
  have hcellL : ∀ j, j < 7 → leaf_cell_seg left j = logical_cell R pos row.id row j := by
    intro j hj
    have h1 : leaf_cell_seg left j = leaf_cell_seg old2 j :=
      hLa (leaf_node_cell_off j) 297 (by rw [cell_off_eq]; omega)
        (by rw [cell_off_eq]; omega)
    exact h1.trans (hCold j hj)
  have hkey6 := cell_eq_parts left 6 (logical_key R pos row.id 6)
    (logical_value R pos row 6) (hcellL 6 (by omega)) (logical_key_lt R pos row.id 6)
  have hmaxL : get_node_max_key left = logical_key R pos row.id 6 := by
    unfold get_node_max_key
    rw [if_neg (by rw [hmaxtype]; decide)]
    rw [hnumL]
    show leaf_node_key left 6 = _
    exact hkey6.1
  have hlmax : get_node_max_key left < b256 4 := by
    rw [hmaxL]
    exact logical_key_lt R pos row.id 6
  have hnr := new_root_reads old2 _ _ _ _ _ r6 P (get_node_max_key left)
    rfl rfl rfl rfl rfl hr6 hP1 hP2 hlmax
  have hcreate := create_new_root_after_split t
    { t with pager := set_page (set_page { t.pager with num_pages := P + 1, pages := t.pager.pages.set P (some zeroPage) } 0 old2) P new2 }
    P old2 new2 left r6 pg4 hWF hroot hPdef hnp rfl hleft hr6 hpg4
  have hrun : execute_insert t row = .ok (EXECUTE_SUCCESS, tF) := by
    simp only [execute_insert, hroot, hget0, except_bind_ok]
    try rw [show ({ root_page_num := 0, pager := t.pager } : Table) = t from by
      rw [← hroot]]
    try rw [show ({ t with pager := t.pager } : Table) = t from rfl]
    rw [hfind]
    simp only [except_bind_ok]
    rw [if_neg hdup]
    simp only [leaf_node_insert, hget0, except_bind_ok]
    try rw [show ({ root_page_num := 0, pager := t.pager } : Table) = t from by
      rw [← hroot]]
    try rw [show ({ t with pager := t.pager } : Table) = t from rfl]
    rw [if_pos hful2]
    rw [hsplit]
    rw [if_pos hro_true]
    try rw [show ({ page_num := 0, cell_num := pos, end_of_table := leaf_node_num_cells R == 0 } : Cursor).page_num = 0 from rfl]
    rw [hcreate]
    rfl
  have hpg4pages : pg4.pages = (((t.pager.pages.set P (some zeroPage)).set 0
      (some old2)).set P (some new2)).set (P + 1) (some zeroPage) := by
    rw [hpg4]
  have hpg5pages : tF.pager.pages = (pg4.pages.set (P + 1) (some left)).set 0 (some r6) :=
    rfl
  have hq0 : tF.pager.pages.get? 0 = some (some r6) := by
    rw [hpg5pages]
    exact List.get?_set_eq_of_lt _ (by
      simp only [List.length_set]
      rw [hlen]
      decide)
  have hq1 : tF.pager.pages.get? (P + 1) = some (some left) := by
    rw [hpg5pages, List.get?_set_ne _ _ (Nat.succ_ne_zero P).symm]
    exact List.get?_set_eq_of_lt _ (by
      simp only [List.length_set]
      rw [hlen]
      exact Nat.lt_of_le_of_lt (Nat.succ_le_succ hnp) (by decide))
  have hqP : tF.pager.pages.get? P = some (some new2) := by
    rw [hpg5pages, List.get?_set_ne _ _ (Nat.ne_of_lt hnp1),
        List.get?_set_ne _ _ (Nat.succ_ne_self P), hpg4pages,
        List.get?_set_ne _ _ (Nat.succ_ne_self P)]
    exact List.get?_set_eq_of_lt _ (by
      simp only [List.length_set]
      rw [hlen]
      exact Nat.lt_of_le_of_lt hnp (by decide))
  have hV0 : pageView tF.pager 0 = r6 := pageView_of_slot _ 0 r6 hq0
  have hV1 : pageView tF.pager (P + 1) = left := pageView_of_slot _ (P + 1) left hq1
  have hVP : pageView tF.pager P = new2 := pageView_of_slot _ P new2 hqP
  obtain ⟨hn1, hn2, hn3, hn4, hn5, hn6⟩ := hnr
  refine ⟨tF, hrun, ?_, ?_, ?_, ?_, ?_, ?_, ?_, ?_, ?_, ?_, ?_, ?_, ?_, ?_, ?_, ?_, ?_, ?_⟩
  · show P + 1 + 1 = P + 2
    omega
  · rw [hV0]
    exact hn1
  · rw [hV0]
    exact hn2
  · rw [hV0]
    exact hn3
  · rw [hV0]
    exact hn4
  · rw [hV0]
    exact hn5.trans hmaxL
  · rw [hV0, hV1]
    exact hn5
  · rw [hV0]
    exact hn6
  · rw [hV1]
    exact hmaxtype
  · rw [hV1]
    exact hrootL
  · rw [hV1]
    exact hnumL
  · rw [hV1]
    exact hnextL
  · intro j hj
    have hj7 : j < 7 := hj
    rw [hV1]
    exact cell_eq_parts left j (logical_key R pos row.id j) (logical_value R pos row j)
      (hcellL j hj7) (logical_key_lt R pos row.id j)
  · rw [hVP]
    exact hTnew
  · rw [hVP]
    exact hRnew
  · rw [hVP]
    exact hNnew
  · rw [hVP]
    exact hXnew
  · intro j hj
    have hj7 : j < 7 := hj
    rw [hVP]
    exact cell_eq_parts new2 j (logical_key R pos row.id (j + 7))
      (logical_value R pos row (j + 7)) (hCnew j hj7)
      (logical_key_lt R pos row.id (j + 7))

set_option maxRecDepth 1000000 in
/-- Witness for C3 on the table built by inserting ids 1..13 into a fresh
database, then inserting id 14. -/
theorem C3_root_leaf_split_witness :
    ∃ t2, execute_insert w3_table (mkRow 14) = .ok (EXECUTE_SUCCESS, t2) ∧
      t2.pager.num_pages = w3_table.pager.num_pages + 2 ∧
      get_node_type (pageView t2.pager 0) = NodeType.toByte .NODE_INTERNAL ∧
      is_node_root (pageView t2.pager 0) = true ∧
      internal_node_num_keys (pageView t2.pager 0) = 1 ∧
      internal_node_child (pageView t2.pager 0) 0 = .ok (w3_table.pager.num_pages + 1) ∧
      internal_node_key (pageView t2.pager 0) 0
        = logical_key (pageView w3_table.pager 0)
            (ref_leaf_cell (pageView w3_table.pager 0) (mkRow 14).id) (mkRow 14).id 6 ∧
      internal_node_key (pageView t2.pager 0) 0
        = get_node_max_key (pageView t2.pager (w3_table.pager.num_pages + 1)) ∧
      internal_node_rightmost_child (pageView t2.pager 0) = w3_table.pager.num_pages ∧
      get_node_type (pageView t2.pager (w3_table.pager.num_pages + 1))
        = NodeType.toByte .NODE_LEAF ∧
      is_node_root (pageView t2.pager (w3_table.pager.num_pages + 1)) = false ∧
      leaf_node_num_cells (pageView t2.pager (w3_table.pager.num_pages + 1))
        = LEAF_NODE_LEFT_SPLIT_COUNT ∧
      leaf_node_next_leaf (pageView t2.pager (w3_table.pager.num_pages + 1))
        = w3_table.pager.num_pages ∧
      (∀ j, j < LEAF_NODE_LEFT_SPLIT_COUNT →
        leaf_node_key (pageView t2.pager (w3_table.pager.num_pages + 1)) j
          = logical_key (pageView w3_table.pager 0)
              (ref_leaf_cell (pageView w3_table.pager 0) (mkRow 14).id) (mkRow 14).id j ∧
        readSeg (pageView t2.pager (w3_table.pager.num_pages + 1))
            (leaf_node_value_off j) ROW_SIZE
          = logical_value (pageView w3_table.pager 0)
              (ref_leaf_cell (pageView w3_table.pager 0) (mkRow 14).id) (mkRow 14) j) ∧
      get_node_type (pageView t2.pager w3_table.pager.num_pages)
        = NodeType.toByte .NODE_LEAF ∧
      is_node_root (pageView t2.pager w3_table.pager.num_pages) = false ∧
      leaf_node_num_cells (pageView t2.pager w3_table.pager.num_pages)
        = LEAF_NODE_RIGHT_SPLIT_COUNT ∧
      leaf_node_next_leaf (pageView t2.pager w3_table.pager.num_pages)
        = leaf_node_next_leaf (pageView w3_table.pager 0) ∧
      (∀ j, j < LEAF_NODE_RIGHT_SPLIT_COUNT →
        leaf_node_key (pageView t2.pager w3_table.pager.num_pages) j
          = logical_key (pageView w3_table.pager 0)
              (ref_leaf_cell (pageView w3_table.pager 0) (mkRow 14).id) (mkRow 14).id (j + 7) ∧
        readSeg (pageView t2.pager w3_table.pager.num_pages)
            (leaf_node_value_off j) ROW_SIZE
          = logical_value (pageView w3_table.pager 0)
              (ref_leaf_cell (pageView w3_table.pager 0) (mkRow 14).id) (mkRow 14) (j + 7)) :=
  C3_root_leaf_split w3_table (mkRow 14) (by decide) (by decide) (by decide) (by decide)
    (by decide) (by decide) (by decide) (by decide)

-- Simulation lemmas for the scan path (claim C7).

theorem cursor_value_sim (t : Table) (cursor : Cursor)
    (hlen : t.pager.pages.length = TABLE_MAX_PAGES) :
    ((cursor_value t cursor).map Prod.fst = cursor_value_pure (pageView t.pager) cursor) ∧
    (∀ s t2, cursor_value t cursor = .ok (s, t2) →
      pageView t2.pager = pageView t.pager ∧ t2.pager.pages.length = TABLE_MAX_PAGES ∧
      t2.root_page_num = t.root_page_num ∧ t2.pager.file = t.pager.file ∧
      t2.pager.file_length = t.pager.file_length) := by
  rcases Nat.lt_trichotomy cursor.page_num TABLE_MAX_PAGES with hlt | heq | hgt
  case inl =>
    obtain ⟨pg, hgp, hview, hlen2, hfile, hflen, _⟩ :=
      get_page_ok_spec t.pager cursor.page_num hlen hlt
    have hpure : get_page_pure (pageView t.pager) cursor.page_num
        = .ok (pageView t.pager cursor.page_num) := by
      simp [get_page_pure, if_neg (by omega : ¬ cursor.page_num > TABLE_MAX_PAGES),
        if_neg (by omega : ¬ cursor.page_num = TABLE_MAX_PAGES)]
    constructor
    · simp [cursor_value, hgp, cursor_value_pure, hpure, except_map_ok]
    · intro s t2 h2
      simp only [cursor_value, hgp] at h2
      injection h2 with h3
      injection h3 with hc ht
      subst ht
      exact ⟨hview, hlen2, rfl, hfile, hflen⟩
  case inr.inl =>
    have herr : get_page t.pager cursor.page_num = .error .slotOOB := by
      rw [heq]
      exact get_page_err_slot t.pager hlen
    have herr2 : get_page_pure (pageView t.pager) cursor.page_num = .error .slotOOB := by
      rw [heq]
      simp [get_page_pure]
    constructor
    · simp [cursor_value, herr, cursor_value_pure, herr2, except_map_err]
    · intro s t2 h2
      simp [cursor_value, herr] at h2
  case inr.inr =>
    have herr := get_page_err_high t.pager cursor.page_num hgt
    constructor
    · simp [cursor_value, herr, cursor_value_pure, get_page_pure, if_pos hgt,
        except_map_ok]
    · intro s t2 h2
      simp only [cursor_value, herr] at h2
      injection h2 with h3
      injection h3 with hc ht
      subst ht
      exact ⟨rfl, hlen, rfl, rfl, rfl⟩

theorem cursor_advance_sim (t : Table) (cursor : Cursor)
    (hlen : t.pager.pages.length = TABLE_MAX_PAGES) :
    ((cursor_advance t cursor).map Prod.fst = cursor_advance_pure (pageView t.pager) cursor) ∧
    (∀ c t2, cursor_advance t cursor = .ok (c, t2) →
      pageView t2.pager = pageView t.pager ∧ t2.pager.pages.length = TABLE_MAX_PAGES ∧
      t2.root_page_num = t.root_page_num ∧ t2.pager.file = t.pager.file ∧
      t2.pager.file_length = t.pager.file_length) := by
  rcases Nat.lt_trichotomy cursor.page_num TABLE_MAX_PAGES with hlt | heq | hgt
  case inl =>
    obtain ⟨pg, hgp, hview, hlen2, hfile, hflen, _⟩ :=
      get_page_ok_spec t.pager cursor.page_num hlen hlt
    have hpure : get_page_pure (pageView t.pager) cursor.page_num
        = .ok (pageView t.pager cursor.page_num) := by
      simp [get_page_pure, if_neg (by omega : ¬ cursor.page_num > TABLE_MAX_PAGES),
        if_neg (by omega : ¬ cursor.page_num = TABLE_MAX_PAGES)]
    constructor
    · by_cases h1 : cursor.cell_num + 1 ≥ leaf_node_num_cells (pageView t.pager cursor.page_num)
      · by_cases h2 : leaf_node_next_leaf (pageView t.pager cursor.page_num) = 0
        · simp [cursor_advance, hgp, cursor_advance_pure, hpure, except_bind_ok,
            if_pos h1, if_pos h2, except_map_ok]
        · simp [cursor_advance, hgp, cursor_advance_pure, hpure, except_bind_ok,
            if_pos h1, if_neg h2, except_map_ok]
      · simp [cursor_advance, hgp, cursor_advance_pure, hpure, except_bind_ok,
          if_neg h1, except_map_ok]
    · intro c t2 h2
      simp only [cursor_advance, hgp, except_bind_ok] at h2
      split_ifs at h2 <;>
        (injection h2 with h3; injection h3 with hc ht; subst ht;
         exact ⟨hview, hlen2, rfl, hfile, hflen⟩)
  case inr.inl =>
    have herr : get_page t.pager cursor.page_num = .error .slotOOB := by
      rw [heq]
      exact get_page_err_slot t.pager hlen
    have herr2 : get_page_pure (pageView t.pager) cursor.page_num = .error .slotOOB := by
      rw [heq]
      simp [get_page_pure]
    constructor
    · simp [cursor_advance, herr, cursor_advance_pure, herr2, except_bind_err,
        except_map_err]
    · intro c t2 h2
      simp [cursor_advance, herr, except_bind_err] at h2
  case inr.inr =>
    have herr := get_page_err_high t.pager cursor.page_num hgt
    constructor
    · simp [cursor_advance, herr, cursor_advance_pure, get_page_pure, if_pos hgt,
        except_bind_err, except_map_err]
    · intro c t2 h2
      simp [cursor_advance, herr, except_bind_err] at h2

theorem table_start_sim (t : Table)
    (hlen : t.pager.pages.length = TABLE_MAX_PAGES) :
    ((table_start t).map Prod.fst = table_start_pure (pageView t.pager) t.root_page_num) ∧
    (∀ c t2, table_start t = .ok (c, t2) →
      pageView t2.pager = pageView t.pager ∧ t2.pager.pages.length = TABLE_MAX_PAGES ∧
      t2.root_page_num = t.root_page_num ∧ t2.pager.file = t.pager.file ∧
      t2.pager.file_length = t.pager.file_length) := by
  obtain ⟨hfind1, hfind2⟩ := table_find_sim t 0 hlen
  rcases hf : table_find t 0 with e | ct1
  · have hpfind : table_find_pure (pageView t.pager) t.root_page_num 0 = .error e := by
      rw [← hfind1, hf]
      rfl
    constructor
    · simp [table_start, hf, table_start_pure, hpfind, except_bind_err, except_map_err]
    · intro c t2 h2
      simp [table_start, hf, except_bind_err] at h2
  · obtain ⟨c1, t1⟩ := ct1
    obtain ⟨hview1, hlen1, hroot1, hfile1, hflen1⟩ := hfind2 c1 t1 hf
    have hpfind : table_find_pure (pageView t.pager) t.root_page_num 0 = .ok c1 := by
      rw [← hfind1, hf]
      rfl
    rcases Nat.lt_trichotomy c1.page_num TABLE_MAX_PAGES with hlt | heq | hgt
    case inl =>
      obtain ⟨pg, hgp, hview, hlen2, hfile2, hflen2, _⟩ :=
        get_page_ok_spec t1.pager c1.page_num hlen1 hlt
      have hpure : get_page_pure (pageView t.pager) c1.page_num
          = .ok (pageView t.pager c1.page_num) := by
        simp [get_page_pure, if_neg (by omega : ¬ c1.page_num > TABLE_MAX_PAGES),
          if_neg (by omega : ¬ c1.page_num = TABLE_MAX_PAGES)]
      constructor
      · simp only [table_start, hf, except_bind_ok, hgp, except_map_ok,
          table_start_pure, hpfind, hpure]
        rw [hview1]
      · intro c t2 h2
        simp only [table_start, hf, except_bind_ok, hgp] at h2
        injection h2 with h3
        injection h3 with hc ht
        subst ht
        refine ⟨?_, hlen2, hroot1, ?_, ?_⟩
        · show pageView pg = _
          rw [hview, hview1]
        · show pg.file = _
          rw [hfile2, hfile1]
        · show pg.file_length = _
          rw [hflen2, hflen1]
    case inr.inl =>
      have herr : get_page t1.pager c1.page_num = .error .slotOOB := by
        rw [heq]
        exact get_page_err_slot t1.pager hlen1
      have herr2 : get_page_pure (pageView t.pager) c1.page_num = .error .slotOOB := by
        rw [heq]
        simp [get_page_pure]
      constructor
      · simp [table_start, hf, except_bind_ok, herr, table_start_pure, hpfind, herr2,
          except_bind_err, except_map_err]
      · intro c t2 h2
        simp [table_start, hf, except_bind_ok, herr, except_bind_err] at h2
    case inr.inr =>
      have herr : get_page t1.pager c1.page_num = .error .nullPage :=
        get_page_err_high t1.pager c1.page_num hgt
      have herr2 : get_page_pure (pageView t.pager) c1.page_num = .error .nullPage := by
        simp [get_page_pure, if_pos hgt]
      constructor
      · simp [table_start, hf, except_bind_ok, herr, table_start_pure, hpfind, herr2,
          except_bind_err, except_map_err]
      · intro c t2 h2
        simp [table_start, hf, except_bind_ok, herr, except_bind_err] at h2

theorem select_loop_sim (fuel : Nat) :
    ∀ (t : Table) (cursor : Cursor), t.pager.pages.length = TABLE_MAX_PAGES →
    ((select_loop fuel t cursor).map (fun x => (x.1, x.2.1))
        = select_loop_pure fuel (pageView t.pager) cursor) ∧
    (∀ r rows t2, select_loop fuel t cursor = .ok (r, rows, t2) →
      pageView t2.pager = pageView t.pager ∧ t2.pager.pages.length = TABLE_MAX_PAGES) := by
  induction fuel with
  | zero =>
    intro t cursor hlen
    constructor
    · simp [select_loop, select_loop_pure, except_map_err]
    · intro r rows t2 h2
      simp [select_loop] at h2
  | succ f ih =>
    intro t cursor hlen
    by_cases heot : cursor.end_of_table = true
    · constructor
      · simp [select_loop, select_loop_pure, heot, except_map_ok]
      · intro r rows t2 h2
        simp only [select_loop, if_pos heot] at h2
        injection h2 with h3
        injection h3 with hr hrest
        injection hrest with hrows ht
        subst ht
        exact ⟨rfl, hlen⟩
    · obtain ⟨hcv1, hcv2⟩ := cursor_value_sim t cursor hlen
      rcases hcv : cursor_value t cursor with e | st1
      · have hcvp : cursor_value_pure (pageView t.pager) cursor = .error e := by
          rw [← hcv1, hcv]
          rfl
        constructor
        · simp [select_loop, select_loop_pure, if_neg heot, hcv, hcvp, except_bind_err,
            except_map_err]
        · intro r rows t2 h2
          simp [select_loop, if_neg heot, hcv, except_bind_err] at h2
      · obtain ⟨s, t1⟩ := st1
        obtain ⟨hview1, hlen1, hroot1, hfile1, hflen1⟩ := hcv2 s t1 hcv
        have hcvp : cursor_value_pure (pageView t.pager) cursor = .ok s := by
          rw [← hcv1, hcv]
          rfl
        rcases s with _ | ⟨page, off⟩
        · constructor
          · simp [select_loop, select_loop_pure, if_neg heot, hcv, hcvp, except_bind_ok,
              except_map_ok]
          · intro r rows t2 h2
            simp only [select_loop, if_neg heot, hcv, except_bind_ok] at h2
            injection h2 with h3
            injection h3 with hr hrest
            injection hrest with hrows ht
            subst ht
            exact ⟨hview1, hlen1⟩
        · obtain ⟨hca1, hca2⟩ := cursor_advance_sim t1 cursor hlen1
          rcases hca : cursor_advance t1 cursor with e | ct2
          · have hcap : cursor_advance_pure (pageView t.pager) cursor = .error e := by
              rw [← hview1, ← hca1, hca]
              rfl
            constructor
            · simp [select_loop, select_loop_pure, if_neg heot, hcv, hcvp, hca, hcap,
                except_bind_ok, except_bind_err, except_map_err]
            · intro r rows t2 h2
              simp [select_loop, if_neg heot, hcv, hca, except_bind_ok,
                except_bind_err] at h2
          · obtain ⟨c2, t2a⟩ := ct2
            obtain ⟨hview2, hlen2, hroot2, hfile2, hflen2⟩ := hca2 c2 t2a hca
            have hcap : cursor_advance_pure (pageView t.pager) cursor = .ok c2 := by
              rw [← hview1, ← hca1, hca]
              rfl
            obtain ⟨ihs1, ihs2⟩ := ih t2a c2 hlen2
            rcases hsl : select_loop f t2a c2 with e | rrt
            · have hslp : select_loop_pure f (pageView t.pager) c2 = .error e := by
                rw [show pageView t.pager = pageView t2a.pager from by rw [hview2, hview1],
                    ← ihs1, hsl]
                rfl
              constructor
              · simp [select_loop, select_loop_pure, if_neg heot, hcv, hcvp, hca, hcap,
                  hsl, hslp, except_bind_ok, except_bind_err, except_map_err]
              · intro r rows t2 h2
                simp [select_loop, if_neg heot, hcv, hca, hsl, except_bind_ok,
                  except_bind_err] at h2
            · obtain ⟨res, rrt2⟩ := rrt
              obtain ⟨rows1, t3⟩ := rrt2
              obtain ⟨hview3, hlen3⟩ := ihs2 res rows1 t3 hsl
              have hslp : select_loop_pure f (pageView t.pager) c2 = .ok (res, rows1) := by
                rw [show pageView t.pager = pageView t2a.pager from by rw [hview2, hview1],
                    ← ihs1, hsl]
                rfl
              constructor
              · simp [select_loop, select_loop_pure, if_neg heot, hcv, hcvp, hca, hcap,
                  hsl, hslp, except_bind_ok, except_map_ok]
              · intro r rows t2 h2
                simp only [select_loop, if_neg heot, hcv, hca, hsl, except_bind_ok] at h2
                injection h2 with h3
                injection h3 with hr hrest
                injection hrest with hrows ht
                subst ht
                refine ⟨?_, hlen3⟩
                rw [hview3, hview2, hview1]

theorem execute_select_sim (fuel : Nat) (t : Table)
    (hlen : t.pager.pages.length = TABLE_MAX_PAGES) :
    (execute_select fuel t).map (fun x => (x.1, x.2.1))
      = execute_select_pure fuel (pageView t.pager) t.root_page_num := by
  obtain ⟨hts1, hts2⟩ := table_start_sim t hlen
  rcases hts : table_start t with e | ct1
  · have htsp : table_start_pure (pageView t.pager) t.root_page_num = .error e := by
      rw [← hts1, hts]
      rfl
    simp [execute_select, hts, execute_select_pure, htsp, except_bind_err, except_map_err]
  · obtain ⟨c1, t1⟩ := ct1
    obtain ⟨hview1, hlen1, hroot1, hfile1, hflen1⟩ := hts2 c1 t1 hts
    have htsp : table_start_pure (pageView t.pager) t.root_page_num = .ok c1 := by
      rw [← hts1, hts]
      rfl
    obtain ⟨hsl1, hsl2⟩ := select_loop_sim fuel t1 c1 hlen1
    simp only [execute_select, hts, except_bind_ok, execute_select_pure, htsp]
    rw [hsl1, hview1]


-- Closing and reopening the database (claim C7).

theorem readSeg_eq_zero (p o l : Nat) (h : p < b256 o) : readSeg p o l = 0 := by
  rw [readSeg, Nat.div_eq_of_lt h]
  exact Nat.zero_mod _

theorem pagerWF_bounded (pg : Pager) (h : pagerWF pg = true) (i : Nat) (p : Page)
    (hi : pg.pages.get? i = some (some p)) (hi100 : i < TABLE_MAX_PAGES) :
    p < b256 PAGE_SIZE := by
  unfold pagerWF at h
  simp only [Bool.and_eq_true, List.all_eq_true, List.mem_range, decide_eq_true_eq,
    beq_iff_eq] at h
  have hb := h.2 i hi100
  unfold slot_bounded at hb
  rw [hi] at hb
  simpa using hb

theorem db_close_fold (t : Table) (hWF : pagerWF t.pager = true) :
    ∀ (l : List Nat) (f0 : DbFile), (∀ i ∈ l, i < t.pager.num_pages) →
    (l.foldlM (fun f i =>
      match t.pager.pages.get? i with
      | none => .error Err.slotOOB
      | some none => .ok f
      | some (some page) => .ok (pager_flush_file f page i)) f0 : Except Err DbFile)
      = .ok (l.foldl (fun f i => pager_flush_file f (pageView t.pager i) i) f0) := by
  intro l
  induction l with
  | nil => intro f0 _; rfl
  | cons a as ih =>
    intro f0 hmem
    have ha : a < t.pager.num_pages := hmem a (by simp)
    have hslot := pagerWF_slot_lt t.pager hWF a ha
    rw [List.foldlM_cons, hslot]
    show (Except.ok (pager_flush_file f0 (pageView t.pager a) a) >>= _) = _
    rw [except_bind_ok]
    exact ih (pager_flush_file f0 (pageView t.pager a) a)
      (fun i hi => hmem i (by simp [hi]))

theorem db_close_ok (t : Table) (hWF : pagerWF t.pager = true) :
    db_close t = .ok ((List.range t.pager.num_pages).foldl (fun f i => pager_flush_file f (pageView t.pager i) i) { length := t.pager.file_length, bytes := t.pager.file }) := by
  show (List.range t.pager.num_pages).foldlM _ _ = _
  exact db_close_fold t hWF (List.range t.pager.num_pages) _
    (fun i hi => List.mem_range.mp hi)

theorem flush_fold_spec (V : Nat → Page) (N : Nat) : ∀ (m : Nat) (f0 : DbFile),
    m ≤ N → f0.bytes < b256 (N * PAGE_SIZE) →
    ((List.range m).foldl (fun f i => pager_flush_file f (V i) i) f0).bytes
        < b256 (N * PAGE_SIZE) ∧
    (∀ n, n < m →
      readSeg ((List.range m).foldl (fun f i => pager_flush_file f (V i) i) f0).bytes
        (n * PAGE_SIZE) PAGE_SIZE = V n % b256 PAGE_SIZE) ∧
    ((List.range m).foldl (fun f i => pager_flush_file f (V i) i) f0).length
        = max f0.length (m * PAGE_SIZE) := by
  intro m
  induction m with
  | zero =>
    intro f0 _ hb
    refine ⟨hb, fun n hn => absurd hn (by omega), ?_⟩
    show f0.length = max f0.length (0 * PAGE_SIZE)
    rw [Nat.zero_mul, Nat.max_zero]
  | succ m ih =>
    intro f0 hmN hb
    obtain ⟨ihb, ihread, ihlen⟩ := ih f0 (by omega) hb
    have hstep : (List.range (m + 1)).foldl (fun f i => pager_flush_file f (V i) i) f0
        = pager_flush_file
            ((List.range m).foldl (fun f i => pager_flush_file f (V i) i) f0) (V m) m := by
      rw [List.range_succ, List.foldl_append]
      rfl
    rw [hstep]
    refine ⟨?_, ?_, ?_⟩
    · show writeSeg _ (m * PAGE_SIZE) PAGE_SIZE (V m) < b256 (N * PAGE_SIZE)
      refine writeSeg_lt _ (N * PAGE_SIZE) _ _ _ ihb ?_
      have h1 : m * 4096 + 4096 ≤ N * 4096 := by
        calc m * 4096 + 4096 = (m + 1) * 4096 := by ring
          _ ≤ N * 4096 := Nat.mul_le_mul_right _ hmN
      exact h1
    · intro n hn
      by_cases hnm : n = m
      · subst hnm
        show readSeg (writeSeg _ (n * PAGE_SIZE) PAGE_SIZE (V n)) (n * PAGE_SIZE) PAGE_SIZE
          = V n % b256 PAGE_SIZE
        exact readSeg_writeSeg_same _ _ _ _
      · have hn2 : n < m := by omega
        have hle : n * 4096 + 4096 ≤ m * 4096 := by
          calc n * 4096 + 4096 = (n + 1) * 4096 := by ring
            _ ≤ m * 4096 := Nat.mul_le_mul_right _ (by omega)
        show readSeg (writeSeg _ (m * PAGE_SIZE) PAGE_SIZE (V m)) (n * PAGE_SIZE) PAGE_SIZE
          = V n % b256 PAGE_SIZE
        rw [readSeg_writeSeg_below _ (m * PAGE_SIZE) PAGE_SIZE (V m) (n * PAGE_SIZE)
            PAGE_SIZE hle]
        exact ihread n hn2
    · show max ((List.range m).foldl (fun f i => pager_flush_file f (V i) i) f0).length
          (m * PAGE_SIZE + PAGE_SIZE) = max f0.length ((m + 1) * PAGE_SIZE)
      rw [ihlen]
      have h1 : max (max f0.length (m * 4096)) (m * 4096 + 4096)
          = max f0.length ((m + 1) * 4096) := by omega
      exact h1

theorem db_open_nonempty (f : DbFile) (np : Nat) (hnp : 1 ≤ np)
    (hlen : f.length = np * PAGE_SIZE) :
    db_open f = .ok { root_page_num := 0, pager := { file_length := f.length, file := f.bytes, num_pages := f.length / PAGE_SIZE, pages := List.replicate TABLE_MAX_PAGES none } } := by
  have hdiv : f.length / PAGE_SIZE = np := by
    rw [hlen]
    have h1 : np * 4096 / 4096 = np := by omega
    exact h1
  have hmod : ¬ (f.length % PAGE_SIZE ≠ 0) := by
    rw [hlen]
    simp [Nat.mul_mod_left]
  have hpo : pager_open f = .ok { file_length := f.length, file := f.bytes, num_pages := f.length / PAGE_SIZE, pages := List.replicate TABLE_MAX_PAGES none } := by
    unfold pager_open
    rw [if_neg hmod]
  simp only [db_open, hpo, except_bind_ok]
  rw [if_neg (show ¬ (f.length / PAGE_SIZE = 0) from by rw [hdiv]; omega)]

theorem db_roundtrip_views (t : Table) (hWF : pagerWF t.pager = true) :
    ∃ f2 t2, db_close t = .ok f2 ∧ db_open f2 = .ok t2 ∧
      t2.root_page_num = 0 ∧ t2.pager.pages.length = TABLE_MAX_PAGES ∧
      (∀ n, pageView t2.pager n = pageView t.pager n) := by
  obtain ⟨hlen, hnp1, hnp100, _, hfl, hfile⟩ := pagerWF_parts t.pager hWF
  have hb0 : ({ length := t.pager.file_length, bytes := t.pager.file } : DbFile).bytes
      < b256 (t.pager.num_pages * PAGE_SIZE) :=
    lt_of_lt_of_le hfile (b256_mono hfl)
  obtain ⟨hFb, hFread, hFlen⟩ := flush_fold_spec (pageView t.pager) t.pager.num_pages
    t.pager.num_pages { length := t.pager.file_length, bytes := t.pager.file }
    (Nat.le_refl _) hb0
  have hFlen2 : ((List.range t.pager.num_pages).foldl (fun f i => pager_flush_file f (pageView t.pager i) i) { length := t.pager.file_length, bytes := t.pager.file }).length = t.pager.num_pages * PAGE_SIZE := by
    rw [hFlen]
    exact Nat.max_eq_right hfl
  have hopen := db_open_nonempty ((List.range t.pager.num_pages).foldl (fun f i => pager_flush_file f (pageView t.pager i) i) { length := t.pager.file_length, bytes := t.pager.file }) t.pager.num_pages hnp1 hFlen2
  have hPGdiv : ((List.range t.pager.num_pages).foldl (fun f i => pager_flush_file f (pageView t.pager i) i) { length := t.pager.file_length, bytes := t.pager.file }).length / PAGE_SIZE = t.pager.num_pages := by
    rw [hFlen2]
    have h1 : t.pager.num_pages * 4096 / 4096 = t.pager.num_pages := by omega
    exact h1
  have hrepl : ∀ n, n < TABLE_MAX_PAGES →
      (List.replicate TABLE_MAX_PAGES (none : Option Page)).get? n = some none := by
    intro n hn
    rw [List.get?_eq_getElem?, List.getElem?_replicate, if_pos hn]
  have hrepl2 : ∀ n, TABLE_MAX_PAGES ≤ n →
      (List.replicate TABLE_MAX_PAGES (none : Option Page)).get? n = none := by
    intro n hn
    exact List.get?_eq_none.mpr (by rw [List.length_replicate]; omega)
  have hzeroR : ∀ n, t.pager.num_pages ≤ n → file_page t.pager n = 0 := by
    intro n hn
    exact file_page_zero t.pager n (le_trans hfl (Nat.mul_le_mul_right _ hn)) hfile
  have hRzero : ∀ n, t.pager.num_pages ≤ n → pageView t.pager n = 0 := by
    intro n hn
    by_cases hn100 : n < TABLE_MAX_PAGES
    · rw [pageView_of_miss t.pager n (pagerWF_slot_ge t.pager hWF n hn hn100),
        hzeroR n hn]
      split_ifs <;> rfl
    · rw [pageView_of_none t.pager n (List.get?_eq_none.mpr (by rw [hlen]; omega)),
        hzeroR n hn]
      split_ifs <;> rfl
  refine ⟨((List.range t.pager.num_pages).foldl (fun f i => pager_flush_file f (pageView t.pager i) i) { length := t.pager.file_length, bytes := t.pager.file }), _, db_close_ok t hWF, hopen, rfl, by rfl, ?_⟩
  intro n
  have hbytes_zero : ∀ x, t.pager.num_pages ≤ x →
      readSeg ((List.range t.pager.num_pages).foldl (fun f i => pager_flush_file f (pageView t.pager i) i) { length := t.pager.file_length, bytes := t.pager.file }).bytes (x * PAGE_SIZE) PAGE_SIZE = 0 := by
    intro x hx
    exact readSeg_eq_zero _ _ _
      (lt_of_lt_of_le hFb (b256_mono (Nat.mul_le_mul_right _ hx)))
  by_cases hn100 : n < TABLE_MAX_PAGES
  · rw [pageView_of_miss _ n (hrepl n hn100)]
    by_cases hnnp : n < t.pager.num_pages
    · rw [if_pos (show n ≤ ((List.range t.pager.num_pages).foldl (fun f i => pager_flush_file f (pageView t.pager i) i) { length := t.pager.file_length, bytes := t.pager.file }).length / PAGE_SIZE from by rw [hPGdiv]; omega)]
      show readSeg ((List.range t.pager.num_pages).foldl (fun f i => pager_flush_file f (pageView t.pager i) i) { length := t.pager.file_length, bytes := t.pager.file }).bytes (n * PAGE_SIZE) PAGE_SIZE = pageView t.pager n
      rw [hFread n hnnp]
      exact Nat.mod_eq_of_lt (pagerWF_bounded t.pager hWF n (pageView t.pager n)
        (pagerWF_slot_lt t.pager hWF n hnnp) hn100)
    · rw [hRzero n (by omega)]
      by_cases hc : n ≤ ((List.range t.pager.num_pages).foldl (fun f i => pager_flush_file f (pageView t.pager i) i) { length := t.pager.file_length, bytes := t.pager.file }).length / PAGE_SIZE
      · rw [if_pos hc]
        show readSeg ((List.range t.pager.num_pages).foldl (fun f i => pager_flush_file f (pageView t.pager i) i) { length := t.pager.file_length, bytes := t.pager.file }).bytes (n * PAGE_SIZE) PAGE_SIZE = 0
        exact hbytes_zero n (by omega)
      · rw [if_neg hc]
        rfl
  · rw [pageView_of_none _ n (hrepl2 n (by omega))]
    rw [hRzero n (by omega)]
    by_cases hc : n ≤ ((List.range t.pager.num_pages).foldl (fun f i => pager_flush_file f (pageView t.pager i) i) { length := t.pager.file_length, bytes := t.pager.file }).length / PAGE_SIZE
    · rw [if_pos hc]
      show readSeg ((List.range t.pager.num_pages).foldl (fun f i => pager_flush_file f (pageView t.pager i) i) { length := t.pager.file_length, bytes := t.pager.file }).bytes (n * PAGE_SIZE) PAGE_SIZE = 0
      refine hbytes_zero n ?_
      omega
    · rw [if_neg hc]
      rfl

/-- C7: closing the database (flushing every present page in [0, num_pages))
and reopening the resulting file yields a table on which every page reads back
identically, so a full scan (execute_select, returning the status together with
the list of rows emitted) gives exactly the same result as on the original
table: the close/open round trip preserves the stored rows. -/
theorem C7_close_open_roundtrip (t : Table) (hWF : pagerWF t.pager = true)
    (hroot : t.root_page_num = 0) :
    ∃ f2 t2, db_close t = .ok f2 ∧ db_open f2 = .ok t2 ∧
      (∀ n, pageView t2.pager n = pageView t.pager n) ∧
      (∀ fuel, (execute_select fuel t2).map (fun x => (x.1, x.2.1))
        = (execute_select fuel t).map (fun x => (x.1, x.2.1))) := by
  obtain ⟨f2, t2, hclose, hopen, hroot2, hlen2, hview⟩ := db_roundtrip_views t hWF
  refine ⟨f2, t2, hclose, hopen, hview, ?_⟩
  intro fuel
  have hlen1 : t.pager.pages.length = TABLE_MAX_PAGES := (pagerWF_parts t.pager hWF).1
  rw [execute_select_sim fuel t2 hlen2, execute_select_sim fuel t hlen1,
    funext hview, hroot2, hroot]

set_option maxRecDepth 1000000 in
theorem C7_close_open_roundtrip_witness :
    pagerWF (table_after [1]).pager = true ∧ (table_after [1]).root_page_num = 0 ∧
    (∃ f2 t2, db_close (table_after [1]) = .ok f2 ∧ db_open f2 = .ok t2 ∧
      (∀ n, pageView t2.pager n = pageView (table_after [1]).pager n) ∧
      (∀ fuel, (execute_select fuel t2).map (fun x => (x.1, x.2.1))
        = (execute_select fuel (table_after [1])).map (fun x => (x.1, x.2.1)))) :=
  ⟨by decide, by decide,
    C7_close_open_roundtrip (table_after [1]) (by decide) (by decide)⟩
